import Mathlib

/-!
# QCameraFOVControl: a shallow embedding of `QCamera2/util/QCameraFOVControl.cpp`

The dual-camera field-of-view controller is embedded as pure functions over an explicit
object state `QCameraFOVControl` (the four member structures of the C++ class).

Conventions of the embedding

* `float` values of the source are modelled as rationals (`ℚ`): infinities and NaN are
  outside the model.  A division by zero, which yields an infinity or NaN in the source,
  yields `0` here; the statements that characterise the branches taken on the zoom (C12,
  C29, C30, C31, C37) or translate with the FOV ratio (C35) exclude the zero divisor by a
  hypothesis, and take the `float` fields they read to hold single-precision values.
* single-precision rounding (`floatRound`: IEEE-754 binary32, round to nearest, ties to
  even) is applied where a rounded value is converted to an integer or decides a branch on
  the zoom: the focal-length test and the focus-distance conversion of
  `validateAndExtractParameters`, the zoom quotient
  `effectiveZoom`, the ratio conversions of `readjustZoomForTele` and `readjustZoomForWide`,
  the FOV ratio of the ROI translations and the ROI arithmetic of `translateFocusAreas`.
  The threshold and disparity computations and the coordinate arithmetic of
  `translateMeteringAreas` are carried out exactly.
* `uint32_t`/`uint16_t`/`uint8_t` values are natural numbers, `int32_t` values are integers.
  Counter increments wrap modulo `2^32`; the `int32_t` sums and differences of
  `translateFocusAreas` wrap into the `int32_t` range (`wrapInt32`).  The update reads the
  brightness, the focus distance and their thresholds into `uint16_t` variables; they are
  compared here as they are stored, and the statements C12, C29, C30, C31 and C37 take
  them to be below `2^16` (`updateInputsValid`).
* nullable pointers are `Option`s; a keyed container (`parm_buffer_t`, `metadata_buffer_t`)
  is a record with one optional field per entry the controller reads or writes
  (`none` = `is_valid` flag clear).
* an array access outside the table reads `0` (undefined behaviour in the source).
* the mutex is not modelled: every operation is one atomic step.
-/

namespace qcamera

/-! ## Constants and enumerations of the missing headers -/

/-- Modelled from the spec: `cam_sync_type_t` of the missing `cam_types.h`; the Result's
`activeCameras` is a "bitmask of wide|tele" over the physical camera identities, so the two
identities are distinct single bits.  This is the main camera. -/
def CAM_TYPE_MAIN : Nat := 1

/-- Modelled from the spec: `cam_sync_type_t` of the missing `cam_types.h`, the aux camera
(the second bit of the `activeCameras` bitmask). -/
def CAM_TYPE_AUX : Nat := 2

/-- Modelled from the spec: `cam_spatial_align_type_t` of the missing `cam_types.h`, the
platform-provided ("QTI") spatial-alignment scheme bit. -/
def CAM_SPATIAL_ALIGN_QTI : Nat := 1

/-- Modelled from the spec: `cam_spatial_align_type_t` of the missing `cam_types.h`, the
OEM-provided spatial-alignment scheme bit. -/
def CAM_SPATIAL_ALIGN_OEM : Nat := 2

/-- Return codes of `utils/Errors.h` used by the controller. -/
inductive status_t where
  | NO_ERROR
  | INVALID_OPERATION
  deriving DecidableEq, Repr

/-- State of the transition state machine (`dual_cam_state`). -/
inductive dual_cam_state where
  | STATE_WIDE
  | STATE_TELE
  | STATE_TRANSITION
  deriving DecidableEq, Repr

/-- Direction of the last zoom change (`dual_cam_zoom_dir`). -/
inductive dual_cam_zoom_dir where
  | ZOOM_STABLE
  | ZOOM_IN
  | ZOOM_OUT
  deriving DecidableEq, Repr

/-- Autofocus validity kept per camera (`af_status`). -/
inductive af_status where
  | AF_VALID
  | AF_INVALID
  deriving DecidableEq, Repr

/-- Position of the aux camera relative to the main camera (`cam_relative_position`). -/
inductive cam_relative_position where
  | CAM_POSITION_LEFT
  | CAM_POSITION_RIGHT
  deriving DecidableEq, Repr

/-- Autofocus states reported in the metadata (`cam_af_state_t`). -/
inductive cam_af_state_t where
  | CAM_AF_STATE_INACTIVE
  | CAM_AF_STATE_PASSIVE_SCAN
  | CAM_AF_STATE_PASSIVE_FOCUSED
  | CAM_AF_STATE_ACTIVE_SCAN
  | CAM_AF_STATE_FOCUSED_LOCKED
  | CAM_AF_STATE_NOT_FOCUSED_LOCKED
  | CAM_AF_STATE_PASSIVE_UNFOCUSED
  deriving DecidableEq, Repr

/-- Logical role reported by the spatial-alignment output (`cam_dual_camera_role_t`); only
`CAM_ROLE_WIDE` and `CAM_ROLE_TELE` are distinguished by the controller. -/
inductive cam_dual_camera_role_t where
  | CAM_ROLE_DEFAULT
  | CAM_ROLE_BAYER
  | CAM_ROLE_MONO
  | CAM_ROLE_WIDE
  | CAM_ROLE_TELE
  deriving DecidableEq, Repr

/-- Stream types of a stream configuration (`cam_stream_type_t`); only preview and video are
distinguished by the controller. -/
inductive cam_stream_type_t where
  | CAM_STREAM_TYPE_DEFAULT
  | CAM_STREAM_TYPE_PREVIEW
  | CAM_STREAM_TYPE_POSTVIEW
  | CAM_STREAM_TYPE_SNAPSHOT
  | CAM_STREAM_TYPE_VIDEO
  deriving DecidableEq, Repr

/-- Compile-time settings of the missing `QCameraFOVControlSettings.h`, taken as a
parameter of the operations that read them. -/
structure FOVCSettings where
  FOVC_CAM_SNAPSHOT_PP_ENABLE : Bool
  FOVC_CAM_SNAPSHOT_PP_ZOOM_MIN : ℚ
  FOVC_CAM_SNAPSHOT_PP_ZOOM_MAX : ℚ
  FOVC_CAM_SNAPSHOT_PP_LUX_MIN : Nat
  FOVC_CAMCORDER_SNAPSHOT_PP_ENABLE : Bool
  FOVC_AUXCAM_SWITCH_LUX_MIN : Nat
  FOVC_AUXCAM_SWITCH_FOCUS_DIST_CM_MIN : Nat
  FOVC_MAIN_CAM_FALLBACK_MECHANISM : Bool
  deriving DecidableEq, Repr

/-! ## Numeric conversions -/

/-- Modulus of `uint32_t` arithmetic. -/
def UINT32_MOD : Nat := 4294967296

/-- Conversion of a `float` to `uint32_t`: the fractional part is discarded.  Negative
values (undefined in the source) give `0`. -/
def floatToUint32 (x : ℚ) : Nat := (Int.toNat ⌊x⌋) % UINT32_MOD

/-- Smallest `int32_t` value. -/
def INT32_MIN : Int := -2147483648

/-- Largest `int32_t` value. -/
def INT32_MAX : Int := 2147483647

/-- Result of an `int32_t` addition or subtraction: the exact result wrapped into the
`int32_t` range (two's complement; a signed overflow is undefined in the source). -/
def wrapInt32 (x : Int) : Int := (x + 2147483648) % 4294967296 - 2147483648

/-- Conversion of a `float` to `int32_t`: truncation toward zero.  A value outside the
`int32_t` range (undefined in the source) gives the nearest bound, the result of the
conversion instruction of the target. -/
def floatToInt32 (x : ℚ) : Int :=
  let t : Int := if 0 ≤ x then ⌊x⌋ else ⌈x⌉
  if t < INT32_MIN then INT32_MIN else if INT32_MAX < t then INT32_MAX else t

/-- The power `2^e` as a rational number. -/
def floatPow2 (e : Int) : ℚ :=
  if 0 ≤ e then ((2 ^ e.toNat : Nat) : ℚ) else 1 / ((2 ^ (-e).toNat : Nat) : ℚ)

/-- Binary logarithm of a natural number, rounded down, by repeated halving (`fuel` bounds
the number of halvings). -/
def log2Loop : Nat → Nat → Nat
  | 0, _ => 0
  | fuel + 1, n => if 2 ≤ n then log2Loop fuel (n / 2) + 1 else 0

/-- Binary logarithm of a natural number, rounded down (`0` for `0`). -/
def log2Floor (n : Nat) : Nat := log2Loop n n

/-- Binary exponent of a positive rational `q`: the integer `e` with `2^e ≤ q < 2^(e+1)`. -/
def floatExponent (q : ℚ) : Int :=
  let e0 : Int := (log2Floor q.num.toNat : Int) - (log2Floor q.den : Int)
  if floatPow2 e0 ≤ q then e0 else e0 - 1

/-- Rounding of a rational to the nearest integer, ties to the even one. -/
def roundHalfEven (m : ℚ) : Int :=
  let f := ⌊m⌋
  let r := m - f
  if r < 1 / 2 then f else if 1 / 2 < r then f + 1 else if f % 2 = 0 then f else f + 1

/-- Rounding of a positive rational to single precision: 24 significant bits at the
exponent of the value, which is at least `-126` (subnormal numbers below). -/
def floatRoundPos (q : ℚ) : ℚ :=
  let u := floatPow2 (max (floatExponent q) (-126) - 23)
  (roundHalfEven (q / u) : ℚ) * u

/-- Rounding of an exact result to a `float` (IEEE-754 binary32, round to nearest, ties to
even): the value every single-precision operation and every conversion of an integer to
`float` stores.  Overflow to an infinity (from `2^128` on) is outside the model. -/
def floatRound (q : ℚ) : ℚ :=
  if q = 0 then 0 else if 0 < q then floatRoundPos q else - floatRoundPos (-q)

/-! ## Data model -/

/-- Width and height of a frame (`cam_dimension_t`). -/
structure cam_dimension_t where
  width : Int := 0
  height : Int := 0
  deriving DecidableEq, Repr

/-- Per-camera calibration (`dual_cam_params_t::paramsMain`, `paramsAux`). -/
structure cam_params_t where
  sensorStreamWidth : Nat := 0
  sensorStreamHeight : Nat := 0
  pixelPitchUm : ℚ := 0
  focalLengthMm : ℚ := 0
  deriving DecidableEq, Repr

/-- Calibration of the camera pair (`dual_cam_params_t`). -/
structure dual_cam_params_t where
  paramsMain : cam_params_t := {}
  paramsAux : cam_params_t := {}
  baselineMm : ℚ := 0
  minFocusDistanceCm : Nat := 0
  rollDegrees : ℚ := 0
  pitchDegrees : ℚ := 0
  yawDegrees : ℚ := 0
  positionAux : cam_relative_position := cam_relative_position.CAM_POSITION_LEFT
  deriving DecidableEq, Repr

/-- Snapshot post-process window (`snapshot_pp_config_t`). -/
structure snapshot_pp_config_t where
  enablePostProcess : Bool := false
  zoomMin : ℚ := 0
  zoomMax : ℚ := 0
  luxMin : Nat := 0
  focusDistanceMin : Nat := 0
  deriving DecidableEq, Repr

/-- Configuration of the controller (`fov_control_config_t`). -/
structure fov_control_config_t where
  percentMarginHysterisis : ℚ := 0
  percentMarginAux : ℚ := 0
  percentMarginMain : ℚ := 0
  waitTimeForHandoffMs : Nat := 0
  auxSwitchBrightnessMin : Nat := 0
  auxSwitchFocusDistCmMin : Nat := 0
  snapshotPPConfig : snapshot_pp_config_t := {}
  deriving DecidableEq, Repr

/-- Derived thresholds over the logical zoom ratio (`dual_cam_transition_params_t`). -/
structure dual_cam_transition_params_t where
  cropRatio : ℚ := 0
  cutOverFactor : ℚ := 0
  cutOverWideToTele : ℚ := 0
  cutOverTeleToWide : ℚ := 0
  transitionHigh : ℚ := 0
  transitionLow : ℚ := 0
  deriving DecidableEq, Repr

/-- Pixel shift reported by spatial alignment (`spatial_align_shift_t`). -/
structure spatial_align_shift_t where
  shiftHorz : Int := 0
  shiftVert : Int := 0
  deriving DecidableEq, Repr

/-- Book-keeping of the spatial-alignment output (`spatial_align_result_t`). -/
structure spatial_align_result_t where
  readyStatus : Nat := 0
  camMasterHint : Nat := 0
  camMasterPreview : Nat := 0
  camMaster3A : Nat := 0
  activeCameras : Nat := 0
  shiftWide : spatial_align_shift_t := {}
  shiftTele : spatial_align_shift_t := {}
  deriving DecidableEq, Repr

/-- Per-camera 3A snapshot: autofocus validity, focus distance and brightness. -/
structure cam_3a_status_t where
  afStatus : af_status := af_status.AF_VALID
  focusDistCm : Nat := 0
  lux : Nat := 0
  deriving DecidableEq, Repr

/-- The 3A snapshots of both cameras (`dual_cam_3a_status_t`). -/
structure dual_cam_3a_status_t where
  main : cam_3a_status_t := {}
  aux : cam_3a_status_t := {}
  deriving DecidableEq, Repr

/-- Mutable run-time state (`fov_control_data_t`). -/
structure fov_control_data_t where
  configCompleted : Bool := false
  camcorderMode : Bool := false
  zoomStableCount : Nat := 0
  zoomStableCountThreshold : Nat := 0
  focusDistStableCount : Nat := 0
  focusDistStableCountThreshold : Nat := 0
  brightnessStableCount : Nat := 0
  brightnessStableCountThreshold : Nat := 0
  zoomDirection : dual_cam_zoom_dir := dual_cam_zoom_dir.ZOOM_STABLE
  zoomWide : Nat := 0
  zoomWidePrev : Nat := 0
  zoomTele : Nat := 0
  basicFovRatio : ℚ := 0
  transitionParams : dual_cam_transition_params_t := {}
  status3A : dual_cam_3a_status_t := {}
  spatialAlignResult : spatial_align_result_t := {}
  camWide : Nat := 0
  camTele : Nat := 0
  camState : dual_cam_state := dual_cam_state.STATE_WIDE
  previewSize : cam_dimension_t := {}
  camMainWidthMargin : ℚ := 0
  camMainHeightMargin : ℚ := 0
  camAuxWidthMargin : ℚ := 0
  camAuxHeightMargin : ℚ := 0
  shiftHorzAdjusted : ℚ := 0
  shiftVertAdjusted : ℚ := 0
  fallbackEnabled : Bool := false
  fallbackToWide : Bool := false
  wideCamStreaming : Bool := false
  teleCamStreaming : Bool := false
  availableSpatialAlignSolns : Nat := 0
  zoomRatioTable : List Nat := []
  zoomRatioTableCount : Nat := 0
  deriving DecidableEq, Repr

/-- The externally visible decision snapshot (`fov_control_result_t`). -/
structure fov_control_result_t where
  camMasterPreview : Nat := 0
  camMaster3A : Nat := 0
  activeCameras : Nat := 0
  snapshotPostProcess : Bool := false
  snapshotPostProcessZoomRange : Bool := false
  isValid : Bool := false
  deriving DecidableEq, Repr

/-- The controller object: the four member structures of class `QCameraFOVControl`. -/
structure QCameraFOVControl where
  mDualCamParams : dual_cam_params_t := {}
  mFovControlConfig : fov_control_config_t := {}
  mFovControlData : fov_control_data_t := {}
  mFovControlResult : fov_control_result_t := {}
  deriving DecidableEq, Repr

/-- The constructor: all four member structures are cleared with `memset`. -/
def QCameraFOVControl.new : QCameraFOVControl :=
  { mDualCamParams := { positionAux := cam_relative_position.CAM_POSITION_LEFT },
    mFovControlConfig := {},
    mFovControlData := {},
    mFovControlResult := {} }

/-! ## Zoom mapper -/

/-- The loop of `findZoomValue` from index `i` on, with `n` iterations left: the first index
whose table entry is at least `zoomRatio`, or the initial value `0` if the loop ends. -/
def findZoomValueLoop (tbl : List Nat) (zoomRatio : Nat) : Nat → Nat → Nat
  | 0, _ => 0
  | n + 1, i => if zoomRatio ≤ tbl.getD i 0 then i else findZoomValueLoop tbl zoomRatio n (i + 1)

/-- The function `findZoomValue`: for the input zoom ratio, find the zoom value (table index). -/
def findZoomValue (d : fov_control_data_t) (zoomRatio : Nat) : Nat :=
  findZoomValueLoop d.zoomRatioTable zoomRatio d.zoomRatioTableCount 0

/-- The function `findZoomRatio`: for the input zoom value (table index), find the zoom ratio. -/
def findZoomRatio (d : fov_control_data_t) (zoom : Nat) : Nat :=
  d.zoomRatioTable.getD zoom 0

/-- The function `readjustZoomForTele`: zoom value of the tele camera for a zoom value of the wide
camera.  The `uint32_t` ratio is converted to `float`, divided by the cut-over factor in
single precision and truncated to `uint32_t`. -/
def readjustZoomForTele (d : fov_control_data_t) (zoomWide : Nat) : Nat :=
  let zoomRatioWide := findZoomRatio d zoomWide
  let zoomRatioTele := floatToUint32
    (floatRound (floatRound (zoomRatioWide : ℚ) / d.transitionParams.cutOverFactor))
  findZoomValue d zoomRatioTele

/-- The function `readjustZoomForWide`: zoom value of the wide camera for a zoom value of the tele
camera.  The `uint32_t` ratio is converted to `float`, multiplied by the cut-over factor in
single precision and truncated to `uint32_t`. -/
def readjustZoomForWide (d : fov_control_data_t) (zoomTele : Nat) : Nat :=
  let zoomRatioTele := findZoomRatio d zoomTele
  let zoomRatioWide := floatToUint32
    (floatRound (floatRound (zoomRatioTele : ℚ) * d.transitionParams.cutOverFactor))
  findZoomValue d zoomRatioWide

/-- The function `convertUserZoomToWideAndTele`: store the user zoom as the wide zoom and derive the
tele zoom from it. -/
def convertUserZoomToWideAndTele (s : QCameraFOVControl) (zoom : Nat) : QCameraFOVControl :=
  let d1 := { s.mFovControlData with zoomWide := zoom }
  { s with mFovControlData := { d1 with zoomTele := readjustZoomForTele d1 d1.zoomWide } }

/-- The function `isMainCamFovWider`: the main camera is the wider one iff its focal length is strictly
smaller. -/
def isMainCamFovWider (s : QCameraFOVControl) : Bool :=
  decide (s.mDualCamParams.paramsMain.focalLengthMm < s.mDualCamParams.paramsAux.focalLengthMm)

/-! ## Capability descriptors and construction -/

/-- Per-camera block of the related-camera calibration
(`cam_related_sensor_calibration_data_t`). -/
structure cam_related_sensor_calibration_data_t where
  native_sensor_resolution_width : Nat := 0
  native_sensor_resolution_height : Nat := 0
  deriving DecidableEq, Repr

/-- Calibration block of a capability descriptor (`cam_related_system_calibration_data_t`). -/
structure cam_related_system_calibration_data_t where
  main_cam_specific_calibration : cam_related_sensor_calibration_data_t := {}
  aux_cam_specific_calibration : cam_related_sensor_calibration_data_t := {}
  relative_baseline_distance : ℚ := 0
  relative_position_flag : Nat := 0
  deriving DecidableEq, Repr

/-- Capability descriptor of one camera (`cam_capability_t`), restricted to the fields the
controller reads.  A size or format table holds the first `*_cnt` entries of the source
array, so its count is the length of the list; the zoom-ratio table keeps its count
separately. -/
structure cam_capability_t where
  focal_length : ℚ := 0
  pixel_pitch_um : ℚ := 0
  related_cam_calibration : cam_related_system_calibration_data_t := {}
  max_roll_degrees : ℚ := 0
  max_pitch_degrees : ℚ := 0
  max_yaw_degrees : ℚ := 0
  min_focus_distance : ℚ := 0
  avail_spatial_align_solns : Nat := 0
  zoom_supported : Nat := 0
  zoom_ratio_tbl : List Nat := []
  zoom_ratio_tbl_cnt : Nat := 0
  preview_sizes_tbl : List cam_dimension_t := []
  video_sizes_tbl : List cam_dimension_t := []
  livesnapshot_sizes_tbl : List cam_dimension_t := []
  picture_sizes_tbl : List cam_dimension_t := []
  supported_preview_fmts : List Nat := []
  supported_picture_fmts : List Nat := []
  deriving DecidableEq, Repr

/-- The function `validateAndExtractParameters`: validates a subset of the capabilities and saves the
calibration for decision making.  Returns the success flag and the updated object.  The
focal lengths are compared in hundredths of a millimetre: the single-precision product with
100, truncated to `uint32_t`; the minimum focus distances are single-precision quotients,
truncated likewise. -/
def validateAndExtractParameters (s : QCameraFOVControl)
    (capsMainCam capsAuxCam : Option cam_capability_t) : Bool × QCameraFOVControl :=
  match capsMainCam, capsAuxCam with
  | some capsMain, some capsAux =>
    let cfg := { s.mFovControlConfig with
      percentMarginHysterisis := 5,
      percentMarginMain := 10,
      percentMarginAux := 15,
      waitTimeForHandoffMs := 1000 }
    let p := s.mDualCamParams
    let p1 : dual_cam_params_t :=
      if floatToUint32 (floatRound (capsMain.focal_length * 100)) ≠
          floatToUint32 (floatRound (capsAux.focal_length * 100)) then
        let q : dual_cam_params_t := { p with
          paramsMain :=
            { sensorStreamWidth := capsMain.related_cam_calibration.main_cam_specific_calibration.native_sensor_resolution_width,
              sensorStreamHeight := capsMain.related_cam_calibration.main_cam_specific_calibration.native_sensor_resolution_height,
              focalLengthMm := capsMain.focal_length,
              pixelPitchUm := capsMain.pixel_pitch_um },
          paramsAux :=
            { sensorStreamWidth := capsMain.related_cam_calibration.aux_cam_specific_calibration.native_sensor_resolution_width,
              sensorStreamHeight := capsMain.related_cam_calibration.aux_cam_specific_calibration.native_sensor_resolution_height,
              focalLengthMm := capsAux.focal_length,
              pixelPitchUm := capsAux.pixel_pitch_um },
          baselineMm := capsMain.related_cam_calibration.relative_baseline_distance,
          rollDegrees := capsMain.max_roll_degrees,
          pitchDegrees := capsMain.max_pitch_degrees,
          yawDegrees := capsMain.max_yaw_degrees }
        let q1 : dual_cam_params_t :=
          if 0 < capsMain.min_focus_distance ∧ 0 < capsAux.min_focus_distance then
            let minFocusDistCmMain :=
              floatToUint32 (floatRound (100 / capsMain.min_focus_distance))
            let minFocusDistCmAux :=
              floatToUint32 (floatRound (100 / capsAux.min_focus_distance))
            { q with minFocusDistanceCm :=
                if minFocusDistCmMain > minFocusDistCmAux then minFocusDistCmMain
                else minFocusDistCmAux }
          else q
        if capsMain.related_cam_calibration.relative_position_flag = 0 then
          { q1 with positionAux := cam_relative_position.CAM_POSITION_RIGHT }
        else
          { q1 with positionAux := cam_relative_position.CAM_POSITION_LEFT }
      else
        { paramsMain :=
            { sensorStreamWidth := 4208, sensorStreamHeight := 3120,
              pixelPitchUm := 112 / 100, focalLengthMm := 35 / 10 },
          paramsAux :=
            { sensorStreamWidth := 4208, sensorStreamHeight := 3120,
              pixelPitchUm := 112 / 100, focalLengthMm := 7 },
          baselineMm := 95 / 10,
          minFocusDistanceCm := 30,
          rollDegrees := 1,
          pitchDegrees := 1,
          yawDegrees := 1,
          positionAux := cam_relative_position.CAM_POSITION_LEFT }
    let d := s.mFovControlData
    let d1 : fov_control_data_t :=
      if capsMain.avail_spatial_align_solns &&& CAM_SPATIAL_ALIGN_QTI ≠ 0 ∨
          capsMain.avail_spatial_align_solns &&& CAM_SPATIAL_ALIGN_OEM ≠ 0 then
        { d with availableSpatialAlignSolns := capsMain.avail_spatial_align_solns }
      else d
    if capsMain.zoom_supported > 0 then
      (true, { s with
        mFovControlConfig := cfg,
        mDualCamParams := p1,
        mFovControlData := { d1 with
          zoomRatioTable := capsMain.zoom_ratio_tbl,
          zoomRatioTableCount := capsMain.zoom_ratio_tbl_cnt } })
    else
      (false, { s with mFovControlConfig := cfg, mDualCamParams := p1, mFovControlData := d1 })
  | _, _ => (false, s)

/-- The function `create`: returns a controller object only if the capabilities validate; maps the main
and aux cameras to wide and tele by focal length.  (Allocation failure is not modelled.) -/
def create (capsMainCam capsAuxCam : Option cam_capability_t) : Option QCameraFOVControl :=
  match capsMainCam, capsAuxCam with
  | some capsMain, some capsAux =>
    let r := validateAndExtractParameters QCameraFOVControl.new (some capsMain) (some capsAux)
    if r.1 then
      let s := r.2
      let d : fov_control_data_t :=
        if s.mDualCamParams.paramsMain.focalLengthMm < s.mDualCamParams.paramsAux.focalLengthMm then
          { s.mFovControlData with
            camWide := CAM_TYPE_MAIN,
            camTele := CAM_TYPE_AUX,
            camState := dual_cam_state.STATE_WIDE }
        else
          { s.mFovControlData with
            camWide := CAM_TYPE_AUX,
            camTele := CAM_TYPE_MAIN,
            camState := dual_cam_state.STATE_TELE }
      some { s with
        mFovControlData := d,
        mFovControlResult := { s.mFovControlResult with
          camMasterPreview := CAM_TYPE_MAIN,
          camMaster3A := CAM_TYPE_MAIN } }
    else none
  | _, _ => none

/-! ## Field-of-view geometry -/

/-- The function `calculateBasicFovRatio`: the FOV ratio between the wide and the tele camera. -/
def calculateBasicFovRatio (s : QCameraFOVControl) : Bool × QCameraFOVControl :=
  let pm := s.mDualCamParams.paramsMain
  let pa := s.mDualCamParams.paramsAux
  if 0 < pm.focalLengthMm ∧ 0 < pa.focalLengthMm then
    let fovMain : ℚ := ((pm.sensorStreamWidth : ℚ) * pm.pixelPitchUm) / pm.focalLengthMm
    let fovAux : ℚ := ((pa.sensorStreamWidth : ℚ) * pa.pixelPitchUm) / pa.focalLengthMm
    let fovWide : ℚ := if pm.focalLengthMm < pa.focalLengthMm then fovMain else fovAux
    let fovTele : ℚ := if pm.focalLengthMm < pa.focalLengthMm then fovAux else fovMain
    if 0 < fovTele then
      (true, { s with mFovControlData := { s.mFovControlData with
        basicFovRatio := fovWide / fovTele } })
    else (false, s)
  else (false, s)

/-- The function `combineFovAdjustment`: the final FOV adjustment, combining the basic FOV ratio with
the stream margins. -/
def combineFovAdjustment (s : QCameraFOVControl) : Bool × QCameraFOVControl :=
  let d := s.mFovControlData
  let ratioMarginWidth : ℚ := (1 + d.camMainWidthMargin) / (1 + d.camAuxWidthMargin)
  let ratioMarginHeight : ℚ := (1 + d.camMainHeightMargin) / (1 + d.camAuxHeightMargin)
  let adjustedRatio : ℚ :=
    if ratioMarginHeight < ratioMarginWidth then ratioMarginHeight else ratioMarginWidth
  if 0 < adjustedRatio then
    (true, { s with mFovControlData := { d with
      transitionParams := { d.transitionParams with
        cutOverFactor := d.basicFovRatio / adjustedRatio } } })
  else (false, s)

/-- The function `calculateDualCamTransitionParams`: the transition thresholds needed to switch the
camera between main and aux. -/
def calculateDualCamTransitionParams (s : QCameraFOVControl) : QCameraFOVControl :=
  let cfg := s.mFovControlConfig
  let d := s.mFovControlData
  let percentMarginWide : ℚ :=
    if isMainCamFovWider s then cfg.percentMarginMain else cfg.percentMarginAux
  let percentMarginTele : ℚ :=
    if isMainCamFovWider s then cfg.percentMarginAux else cfg.percentMarginMain
  let cropRatio := d.basicFovRatio
  let cutOverWideToTele :=
    d.transitionParams.cutOverFactor + (cfg.percentMarginHysterisis / 100) * d.basicFovRatio
  let cutOverTeleToWide := d.transitionParams.cutOverFactor
  let transitionHigh := cutOverWideToTele + (percentMarginWide / 100) * d.basicFovRatio
  let transitionLow := cutOverTeleToWide - (percentMarginTele / 100) * d.basicFovRatio
  if cfg.snapshotPPConfig.enablePostProcess then
    let transitionHigh1 :=
      if cfg.snapshotPPConfig.zoomMax > transitionHigh then cfg.snapshotPPConfig.zoomMax
      else transitionHigh
    let transitionLow1 :=
      if cfg.snapshotPPConfig.zoomMin < transitionLow then cfg.snapshotPPConfig.zoomMax
      else transitionLow
    let auxSwitchBrightnessMin1 :=
      if cfg.snapshotPPConfig.luxMin < cfg.auxSwitchBrightnessMin then
        cfg.snapshotPPConfig.luxMin
      else cfg.auxSwitchBrightnessMin
    { s with
      mFovControlConfig := { cfg with auxSwitchBrightnessMin := auxSwitchBrightnessMin1 },
      mFovControlData := { d with
        transitionParams := { d.transitionParams with
          cropRatio := cropRatio,
          cutOverWideToTele := cutOverWideToTele,
          cutOverTeleToWide := cutOverTeleToWide,
          transitionHigh := transitionHigh1,
          transitionLow := transitionLow1 } } }
  else
    { s with
      mFovControlData := { d with
        transitionParams := { d.transitionParams with
          cropRatio := cropRatio,
          cutOverWideToTele := cutOverWideToTele,
          cutOverTeleToWide := cutOverTeleToWide,
          transitionHigh := transitionHigh,
          transitionLow := transitionLow } } }

/-! ## Spatial-alignment readiness and the transition state machine -/

/-- The function `isSpatialAlignmentReady`: for the OEM solution compare the current master with the
master hint, for the QTI solution check the ready status, otherwise ready. -/
def isSpatialAlignmentReady (s : QCameraFOVControl) : Bool :=
  if s.mFovControlData.availableSpatialAlignSolns &&& CAM_SPATIAL_ALIGN_OEM ≠ 0 then
    let currentMaster := s.mFovControlResult.camMasterPreview % 256
    let camMasterHint := s.mFovControlData.spatialAlignResult.camMasterHint
    if currentMaster ≠ camMasterHint then true else false
  else if s.mFovControlData.availableSpatialAlignSolns &&& CAM_SPATIAL_ALIGN_QTI ≠ 0 then
    if s.mFovControlData.spatialAlignResult.readyStatus ≠ 0 then true else false
  else true

/-- The effective logical zoom ratio of `generateFovControlResult`: the ratio at the wide
zoom value divided by the first entry of the zoom-ratio table, both converted to `float`,
in single precision.  When the first entry is zero the quotient of the source is an
infinity or NaN; the value here is then `0`. -/
def effectiveZoom (d : fov_control_data_t) : ℚ :=
  floatRound (floatRound (findZoomRatio d d.zoomWide : ℚ) /
    floatRound (d.zoomRatioTable.getD 0 0 : ℚ))

/-- First block of `generateFovControlResult`: the previous zoom value, the zoom direction
and the zoom stable count. -/
def updateZoomDirection (d0 : fov_control_data_t) : fov_control_data_t :=
  if d0.zoomWide = d0.zoomWidePrev then
    { d0 with
      zoomWidePrev := d0.zoomWide,
      zoomDirection := dual_cam_zoom_dir.ZOOM_STABLE,
      zoomStableCount := (d0.zoomStableCount + 1) % UINT32_MOD }
  else if d0.zoomWide > d0.zoomWidePrev then
    { d0 with
      zoomWidePrev := d0.zoomWide,
      zoomDirection := dual_cam_zoom_dir.ZOOM_IN,
      zoomStableCount := 0 }
  else
    { d0 with
      zoomWidePrev := d0.zoomWide,
      zoomDirection := dual_cam_zoom_dir.ZOOM_OUT,
      zoomStableCount := 0 }

/-- Second block of `generateFovControlResult`: the snapshot post-process flags of the
Result for the effective zoom `zoom`. -/
def updateSnapshotPPFlags (s : QCameraFOVControl) (zoom : ℚ) : fov_control_result_t :=
  let pp := s.mFovControlConfig.snapshotPPConfig
  let zoomRange : Bool :=
    pp.enablePostProcess && decide (zoom ≥ pp.zoomMin) && decide (zoom ≤ pp.zoomMax)
  { s.mFovControlResult with
    snapshotPostProcessZoomRange := zoomRange,
    snapshotPostProcess :=
      zoomRange && decide (s.mFovControlData.status3A.main.lux ≥ pp.luxMin) &&
        decide (s.mFovControlData.status3A.main.focusDistCm ≥ pp.focusDistanceMin) }

/-- The stable counts of the `STATE_WIDE` case: each count is incremented while the scene
stays bright (far focused) and reset otherwise; the fallback flag is cleared when the zoom
is not above the tele-to-wide cut-over. -/
def stateWideCounters (s : QCameraFOVControl) (zoom : ℚ) : fov_control_data_t :=
  let d := s.mFovControlData
  { d with
    brightnessStableCount :=
      if d.status3A.main.lux ≥ s.mFovControlConfig.auxSwitchBrightnessMin then
        (d.brightnessStableCount + 1) % UINT32_MOD
      else 0,
    focusDistStableCount :=
      if d.status3A.main.focusDistCm ≥ s.mFovControlConfig.auxSwitchFocusDistCmMin then
        (d.focusDistStableCount + 1) % UINT32_MOD
      else 0,
    fallbackToWide :=
      if zoom ≤ d.transitionParams.cutOverTeleToWide then false else d.fallbackToWide }

/-- The `STATE_WIDE` case of `generateFovControlResult`. -/
def stateWide (s : QCameraFOVControl) (zoom : ℚ) : QCameraFOVControl :=
  let d := stateWideCounters s zoom
  let camWide := d.camWide
  let camTele := d.camTele
  if d.status3A.main.lux ≥ s.mFovControlConfig.auxSwitchBrightnessMin ∧
      d.status3A.main.focusDistCm ≥ s.mFovControlConfig.auxSwitchFocusDistCmMin then
    if s.mFovControlResult.snapshotPostProcess = true ∨
        ((zoom ≥ d.transitionParams.transitionLow ∨
            d.spatialAlignResult.activeCameras = (camWide ||| camTele)) ∧
          d.zoomDirection = dual_cam_zoom_dir.ZOOM_IN ∧ d.fallbackToWide = false) then
      { s with
        mFovControlData := { d with camState := dual_cam_state.STATE_TRANSITION },
        mFovControlResult := { s.mFovControlResult with activeCameras := (camWide ||| camTele) } }
    else if zoom > d.transitionParams.cutOverWideToTele ∧
        d.brightnessStableCount ≥ d.brightnessStableCountThreshold ∧
        d.focusDistStableCount ≥ d.focusDistStableCountThreshold then
      { s with
        mFovControlData := { d with
          camState := dual_cam_state.STATE_TRANSITION,
          fallbackToWide := false },
        mFovControlResult := { s.mFovControlResult with activeCameras := (camWide ||| camTele) } }
    else { s with mFovControlData := d }
  else { s with mFovControlData := d }

/-- The master selection of the `STATE_TRANSITION` case: switch to wide when the fallback
flag is set (and fallback is enabled) or the zoom is below the tele-to-wide cut-over, to
tele when the zoom is above the wide-to-tele cut-over, each only once that camera is
ready. -/
def transitionMaster (s : QCameraFOVControl) (zoom : ℚ) : fov_control_result_t :=
  let d := s.mFovControlData
  let r := s.mFovControlResult
  if (d.fallbackEnabled = true ∧ d.fallbackToWide = true) ∨
      zoom < d.transitionParams.cutOverTeleToWide then
    if d.camWide = CAM_TYPE_AUX then
      if d.status3A.aux.afStatus = af_status.AF_VALID ∧ isSpatialAlignmentReady s = true then
        { r with camMasterPreview := d.camWide, camMaster3A := d.camWide }
      else r
    else if d.wideCamStreaming = true then
      { r with camMasterPreview := d.camWide, camMaster3A := d.camWide }
    else r
  else if zoom > d.transitionParams.cutOverWideToTele then
    if d.camTele = CAM_TYPE_AUX then
      if d.status3A.aux.afStatus = af_status.AF_VALID ∧ isSpatialAlignmentReady s = true then
        { r with camMasterPreview := d.camTele, camMaster3A := d.camTele }
      else r
    else if d.teleCamStreaming = true then
      { r with camMasterPreview := d.camTele, camMaster3A := d.camTele }
    else r
  else r

/-- The `STATE_TRANSITION` case of `generateFovControlResult`: reset the stable counts,
select the master, and leave the state if post-processing does not pin it. -/
def stateTransition (s : QCameraFOVControl) (zoom : ℚ) : QCameraFOVControl :=
  let d : fov_control_data_t :=
    { s.mFovControlData with brightnessStableCount := 0, focusDistStableCount := 0 }
  let r := transitionMaster s zoom
  if r.snapshotPostProcess = false then
    if zoom < d.transitionParams.transitionLow ∧
        d.spatialAlignResult.activeCameras ≠ (d.camWide ||| d.camTele) then
      { s with
        mFovControlData := { d with camState := dual_cam_state.STATE_WIDE },
        mFovControlResult := { r with activeCameras := d.camWide } }
    else if zoom > d.transitionParams.transitionHigh ∧
        d.spatialAlignResult.activeCameras ≠ (d.camWide ||| d.camTele) then
      { s with
        mFovControlData := { d with camState := dual_cam_state.STATE_TELE },
        mFovControlResult := { r with activeCameras := d.camTele } }
    else { s with mFovControlData := d, mFovControlResult := r }
  else { s with mFovControlData := d, mFovControlResult := r }

/-- The stable counts of the `STATE_TELE` case: each count is incremented while the scene
stays dark (macro) and reset otherwise. -/
def stateTeleCounters (s : QCameraFOVControl) : fov_control_data_t :=
  let d := s.mFovControlData
  { d with
    brightnessStableCount :=
      if d.status3A.main.lux < s.mFovControlConfig.auxSwitchBrightnessMin then
        (d.brightnessStableCount + 1) % UINT32_MOD
      else 0,
    focusDistStableCount :=
      if d.status3A.main.focusDistCm < s.mFovControlConfig.auxSwitchFocusDistCmMin then
        (d.focusDistStableCount + 1) % UINT32_MOD
      else 0 }

/-- The `STATE_TELE` case of `generateFovControlResult`. -/
def stateTele (s : QCameraFOVControl) (zoom : ℚ) : QCameraFOVControl :=
  let d := stateTeleCounters s
  let camWide := d.camWide
  let camTele := d.camTele
  if s.mFovControlResult.snapshotPostProcess = true ∨
      ((zoom ≤ d.transitionParams.transitionHigh ∨
          d.spatialAlignResult.activeCameras = (camWide ||| camTele)) ∧
        d.zoomDirection = dual_cam_zoom_dir.ZOOM_OUT) then
    { s with
      mFovControlData := { d with camState := dual_cam_state.STATE_TRANSITION },
      mFovControlResult := { s.mFovControlResult with activeCameras := (camWide ||| camTele) } }
  else if d.status3A.main.lux < s.mFovControlConfig.auxSwitchBrightnessMin ∨
      d.status3A.main.focusDistCm < s.mFovControlConfig.auxSwitchFocusDistCmMin then
    if d.brightnessStableCount ≥ d.brightnessStableCountThreshold ∨
        d.focusDistStableCount ≥ d.focusDistStableCountThreshold then
      { s with
        mFovControlData := { d with
          camState := dual_cam_state.STATE_TRANSITION,
          fallbackToWide := if d.fallbackEnabled then true else d.fallbackToWide },
        mFovControlResult := { s.mFovControlResult with activeCameras := (camWide ||| camTele) } }
    else { s with mFovControlData := d }
  else { s with mFovControlData := d }

/-- The `switch` of `generateFovControlResult` on the state of the state machine. -/
def stateSwitch (s : QCameraFOVControl) (zoom : ℚ) : QCameraFOVControl :=
  match s.mFovControlData.camState with
  | dual_cam_state.STATE_WIDE => stateWide s zoom
  | dual_cam_state.STATE_TRANSITION => stateTransition s zoom
  | dual_cam_state.STATE_TELE => stateTele s zoom

/-- The function `generateFovControlResult`: one update of the transition state machine and of the
Result.  Before the configuration is complete only the Result is marked invalid. -/
def generateFovControlResult (s : QCameraFOVControl) : QCameraFOVControl :=
  let zoom := effectiveZoom s.mFovControlData
  if s.mFovControlData.configCompleted = false then
    { s with mFovControlResult := { s.mFovControlResult with isValid := false } }
  else
    let s1 : QCameraFOVControl :=
      { s with
        mFovControlData := updateZoomDirection s.mFovControlData,
        mFovControlResult := updateSnapshotPPFlags s zoom }
    let s2 := stateSwitch s1 zoom
    { s2 with mFovControlResult := { s2.mFovControlResult with isValid := true } }

/-- The function `getFovControlResult`: a copy of the current Result. -/
def getFovControlResult (s : QCameraFOVControl) : fov_control_result_t :=
  s.mFovControlResult

/-! ## Keyed containers -/

/-- A rectangle (`cam_rect_t`). -/
structure cam_rect_t where
  left : Int := 0
  top : Int := 0
  width : Int := 0
  height : Int := 0
  deriving DecidableEq, Repr

/-- Focus regions (`cam_roi_info_t`): the ROI array and the number of ROIs in use. -/
structure cam_roi_info_t where
  num_roi : Nat := 0
  roi : List cam_rect_t := []
  deriving DecidableEq, Repr

/-- A metering coordinate (`cam_coordinate_type_t`). -/
structure cam_coordinate_type_t where
  x : Nat := 0
  y : Nat := 0
  deriving DecidableEq, Repr

/-- Switch of the metering regions (`cam_aec_roi_ctrl_t`). -/
inductive cam_aec_roi_ctrl_t where
  | CAM_AEC_ROI_OFF
  | CAM_AEC_ROI_ON
  deriving DecidableEq, Repr

/-- Metering regions (`cam_set_aec_roi_t`): the coordinate array and the number in use. -/
structure cam_set_aec_roi_t where
  aec_roi_enable : cam_aec_roi_ctrl_t := cam_aec_roi_ctrl_t.CAM_AEC_ROI_OFF
  num_roi : Nat := 0
  coordinate : List cam_coordinate_type_t := []
  deriving DecidableEq, Repr

/-- Face-detection data (`cam_face_detection_data_t`): the face boundaries and the number
of faces detected. -/
structure cam_face_detection_data_t where
  num_faces_detected : Nat := 0
  faces : List cam_rect_t := []
  deriving DecidableEq, Repr

/-- Width and height margins of a stream (`cam_frame_margins_t`). -/
structure cam_frame_margins_t where
  widthMargins : ℚ := 0
  heightMargins : ℚ := 0
  deriving DecidableEq, Repr

/-- One slot of the parallel arrays `type[]`, `stream_sizes[]`, `margins[]` of a stream
configuration. -/
structure cam_stream_slot_t where
  type : cam_stream_type_t := cam_stream_type_t.CAM_STREAM_TYPE_DEFAULT
  stream_sizes : cam_dimension_t := {}
  margins : cam_frame_margins_t := {}
  deriving DecidableEq, Repr

/-- Stream configuration (`cam_stream_size_info_t`): its `MAX_NUM_STREAMS` slots. -/
structure cam_stream_size_info_t where
  slots : List cam_stream_slot_t := []
  deriving DecidableEq, Repr

/-- Output shift of spatial alignment (`cam_sac_output_shift_t`). -/
structure cam_sac_output_shift_t where
  shift_horz : Int := 0
  shift_vert : Int := 0
  deriving DecidableEq, Repr

/-- Spatial-alignment output carried by the metadata (`cam_sac_output_info_t`). -/
structure cam_sac_output_info_t where
  is_master_hint_valid : Bool := false
  master_hint : cam_dual_camera_role_t := cam_dual_camera_role_t.CAM_ROLE_DEFAULT
  is_master_preview_valid : Bool := false
  master_preview : cam_dual_camera_role_t := cam_dual_camera_role_t.CAM_ROLE_DEFAULT
  is_master_3A_valid : Bool := false
  master_3A : cam_dual_camera_role_t := cam_dual_camera_role_t.CAM_ROLE_DEFAULT
  is_ready_status_valid : Bool := false
  ready_status : Nat := 0
  is_output_shift_valid : Bool := false
  output_shift : cam_sac_output_shift_t := {}
  reference_res_for_output_shift : cam_dimension_t := {}
  deriving DecidableEq, Repr

/-- A keyed container (`metadata_buffer_t`): one optional field per entry the controller
reads or writes (`none` = the entry is not valid), and the remaining entries as an
uninterpreted list. -/
structure metadata_buffer_t where
  CAM_INTF_META_STREAM_INFO : Option cam_stream_size_info_t := none
  CAM_INTF_PARM_ZOOM : Option Nat := none
  CAM_INTF_PARM_DC_USERZOOM : Option Nat := none
  CAM_INTF_PARM_AF_ROI : Option cam_roi_info_t := none
  CAM_INTF_PARM_AEC_ROI : Option cam_set_aec_roi_t := none
  CAM_INTF_META_DC_SAC_OUTPUT_INFO : Option cam_sac_output_info_t := none
  CAM_INTF_META_DC_LOW_POWER_ENABLE : Option Nat := none
  CAM_INTF_META_AF_STATE : Option cam_af_state_t := none
  CAM_INTF_META_FACE_DETECTION : Option cam_face_detection_data_t := none
  others : List (Nat × Int) := []
  deriving DecidableEq, Repr

/-- A parameter batch is the same container type as a metadata buffer. -/
abbrev parm_buffer_t := metadata_buffer_t

/-! ## Configuration update -/

/-- First loop of `updateConfigSettings`: camcorder mode iff some slot is a video stream. -/
def hasVideoStream (info : cam_stream_size_info_t) : Bool :=
  info.slots.any (fun e => decide (e.type = cam_stream_type_t.CAM_STREAM_TYPE_VIDEO))

/-- Margin loop of `updateConfigSettings` for the main camera: video margins are copied,
a preview slot updates the preview size and, outside camcorder mode, supplies the margins
and ends the loop. -/
def mainMarginLoop : List cam_stream_slot_t → fov_control_data_t → fov_control_data_t
  | [], d => d
  | e :: rest, d =>
    let d1 : fov_control_data_t :=
      if e.type = cam_stream_type_t.CAM_STREAM_TYPE_VIDEO then
        { d with
          camMainWidthMargin := e.margins.widthMargins,
          camMainHeightMargin := e.margins.heightMargins }
      else d
    if e.type = cam_stream_type_t.CAM_STREAM_TYPE_PREVIEW then
      let d2 : fov_control_data_t := { d1 with previewSize := e.stream_sizes }
      if d2.camcorderMode = false then
        { d2 with
          camMainWidthMargin := e.margins.widthMargins,
          camMainHeightMargin := e.margins.heightMargins }
      else mainMarginLoop rest d2
    else mainMarginLoop rest d1

/-- Margin loop of `updateConfigSettings` for the aux camera. -/
def auxMarginLoop : List cam_stream_slot_t → fov_control_data_t → fov_control_data_t
  | [], d => d
  | e :: rest, d =>
    let d1 : fov_control_data_t :=
      if e.type = cam_stream_type_t.CAM_STREAM_TYPE_VIDEO then
        { d with
          camAuxWidthMargin := e.margins.widthMargins,
          camAuxHeightMargin := e.margins.heightMargins }
      else d
    if e.type = cam_stream_type_t.CAM_STREAM_TYPE_PREVIEW then
      let d2 : fov_control_data_t := { d1 with previewSize := e.stream_sizes }
      if d2.camcorderMode = false then
        { d2 with
          camAuxWidthMargin := e.margins.widthMargins,
          camAuxHeightMargin := e.margins.heightMargins }
      else auxMarginLoop rest d2
    else auxMarginLoop rest d1

/-- The part of `updateConfigSettings` that runs before the transition parameters are
recalculated: margins, settings, and the reset of counters and alignment book-keeping. -/
def updateConfigReset (st : FOVCSettings) (s : QCameraFOVControl)
    (camMainStreamInfo camAuxStreamInfo : cam_stream_size_info_t) : QCameraFOVControl :=
  let d0 : fov_control_data_t :=
    { s.mFovControlData with camcorderMode := hasVideoStream camMainStreamInfo }
  let d1 := mainMarginLoop camMainStreamInfo.slots d0
  let d2 := auxMarginLoop camAuxStreamInfo.slots d1
  let pp0 := s.mFovControlConfig.snapshotPPConfig
  let pp1 : snapshot_pp_config_t :=
    if d2.camcorderMode then
      { pp0 with enablePostProcess := st.FOVC_CAMCORDER_SNAPSHOT_PP_ENABLE }
    else
      { pp0 with
        enablePostProcess := st.FOVC_CAM_SNAPSHOT_PP_ENABLE,
        zoomMin := st.FOVC_CAM_SNAPSHOT_PP_ZOOM_MIN,
        zoomMax := st.FOVC_CAM_SNAPSHOT_PP_ZOOM_MAX,
        luxMin := st.FOVC_CAM_SNAPSHOT_PP_LUX_MIN }
  let cfg1 : fov_control_config_t :=
    { s.mFovControlConfig with
      snapshotPPConfig := pp1,
      auxSwitchBrightnessMin := st.FOVC_AUXCAM_SWITCH_LUX_MIN,
      auxSwitchFocusDistCmMin := st.FOVC_AUXCAM_SWITCH_FOCUS_DIST_CM_MIN }
  let d3 : fov_control_data_t :=
    { d2 with
      fallbackEnabled := st.FOVC_MAIN_CAM_FALLBACK_MECHANISM,
      zoomStableCount := 0,
      brightnessStableCount := 0,
      focusDistStableCount := 0,
      zoomDirection := dual_cam_zoom_dir.ZOOM_STABLE,
      fallbackToWide := false,
      zoomStableCountThreshold := 30,
      focusDistStableCountThreshold := 30,
      brightnessStableCountThreshold := 30,
      status3A :=
        { main := { d2.status3A.main with afStatus := af_status.AF_INVALID },
          aux := { d2.status3A.aux with afStatus := af_status.AF_INVALID } },
      spatialAlignResult :=
        { d2.spatialAlignResult with
          readyStatus := 1,
          activeCameras := CAM_TYPE_MAIN,
          shiftWide := { shiftHorz := 0, shiftVert := 0 },
          shiftTele := { shiftHorz := 0, shiftVert := 0 } } }
  { s with mFovControlConfig := cfg1, mFovControlData := d3 }

/-- The part of `updateConfigSettings` that runs once the geometry has been recalculated:
the transition parameters and the initial master, active camera and alignment hint. -/
def updateConfigInitialState (s : QCameraFOVControl) : QCameraFOVControl :=
  let s1 := calculateDualCamTransitionParams s
  let d := s1.mFovControlData
  let zoom : ℚ := effectiveZoom d
  if zoom > d.transitionParams.cutOverWideToTele then
    { s1 with
      mFovControlResult :=
        { s1.mFovControlResult with
          camMasterPreview := d.camTele,
          camMaster3A := d.camTele,
          activeCameras := d.camTele,
          snapshotPostProcess := false },
      mFovControlData :=
        { d with
          spatialAlignResult :=
            { d.spatialAlignResult with camMasterHint := d.camTele, activeCameras := d.camTele },
          configCompleted := true } }
  else
    { s1 with
      mFovControlResult :=
        { s1.mFovControlResult with
          camMasterPreview := d.camWide,
          camMaster3A := d.camWide,
          activeCameras := d.camWide,
          snapshotPostProcess := false },
      mFovControlData :=
        { d with
          spatialAlignResult :=
            { d.spatialAlignResult with camMasterHint := d.camWide, activeCameras := d.camWide },
          configCompleted := true } }

/-- The function `updateConfigSettings`: update the config settings such as margins and preview size and
recalculate the transition parameters. -/
def updateConfigSettings (st : FOVCSettings) (s : QCameraFOVControl)
    (paramsMainCam paramsAuxCam : Option parm_buffer_t) : status_t × QCameraFOVControl :=
  match paramsMainCam, paramsAuxCam with
  | some paramsMain, some paramsAux =>
    match paramsMain.CAM_INTF_META_STREAM_INFO, paramsAux.CAM_INTF_META_STREAM_INFO with
    | some camMainStreamInfo, some camAuxStreamInfo =>
      let s1 := updateConfigReset st s camMainStreamInfo camAuxStreamInfo
      let r1 := calculateBasicFovRatio s1
      if r1.1 then
        let r2 := combineFovAdjustment r1.2
        if r2.1 then (status_t.NO_ERROR, updateConfigInitialState r2.2)
        else (status_t.INVALID_OPERATION, r2.2)
      else (status_t.INVALID_OPERATION, r1.2)
    | _, _ => (status_t.INVALID_OPERATION, s)
  | _, _ => (status_t.INVALID_OPERATION, s)

/-! ## Parameter translation -/

/-- The function `convertDisparityForInputParams`: convert the disparity for the translation of input
parameters.  (The `zoom` of the source is the wide zoom value divided by the first table
entry.) -/
def convertDisparityForInputParams (s : QCameraFOVControl) : QCameraFOVControl :=
  let d := s.mFovControlData
  let zoom : ℚ := (d.zoomWide : ℚ) / (d.zoomRatioTable.getD 0 0 : ℚ)
  { s with mFovControlData := { d with
      shiftHorzAdjusted :=
        (d.transitionParams.cropRatio / zoom) * (d.spatialAlignResult.shiftTele.shiftHorz : ℚ),
      shiftVertAdjusted :=
        (d.transitionParams.cropRatio / zoom) * (d.spatialAlignResult.shiftTele.shiftVert : ℚ) } }

/-- The FOV ratio used by both ROI translations: the aux-to-main zoom ratio scaled by the
crop ratio or by its reciprocal, depending on which camera is wider; the conversions of
the ratios to `float`, the quotient, the reciprocal and the product are rounded to single
precision. -/
def roiFovRatio (s : QCameraFOVControl) : ℚ :=
  let d := s.mFovControlData
  let zoomWide : ℚ := floatRound (findZoomRatio d d.zoomWide : ℚ)
  let zoomTele : ℚ := floatRound (findZoomRatio d d.zoomTele : ℚ)
  let zoomMain : ℚ := if isMainCamFovWider s then zoomWide else zoomTele
  let zoomAux : ℚ := if isMainCamFovWider s then zoomTele else zoomWide
  if isMainCamFovWider s then
    floatRound (floatRound (zoomAux / zoomMain) * d.transitionParams.cropRatio)
  else
    floatRound (floatRound (zoomAux / zoomMain) *
      floatRound (1 / d.transitionParams.cropRatio))

/-- The rectangle that the loop of `translateFocusAreas` assigns to an ROI of the aux
camera from the ROI `m` of the main camera, before the bounds are checked: the distance
from the frame centre and the size are scaled by `fovRatio`, the start is moved by the
adjusted shift; each operation is rounded to single precision. -/
def translatedFocusRect (s : QCameraFOVControl) (fovRatio : ℚ) (m : cam_rect_t) :
    cam_rect_t :=
  let d := s.mFovControlData
  let width := d.previewSize.width
  let height := d.previewSize.height
  let AuxDiffRoiLeft : ℚ :=
    floatRound (fovRatio * floatRound ((wrapInt32 (m.left - Int.tdiv width 2) : Int) : ℚ))
  let AuxRoiLeft : ℚ :=
    floatRound (floatRound ((Int.tdiv width 2 : Int) : ℚ) + AuxDiffRoiLeft)
  let AuxDiffRoiTop : ℚ :=
    floatRound (fovRatio * floatRound ((wrapInt32 (m.top - Int.tdiv height 2) : Int) : ℚ))
  let AuxRoiTop : ℚ :=
    floatRound (floatRound ((Int.tdiv height 2 : Int) : ℚ) + AuxDiffRoiTop)
  { width := floatToInt32 (floatRound (floatRound (m.width : ℚ) * fovRatio)),
    height := floatToInt32 (floatRound (floatRound (m.height : ℚ) * fovRatio)),
    left := floatToInt32 (floatRound (AuxRoiLeft - d.shiftHorzAdjusted)),
    top := floatToInt32 (floatRound (AuxRoiTop - d.shiftVertAdjusted)) }

/-- The bounds corrections of `translateFocusAreas` on a translated rectangle that is not
reverted: a negative start is raised to `0`, a size reaching the frame edge is cut to it.
The sums and differences are `int32_t` operations. -/
def clampFocusRect (width height : Int) (a0 : cam_rect_t) : cam_rect_t :=
  let a1 : cam_rect_t := if a0.left < 0 then { a0 with left := 0 } else a0
  let a2 : cam_rect_t := if a1.top < 0 then { a1 with top := 0 } else a1
  let a3 : cam_rect_t :=
    if wrapInt32 (a2.left + a2.width) ≥ width then
      { a2 with width := wrapInt32 (width - a2.left) }
    else a2
  if wrapInt32 (a3.top + a3.height) ≥ height then
    { a3 with height := wrapInt32 (height - a3.top) }
  else a3

/-- Body of the loop of `translateFocusAreas` for ROI `i`. -/
def translateFocusAreasBody (s : QCameraFOVControl) (fovRatio : ℚ)
    (roiAfMain : cam_roi_info_t) (i : Nat) (roiAfAux : cam_roi_info_t) : cam_roi_info_t :=
  let d := s.mFovControlData
  let width := d.previewSize.width
  let height := d.previewSize.height
  let a0 : cam_rect_t := translatedFocusRect s fovRatio (roiAfMain.roi.getD i {})
  if a0.left ≥ width ∨ a0.top ≥ height then
    roiAfMain
  else
    { roiAfAux with roi := roiAfAux.roi.set i (clampFocusRect width height a0) }

/-- The loop of `translateFocusAreas` from ROI `i` on, with `n` iterations left. -/
def translateFocusAreasLoop (s : QCameraFOVControl) (fovRatio : ℚ)
    (roiAfMain : cam_roi_info_t) : Nat → Nat → cam_roi_info_t → cam_roi_info_t
  | 0, _, roiAfAux => roiAfAux
  | n + 1, i, roiAfAux =>
    translateFocusAreasLoop s fovRatio roiAfMain n (i + 1)
      (translateFocusAreasBody s fovRatio roiAfMain i roiAfAux)

/-- The function `translateFocusAreas`: translate the focus areas from the main to the aux camera. -/
def translateFocusAreas (s : QCameraFOVControl) (roiAfMain : cam_roi_info_t) : cam_roi_info_t :=
  translateFocusAreasLoop s (roiFovRatio s) roiAfMain roiAfMain.num_roi 0 roiAfMain

/-- Conversion of an `int` to `uint32_t`. -/
def intToUint32 (x : Int) : Nat := Int.toNat (x % (UINT32_MOD : Int))

/-- Body of the loop of `translateMeteringAreas` for coordinate `i`. -/
def translateMeteringAreasBody (s : QCameraFOVControl) (fovRatio : ℚ)
    (roiAecMain : cam_set_aec_roi_t) (i : Nat) (roiAecAux : cam_set_aec_roi_t) :
    cam_set_aec_roi_t :=
  let d := s.mFovControlData
  let width := d.previewSize.width
  let height := d.previewSize.height
  let m := roiAecMain.coordinate.getD i {}
  let AuxDiffRoiX : ℚ := fovRatio * ((m.x : ℚ) - ((Int.tdiv width 2 : Int) : ℚ))
  let AuxRoiX : ℚ := ((Int.tdiv width 2 : Int) : ℚ) + AuxDiffRoiX
  let AuxDiffRoiY : ℚ := fovRatio * ((m.y : ℚ) - ((Int.tdiv height 2 : Int) : ℚ))
  let AuxRoiY : ℚ := ((Int.tdiv height 2 : Int) : ℚ) + AuxDiffRoiY
  let c0 : cam_coordinate_type_t :=
    { x := floatToUint32 (AuxRoiX + d.shiftHorzAdjusted),
      y := floatToUint32 (AuxRoiY + d.shiftVertAdjusted) }
  let c1 : cam_coordinate_type_t :=
    if AuxRoiX < 0 ∨ AuxRoiY < 0 then
      { x := 0, y := 0 }
    else if AuxRoiX ≥ (width : ℚ) ∨ AuxRoiY ≥ (height : ℚ) then
      let c2 : cam_coordinate_type_t :=
        if AuxRoiX ≥ (width : ℚ) then { c0 with x := intToUint32 (width - 1) } else c0
      if AuxRoiY ≥ (height : ℚ) then { c2 with y := intToUint32 (height - 1) } else c2
    else c0
  { roiAecAux with coordinate := roiAecAux.coordinate.set i c1 }

/-- The loop of `translateMeteringAreas` from coordinate `i` on, with `n` iterations left. -/
def translateMeteringAreasLoop (s : QCameraFOVControl) (fovRatio : ℚ)
    (roiAecMain : cam_set_aec_roi_t) : Nat → Nat → cam_set_aec_roi_t → cam_set_aec_roi_t
  | 0, _, roiAecAux => roiAecAux
  | n + 1, i, roiAecAux =>
    translateMeteringAreasLoop s fovRatio roiAecMain n (i + 1)
      (translateMeteringAreasBody s fovRatio roiAecMain i roiAecAux)

/-- The function `translateMeteringAreas`: translate the AEC metering areas from the main to the aux
camera. -/
def translateMeteringAreas (s : QCameraFOVControl) (roiAecMain : cam_set_aec_roi_t) :
    cam_set_aec_roi_t :=
  translateMeteringAreasLoop s (roiFovRatio s) roiAecMain roiAecMain.num_roi 0 roiAecMain

/-- Result of `translateInputParams`: the return code, the updated object and the two
parameter batches as left by the call. -/
structure translate_result_t where
  rc : status_t
  obj : QCameraFOVControl
  paramsMainCam : Option parm_buffer_t
  paramsAuxCam : Option parm_buffer_t
  deriving DecidableEq, Repr

/-- The function `translateInputParams`: copy the main-camera parameters to the aux batch and translate
the subset that differs between the cameras (zoom, focus ROI, metering ROI). -/
def translateInputParams (s : QCameraFOVControl)
    (paramsMainCam paramsAuxCam : Option parm_buffer_t) : translate_result_t :=
  match paramsMainCam, paramsAuxCam with
  | some paramsMain, some _ =>
    -- first copy all the parameters from main to aux
    let aux0 : parm_buffer_t := paramsMain
    -- translate zoom
    let z : QCameraFOVControl × parm_buffer_t × parm_buffer_t :=
      match paramsMain.CAM_INTF_PARM_ZOOM with
      | some userZoom =>
        let s1 := convertUserZoomToWideAndTele s userZoom
        let zoomAux :=
          if isMainCamFovWider s1 then s1.mFovControlData.zoomTele
          else s1.mFovControlData.zoomWide
        let aux1 : parm_buffer_t := { aux0 with CAM_INTF_PARM_ZOOM := some zoomAux }
        let main1 : parm_buffer_t :=
          if isMainCamFovWider s1 = false then
            { paramsMain with CAM_INTF_PARM_ZOOM := some s1.mFovControlData.zoomTele }
          else paramsMain
        let main2 : parm_buffer_t :=
          { main1 with CAM_INTF_PARM_DC_USERZOOM := some s1.mFovControlData.zoomWide }
        let aux2 : parm_buffer_t :=
          { aux1 with CAM_INTF_PARM_DC_USERZOOM := some s1.mFovControlData.zoomWide }
        (generateFovControlResult s1, main2, aux2)
      | none => (s, paramsMain, aux0)
    let s2 := z.1
    let main2 := z.2.1
    let aux2 := z.2.2
    let s3 : QCameraFOVControl :=
      if main2.CAM_INTF_PARM_AF_ROI.isSome ∨ main2.CAM_INTF_PARM_AEC_ROI.isSome then
        convertDisparityForInputParams s2
      else s2
    -- translate focus areas
    let aux3 : parm_buffer_t :=
      match main2.CAM_INTF_PARM_AF_ROI with
      | some roiAfMain =>
        if roiAfMain.num_roi > 0 then
          { aux2 with CAM_INTF_PARM_AF_ROI := some (translateFocusAreas s3 roiAfMain) }
        else aux2
      | none => aux2
    -- translate metering areas
    let aux4 : parm_buffer_t :=
      match main2.CAM_INTF_PARM_AEC_ROI with
      | some roiAecMain =>
        if roiAecMain.aec_roi_enable = cam_aec_roi_ctrl_t.CAM_AEC_ROI_ON then
          { aux3 with CAM_INTF_PARM_AEC_ROI := some (translateMeteringAreas s3 roiAecMain) }
        else aux3
      | none => aux3
    { rc := status_t.NO_ERROR, obj := s3, paramsMainCam := some main2, paramsAuxCam := some aux4 }
  | _, _ =>
    { rc := status_t.INVALID_OPERATION, obj := s,
      paramsMainCam := paramsMainCam, paramsAuxCam := paramsAuxCam }

/-! ## Metadata fusion -/

/-- The loop of `translateRoiFD`: the left edge of each of the first `n` faces is shifted
by the tele shift, subtracted when the aux camera is on the left and added otherwise. -/
def translateRoiFDLoop (s : QCameraFOVControl) : Nat → List cam_rect_t → List cam_rect_t
  | 0, faces => faces
  | _ + 1, [] => []
  | n + 1, f :: faces =>
    (if s.mDualCamParams.positionAux = cam_relative_position.CAM_POSITION_LEFT then
      { f with left := f.left - s.mFovControlData.spatialAlignResult.shiftTele.shiftHorz }
    else
      { f with left := f.left + s.mFovControlData.spatialAlignResult.shiftTele.shiftHorz }) ::
      translateRoiFDLoop s n faces

/-- The function `translateRoiFD`: translate the face-detection ROI from the aux metadata to main. -/
def translateRoiFD (s : QCameraFOVControl) (metaFD : cam_face_detection_data_t) :
    cam_face_detection_data_t :=
  { metaFD with faces := translateRoiFDLoop s metaFD.num_faces_detected metaFD.faces }

/-- The physical camera playing a logical role reported by spatial alignment, if the role
is wide or tele. -/
def roleToCam (d : fov_control_data_t) : cam_dual_camera_role_t → Option Nat
  | cam_dual_camera_role_t.CAM_ROLE_WIDE => some d.camWide
  | cam_dual_camera_role_t.CAM_ROLE_TELE => some d.camTele
  | _ => none

/-- First book-keeping block of `processResultMetadata`: master hint, master for preview
(which also decides the local `masterCam`), master for 3A and ready status, each taken
from the spatial-alignment output when marked valid.  Returns `masterCam` and the data. -/
def bookKeepSacOutput (d : fov_control_data_t) (masterCam : Nat)
    (sac : cam_sac_output_info_t) : Nat × fov_control_data_t :=
  let sar0 := d.spatialAlignResult
  let sar1 : spatial_align_result_t :=
    if sac.is_master_hint_valid then
      match roleToCam d sac.master_hint with
      | some c => { sar0 with camMasterHint := c }
      | none => sar0
    else sar0
  let mp : Nat × spatial_align_result_t :=
    if sac.is_master_preview_valid then
      match roleToCam d sac.master_preview with
      | some c => (c, { sar1 with camMasterPreview := c })
      | none => (masterCam, sar1)
    else (masterCam, sar1)
  let sar2 := mp.2
  let sar3 : spatial_align_result_t :=
    if sac.is_master_3A_valid then
      match roleToCam d sac.master_3A with
      | some c => { sar2 with camMaster3A := c }
      | none => sar2
    else sar2
  let sar4 : spatial_align_result_t :=
    if sac.is_ready_status_valid then { sar3 with readyStatus := sac.ready_status } else sar3
  (mp.1, { d with spatialAlignResult := sar4 })

/-- The output shift of one camera rescaled from its reference resolution to the current
preview size; `none` when the metadata carries no valid output shift. -/
def scaledOutputShift (d : fov_control_data_t) (m : Option metadata_buffer_t) :
    Option spatial_align_shift_t :=
  match m with
  | some mb =>
    match mb.CAM_INTF_META_DC_SAC_OUTPUT_INFO with
    | some sac =>
      if sac.is_output_shift_valid then
        let horzShiftFactor : Int :=
          Int.tdiv d.previewSize.width sac.reference_res_for_output_shift.width
        let vertShiftFactor : Int :=
          Int.tdiv d.previewSize.height sac.reference_res_for_output_shift.height
        some { shiftHorz := sac.output_shift.shift_horz * horzShiftFactor,
               shiftVert := sac.output_shift.shift_vert * vertShiftFactor }
      else none
    | none => none
  | none => none

/-- The autofocus validity derived from a reported autofocus state. -/
def afStatusOf (a : cam_af_state_t) : af_status :=
  if a = cam_af_state_t.CAM_AF_STATE_FOCUSED_LOCKED ∨
      a = cam_af_state_t.CAM_AF_STATE_NOT_FOCUSED_LOCKED ∨
      a = cam_af_state_t.CAM_AF_STATE_PASSIVE_FOCUSED ∨
      a = cam_af_state_t.CAM_AF_STATE_PASSIVE_UNFOCUSED then af_status.AF_VALID
  else af_status.AF_INVALID

/-- The consolidated autofocus state sent to the application when both cameras supplied
metadata. -/
def consolidateAfState (afStatusMain afStatusAux : cam_af_state_t) : cam_af_state_t :=
  if (afStatusMain = cam_af_state_t.CAM_AF_STATE_FOCUSED_LOCKED ∨
        afStatusMain = cam_af_state_t.CAM_AF_STATE_NOT_FOCUSED_LOCKED) ∧
      (afStatusAux = cam_af_state_t.CAM_AF_STATE_FOCUSED_LOCKED ∨
        afStatusAux = cam_af_state_t.CAM_AF_STATE_NOT_FOCUSED_LOCKED) then
    if afStatusMain = cam_af_state_t.CAM_AF_STATE_FOCUSED_LOCKED ∧
        afStatusAux = cam_af_state_t.CAM_AF_STATE_FOCUSED_LOCKED then
      cam_af_state_t.CAM_AF_STATE_FOCUSED_LOCKED
    else cam_af_state_t.CAM_AF_STATE_NOT_FOCUSED_LOCKED
  else if afStatusMain ≠ cam_af_state_t.CAM_AF_STATE_FOCUSED_LOCKED ∧
      afStatusMain ≠ cam_af_state_t.CAM_AF_STATE_NOT_FOCUSED_LOCKED then afStatusMain
  else afStatusAux

/-- Which of the two metadata pointers `processResultMetadata` returns. -/
inductive meta_ptr_t where
  | META_MAIN
  | META_AUX
  deriving DecidableEq, Repr

/-- Result of `processResultMetadata`: the returned pointer (`none` = NULL), the updated
object and the two metadata buffers as left by the call. -/
structure process_result_t where
  metaResult : Option meta_ptr_t
  obj : QCameraFOVControl
  metaMain : Option metadata_buffer_t
  metaAux : Option metadata_buffer_t
  deriving DecidableEq, Repr

/-- Book-keeping of the spatial-alignment output of the first available metadata (main
preferred).  Returns the local `masterCam` and the data. -/
def bookKeepMaster (s : QCameraFOVControl)
    (metaMain metaAux : Option metadata_buffer_t) : Nat × fov_control_data_t :=
  let m : Option metadata_buffer_t := if metaMain.isSome then metaMain else metaAux
  match m.bind (fun mb => mb.CAM_INTF_META_DC_SAC_OUTPUT_INFO) with
  | some sac => bookKeepSacOutput s.mFovControlData s.mFovControlResult.camMasterPreview sac
  | none => (s.mFovControlResult.camMasterPreview, s.mFovControlData)

/-- Book-keeping of the output shift of the main camera: stored as the wide shift when
the main camera is the wider one, as the tele shift otherwise. -/
def bookKeepShiftMain (mainWider : Bool) (metaMain : Option metadata_buffer_t)
    (d : fov_control_data_t) : fov_control_data_t :=
  match scaledOutputShift d metaMain with
  | some sh =>
    if mainWider then
      { d with spatialAlignResult := { d.spatialAlignResult with shiftWide := sh } }
    else { d with spatialAlignResult := { d.spatialAlignResult with shiftTele := sh } }
  | none => d

/-- Book-keeping of the output shift of the aux camera: stored as the tele shift when the
main camera is the wider one, as the wide shift otherwise. -/
def bookKeepShiftAux (mainWider : Bool) (metaAux : Option metadata_buffer_t)
    (d : fov_control_data_t) : fov_control_data_t :=
  match scaledOutputShift d metaAux with
  | some sh =>
    if mainWider then
      { d with spatialAlignResult := { d.spatialAlignResult with shiftTele := sh } }
    else { d with spatialAlignResult := { d.spatialAlignResult with shiftWide := sh } }
  | none => d

/-- Book-keeping of the low-power hint (OEM scheme only): when the metadata of the camera
that is not master asks for low power, the alignment active set becomes the master alone. -/
def bookKeepLowPower (masterCam : Nat) (metaMain metaAux : Option metadata_buffer_t)
    (d : fov_control_data_t) : fov_control_data_t :=
  if d.availableSpatialAlignSolns &&& CAM_SPATIAL_ALIGN_OEM ≠ 0 then
    let metaInactiveCam := if masterCam = CAM_TYPE_MAIN then metaAux else metaMain
    match metaInactiveCam.bind (fun mb => mb.CAM_INTF_META_DC_LOW_POWER_ENABLE) with
    | some enableLPM =>
      if enableLPM ≠ 0 then
        { d with spatialAlignResult := { d.spatialAlignResult with activeCameras := masterCam } }
      else d
    | none => d
  else d

/-- Book-keeping of the 3A status of the main camera: autofocus validity from the reported
state, and the hard-coded lux and focus distance. -/
def bookKeepAfMain (metaMain : Option metadata_buffer_t)
    (d : fov_control_data_t) : fov_control_data_t :=
  match metaMain with
  | some mb =>
    { d with status3A := { d.status3A with
        main :=
          { afStatus :=
              match mb.CAM_INTF_META_AF_STATE with
              | some afState => afStatusOf afState
              | none => d.status3A.main.afStatus,
            lux := 1000,
            focusDistCm := 100 } } }
  | none => d

/-- Book-keeping of the autofocus validity of the aux camera. -/
def bookKeepAfAux (metaAux : Option metadata_buffer_t)
    (d : fov_control_data_t) : fov_control_data_t :=
  match metaAux.bind (fun mb => mb.CAM_INTF_META_AF_STATE) with
  | some afState =>
    { d with status3A := { d.status3A with
        aux := { d.status3A.aux with afStatus := afStatusOf afState } } }
  | none => d

/-- Book-keeping of the streaming flags of the wide and the tele camera. -/
def bookKeepStreaming (mainWider : Bool) (metaMain metaAux : Option metadata_buffer_t)
    (d : fov_control_data_t) : fov_control_data_t :=
  { d with
    wideCamStreaming := if mainWider then metaMain.isSome else metaAux.isSome,
    teleCamStreaming := if mainWider then metaAux.isSome else metaMain.isSome }

/-- The book-keeping of `processResultMetadata` done under the lock: spatial-alignment
output, output shifts, low-power hint, autofocus validity, dummy lux and focus distance,
streaming flags.  Returns the local `masterCam` and the updated object. -/
def processBookKeeping (s : QCameraFOVControl)
    (metaMain metaAux : Option metadata_buffer_t) : Nat × QCameraFOVControl :=
  let b := bookKeepMaster s metaMain metaAux
  let d : fov_control_data_t :=
    bookKeepStreaming (isMainCamFovWider s) metaMain metaAux
      (bookKeepAfAux metaAux
        (bookKeepAfMain metaMain
          (bookKeepLowPower b.1 metaMain metaAux
            (bookKeepShiftAux (isMainCamFovWider s) metaAux
              (bookKeepShiftMain (isMainCamFovWider s) metaMain b.2)))))
  (b.1, { s with mFovControlData := d })

/-- The function `processResultMetadata`: process the metadata of the main and aux cameras; the result
metadata is the one coming from the master camera. -/
def processResultMetadata (s : QCameraFOVControl)
    (metaMain metaAux : Option metadata_buffer_t) : process_result_t :=
  if metaMain.isSome ∨ metaAux.isSome then
    let bk := processBookKeeping s metaMain metaAux
    let masterCam := bk.1
    let s1 := bk.2
    let afStatusMain : cam_af_state_t :=
      (metaMain.bind (fun mb => mb.CAM_INTF_META_AF_STATE)).getD
        cam_af_state_t.CAM_AF_STATE_INACTIVE
    let afStatusAux : cam_af_state_t :=
      (metaAux.bind (fun mb => mb.CAM_INTF_META_AF_STATE)).getD
        cam_af_state_t.CAM_AF_STATE_INACTIVE
    -- select the result metadata; translate the face detection ROI of the aux metadata
    let sel : Option meta_ptr_t × Option metadata_buffer_t :=
      if masterCam = CAM_TYPE_AUX ∧ metaAux.isSome then
        (some meta_ptr_t.META_AUX,
          metaAux.map (fun mb =>
            match mb.CAM_INTF_META_FACE_DETECTION with
            | some metaFD =>
              { mb with CAM_INTF_META_FACE_DETECTION := some (translateRoiFD s1 metaFD) }
            | none => mb))
      else if masterCam = CAM_TYPE_MAIN ∧ metaMain.isSome then
        (some meta_ptr_t.META_MAIN, metaAux)
      else (none, metaAux)
    let metaResult := sel.1
    let metaAux1 := sel.2
    -- consolidate the AF status to be sent to the app
    let af := consolidateAfState afStatusMain afStatusAux
    let metaMain2 : Option metadata_buffer_t :=
      if metaMain.isSome ∧ metaAux.isSome ∧ metaResult = some meta_ptr_t.META_MAIN then
        metaMain.map (fun mb => { mb with CAM_INTF_META_AF_STATE := some af })
      else metaMain
    let metaAux2 : Option metadata_buffer_t :=
      if metaMain.isSome ∧ metaAux.isSome ∧ metaResult = some meta_ptr_t.META_AUX then
        metaAux1.map (fun mb => { mb with CAM_INTF_META_AF_STATE := some af })
      else metaAux1
    { metaResult := metaResult, obj := generateFovControlResult s1,
      metaMain := metaMain2, metaAux := metaAux2 }
  else
    { metaResult := none, obj := s, metaMain := metaMain, metaAux := metaAux }

/-! ## Sequences of operations -/

/-- The public operations of a controller object, with their arguments. -/
inductive Op where
  | updateConfigSettings (paramsMainCam paramsAuxCam : Option parm_buffer_t)
  | translateInputParams (paramsMainCam paramsAuxCam : Option parm_buffer_t)
  | processResultMetadata (metaMain metaAux : Option metadata_buffer_t)
  | getFovControlResult

/-- The object after one operation. -/
def step (st : FOVCSettings) (s : QCameraFOVControl) : Op → QCameraFOVControl
  | Op.updateConfigSettings paramsMainCam paramsAuxCam =>
    (updateConfigSettings st s paramsMainCam paramsAuxCam).2
  | Op.translateInputParams paramsMainCam paramsAuxCam =>
    (translateInputParams s paramsMainCam paramsAuxCam).obj
  | Op.processResultMetadata metaMain metaAux =>
    (processResultMetadata s metaMain metaAux).obj
  | Op.getFovControlResult => s

/-- The object after a sequence of operations. -/
def run (st : FOVCSettings) (s : QCameraFOVControl) (ops : List Op) : QCameraFOVControl :=
  ops.foldl (step st) s

/-! ## Predicates used by the invariants -/

/-- The data `b` has the role assignment and the configuration flag of the data `a`. -/
def rolesKept (a b : fov_control_data_t) : Prop :=
  b.camWide = a.camWide ∧ b.camTele = a.camTele ∧ b.configCompleted = a.configCompleted

/-- The active-camera mask of the Result `r2` is that of `r1`, or the wide camera, or the
tele camera, or both cameras of the data `d`. -/
def activeKeptOrRole (d : fov_control_data_t) (r1 r2 : fov_control_result_t) : Prop :=
  r2.activeCameras = r1.activeCameras ∨ r2.activeCameras = d.camWide ∨
    r2.activeCameras = d.camTele ∨ r2.activeCameras = (d.camWide ||| d.camTele)

/-- The invariant of a created object: the roles are the two physical cameras, one each,
and once the configuration is complete the active-camera mask of the Result is the wide
camera, the tele camera, or both. -/
def fovInvariant (s : QCameraFOVControl) : Prop :=
  ((s.mFovControlData.camWide = CAM_TYPE_MAIN ∧ s.mFovControlData.camTele = CAM_TYPE_AUX) ∨
    (s.mFovControlData.camWide = CAM_TYPE_AUX ∧ s.mFovControlData.camTele = CAM_TYPE_MAIN)) ∧
  (s.mFovControlData.configCompleted = true →
    (s.mFovControlResult.activeCameras = s.mFovControlData.camWide ∨
      s.mFovControlResult.activeCameras = s.mFovControlData.camTele ∨
      s.mFovControlResult.activeCameras =
        (s.mFovControlData.camWide ||| s.mFovControlData.camTele)))

/-- The active-camera mask of the Result matches the state of the state machine: the wide
camera in WIDE, the tele camera in TELE, both cameras in TRANSITION. -/
def stateActiveConsistent (s : QCameraFOVControl) : Prop :=
  s.mFovControlResult.activeCameras =
    match s.mFovControlData.camState with
    | dual_cam_state.STATE_WIDE => s.mFovControlData.camWide
    | dual_cam_state.STATE_TELE => s.mFovControlData.camTele
    | dual_cam_state.STATE_TRANSITION => (s.mFovControlData.camWide ||| s.mFovControlData.camTele)

/-! ## Concrete scenarios -/

/-- The zoom-ratio table of Scenario A with cut-over factor 2. -/
def scenarioTable : fov_control_data_t :=
  { zoomRatioTable := [100, 120, 150, 200, 300, 400], zoomRatioTableCount := 6,
    transitionParams := { cutOverFactor := 2 } }

/-- A two-entry zoom-ratio table. -/
def twoEntryTable : fov_control_data_t :=
  { zoomRatioTable := [100, 200], zoomRatioTableCount := 2 }

/-- Capabilities of a camera pair whose main camera is the wide one (focal lengths 3.5 mm
and 7 mm, equal sensors), with the zoom-ratio table of Scenario A: basic FOV ratio 2. -/
def capsMainWide : cam_capability_t :=
  { focal_length := 35 / 10, pixel_pitch_um := 112 / 100,
    related_cam_calibration :=
      { main_cam_specific_calibration := { native_sensor_resolution_width := 4208,
                                           native_sensor_resolution_height := 3120 },
        aux_cam_specific_calibration := { native_sensor_resolution_width := 4208,
                                          native_sensor_resolution_height := 3120 } },
    zoom_supported := 1,
    zoom_ratio_tbl := [100, 120, 150, 200, 300, 400], zoom_ratio_tbl_cnt := 6 }

/-- Capabilities of the aux camera of the pair `capsMainWide`: the tele camera. -/
def capsAuxTele : cam_capability_t :=
  { focal_length := 7, pixel_pitch_um := 112 / 100 }

/-- Capabilities of a camera pair whose main camera is the tele one (7 mm against 3.5 mm). -/
def capsMainTele : cam_capability_t :=
  { capsMainWide with focal_length := 7 }

/-- Capabilities of the aux camera of the pair `capsMainTele`: the wide camera. -/
def capsAuxWide : cam_capability_t :=
  { focal_length := 35 / 10, pixel_pitch_um := 112 / 100 }

/-- Settings with snapshot post-processing disabled. -/
def settingsNoPP : FOVCSettings :=
  { FOVC_CAM_SNAPSHOT_PP_ENABLE := false,
    FOVC_CAM_SNAPSHOT_PP_ZOOM_MIN := 0,
    FOVC_CAM_SNAPSHOT_PP_ZOOM_MAX := 0,
    FOVC_CAM_SNAPSHOT_PP_LUX_MIN := 0,
    FOVC_CAMCORDER_SNAPSHOT_PP_ENABLE := false,
    FOVC_AUXCAM_SWITCH_LUX_MIN := 100,
    FOVC_AUXCAM_SWITCH_FOCUS_DIST_CM_MIN := 15,
    FOVC_MAIN_CAM_FALLBACK_MECHANISM := true }

/-- Settings with snapshot post-processing enabled on the zoom window [1, 5]. -/
def settingsPP : FOVCSettings :=
  { settingsNoPP with
    FOVC_CAM_SNAPSHOT_PP_ENABLE := true,
    FOVC_CAM_SNAPSHOT_PP_ZOOM_MIN := 1,
    FOVC_CAM_SNAPSHOT_PP_ZOOM_MAX := 5 }

/-- A parameter batch carrying a stream configuration with one 1920x1080 preview stream
without margins. -/
def paramsPreview : parm_buffer_t :=
  { CAM_INTF_META_STREAM_INFO := some
      { slots := [{ type := cam_stream_type_t.CAM_STREAM_TYPE_PREVIEW,
                    stream_sizes := { width := 1920, height := 1080 } }] } }

/-- A parameter batch carrying the zoom value `z`. -/
def paramsZoom (z : Nat) : parm_buffer_t :=
  { CAM_INTF_PARM_ZOOM := some z }

/-- A metadata buffer of the main camera reporting a passive-focused autofocus state. -/
def metaFocused : metadata_buffer_t :=
  { CAM_INTF_META_AF_STATE := some cam_af_state_t.CAM_AF_STATE_PASSIVE_FOCUSED }

/-- A run that enters TRANSITION and is then reconfigured: configure, one frame of main
metadata, zoom in to index 3, configure again. -/
def opsReconfigureInTransition : List Op :=
  [ Op.updateConfigSettings (some paramsPreview) (some paramsPreview),
    Op.processResultMetadata (some metaFocused) none,
    Op.translateInputParams (some (paramsZoom 3)) (some {}),
    Op.updateConfigSettings (some paramsPreview) (some paramsPreview) ]

/-- A run that zooms to the last index while in WIDE and is then reconfigured. -/
def opsReconfigureZoomedIn : List Op :=
  [ Op.updateConfigSettings (some paramsPreview) (some paramsPreview),
    Op.translateInputParams (some (paramsZoom 5)) (some {}),
    Op.updateConfigSettings (some paramsPreview) (some paramsPreview) ]

/-- The object of a run from `create`, when `create` succeeds. -/
def runFromCreate (st : FOVCSettings) (capsMainCam capsAuxCam : Option cam_capability_t)
    (ops : List Op) : Option QCameraFOVControl :=
  (create capsMainCam capsAuxCam).map (fun s => run st s ops)

/-- Capabilities of a main camera of focal length 3.504 mm. -/
def capsNearMain : cam_capability_t :=
  { capsMainWide with focal_length := 3504 / 1000 }

/-- Capabilities of an aux camera of focal length 3.501 mm: shorter than `capsNearMain` by
less than 0.01 mm, with the same hundredths. -/
def capsNearAux : cam_capability_t :=
  { focal_length := 3501 / 1000, pixel_pitch_um := 112 / 100 }

/-- The object created from the pair `capsMainWide`, `capsAuxTele`. -/
def createdMainWide : QCameraFOVControl :=
  (create (some capsMainWide) (some capsAuxTele)).getD QCameraFOVControl.new

/-- The configuration update used in the scenarios. -/
def opConfigure : Op :=
  Op.updateConfigSettings (some paramsPreview) (some paramsPreview)

/-! ## Capability reconciliation -/

/-- The inner loop of a consolidation in `consolidateCapabilities`: the first index `j` of
the aux table, from `j` on, whose entry matches. -/
def firstMatch {α : Type} (p : α → Bool) : List α → Nat → Option Nat
  | [], _ => none
  | a :: rest, j => if p a then some j else firstMatch p rest (j + 1)

/-- The outer loop of a consolidation in `consolidateCapabilities` over the remaining main
entries, `i` being the index of the first of them: a main entry with a match at aux index
`j` takes the next free slot `cntFinal` of the consolidated table, which is overwritten
with `slot j` unless the slot is the entry's own index.  Returns the consolidated table and
its final count. -/
def consolidateLoop {α : Type} (same : α → α → Bool) (slot : Nat → α) (aux : List α) :
    List α → Nat → List α × Nat → List α × Nat
  | [], _, acc => acc
  | m :: rest, i, (tbl, cntFinal) =>
    match firstMatch (same m) aux 0 with
    | some j =>
      consolidateLoop same slot aux rest (i + 1)
        ((if cntFinal ≠ i then tbl.set cntFinal (slot j) else tbl), cntFinal + 1)
    | none => consolidateLoop same slot aux rest (i + 1) (tbl, cntFinal)

/-- Consolidation of a size table in `consolidateCapabilities`, the same code for preview,
video and livesnapshot sizes: a reused slot takes its width from the aux table at the
matching index `j` and its height from the main table at that same index `j`.  The result
is the consolidated table up to its final count. -/
def consolidateSizes (main aux : List cam_dimension_t) : List cam_dimension_t :=
  let r := consolidateLoop
    (fun m a => decide (m.width = a.width) && decide (m.height = a.height))
    (fun j => { width := (aux.getD j {}).width, height := (main.getD j {}).height })
    aux main 0 (main, 0)
  r.1.take r.2

/-- Consolidation of a format table in `consolidateCapabilities`, the same code for preview
and picture formats: a reused slot takes the aux entry at the matching index. -/
def consolidateFormats (main aux : List Nat) : List Nat :=
  let r := consolidateLoop (fun m a => decide (m = a)) (fun j => aux.getD j 0)
    aux main 0 (main, 0)
  r.1.take r.2

/-- The loop of `consolidateCapabilities` that finds the max picture dimension of a table:
the running maximum is replaced by an entry of strictly larger area. -/
def maxPicDimLoop : List cam_dimension_t → cam_dimension_t → cam_dimension_t
  | [], cur => cur
  | e :: rest, cur =>
    maxPicDimLoop rest (if cur.width * cur.height < e.width * e.height then e else cur)

/-- The max picture dimension as computed by `consolidateCapabilities`: the loop runs over
the indices below `picture_sizes_tbl_cnt - 1`, starting from the dimension 0 x 0.  (For an
empty table the bound wraps around in the source and the loop reads outside the table;
here it runs no iteration.) -/
def maxPicDim (tbl : List cam_dimension_t) : cam_dimension_t :=
  maxPicDimLoop (tbl.take (tbl.length - 1)) { width := 0, height := 0 }

/-- The function `consolidateCapabilities`: combine the capabilities of the main and aux
cameras.  Without both descriptors the source returns an uninitialised structure, modelled
as `none`. -/
def consolidateCapabilities (capsMainCam capsAuxCam : Option cam_capability_t) :
    Option cam_capability_t :=
  match capsMainCam, capsAuxCam with
  | some capsMain, some capsAux =>
    let maxPicDimMain := maxPicDim capsMain.picture_sizes_tbl
    let maxPicDimAux := maxPicDim capsAux.picture_sizes_tbl
    some { capsMain with
      preview_sizes_tbl := consolidateSizes capsMain.preview_sizes_tbl capsAux.preview_sizes_tbl,
      video_sizes_tbl := consolidateSizes capsMain.video_sizes_tbl capsAux.video_sizes_tbl,
      livesnapshot_sizes_tbl :=
        consolidateSizes capsMain.livesnapshot_sizes_tbl capsAux.livesnapshot_sizes_tbl,
      picture_sizes_tbl :=
        if maxPicDimAux.width * maxPicDimAux.height < maxPicDimMain.width * maxPicDimMain.height
        then capsAux.picture_sizes_tbl else capsMain.picture_sizes_tbl,
      supported_preview_fmts :=
        consolidateFormats capsMain.supported_preview_fmts capsAux.supported_preview_fmts,
      supported_picture_fmts :=
        consolidateFormats capsMain.supported_picture_fmts capsAux.supported_picture_fmts }
  | _, _ => none

/-- The size-list intersection in the words of the specification: the sublist, in order, of
the main sizes that have an entry of equal width and height in the aux list. -/
def specSizeIntersection (main aux : List cam_dimension_t) : List cam_dimension_t :=
  main.filter (fun m => aux.any (fun a => decide (m.width = a.width ∧ m.height = a.height)))

/-- Main-camera capabilities with the preview sizes 1x1, 2x2, 3x3. -/
def capsSizesMain : cam_capability_t :=
  { preview_sizes_tbl :=
      [{ width := 1, height := 1 }, { width := 2, height := 2 }, { width := 3, height := 3 }],
    video_sizes_tbl :=
      [{ width := 1, height := 1 }, { width := 2, height := 2 }, { width := 3, height := 3 }],
    livesnapshot_sizes_tbl :=
      [{ width := 1, height := 1 }, { width := 2, height := 2 }, { width := 3, height := 3 }] }

/-- Aux-camera capabilities with the single preview size 3x3. -/
def capsSizesAux : cam_capability_t :=
  { preview_sizes_tbl := [{ width := 3, height := 3 }],
    video_sizes_tbl := [{ width := 3, height := 3 }],
    livesnapshot_sizes_tbl := [{ width := 3, height := 3 }] }

/-! ## Runs of updates and the predicates of the temporal claims -/

/-- The object with the brightness and the focus distance of the main camera replaced by
the reading `r` (lux, focus distance in cm). -/
def set3AMain (s : QCameraFOVControl) (r : Nat × Nat) : QCameraFOVControl :=
  { s with mFovControlData := { s.mFovControlData with
      status3A := { s.mFovControlData.status3A with
        main := { s.mFovControlData.status3A.main with lux := r.1, focusDistCm := r.2 } } } }

/-- A run of state-machine updates, one per reading: before each update the brightness and
focus distance of the main camera take the values of the reading. -/
def updatesWith3A (s : QCameraFOVControl) : List (Nat × Nat) → QCameraFOVControl
  | [] => s
  | r :: rs => updatesWith3A (generateFovControlResult (set3AMain s r)) rs

/-- No `updateConfigSettings` of the run succeeds. -/
def noSuccessfulConfig (st : FOVCSettings) : QCameraFOVControl → List Op → Bool
  | _, [] => true
  | s, Op.updateConfigSettings pm pa :: rest =>
    decide ((updateConfigSettings st s pm pa).1 ≠ status_t.NO_ERROR) &&
      noSuccessfulConfig st (step st s (Op.updateConfigSettings pm pa)) rest
  | s, op :: rest => noSuccessfulConfig st (step st s op) rest

/-- The master of a fusion call in the words of the specification: the preview master of
the Result, unless the spatial-alignment output of the frame (taken from the main metadata
when present, else from the aux metadata) carries a valid master-preview role, wide or
tele, which then decides it. -/
def specFusionMaster (s : QCameraFOVControl)
    (metaMain metaAux : Option metadata_buffer_t) : Nat :=
  match (metaMain.orElse (fun _ => metaAux)).bind
      (fun mb => mb.CAM_INTF_META_DC_SAC_OUTPUT_INFO) with
  | some sac =>
    if sac.is_master_preview_valid = true ∧
        sac.master_preview = cam_dual_camera_role_t.CAM_ROLE_WIDE then
      s.mFovControlData.camWide
    else if sac.is_master_preview_valid = true ∧
        sac.master_preview = cam_dual_camera_role_t.CAM_ROLE_TELE then
      s.mFovControlData.camTele
    else s.mFovControlResult.camMasterPreview
  | none => s.mFovControlResult.camMasterPreview

/-- A locked autofocus state: focused-locked or not-focused-locked. -/
def afLocked (a : cam_af_state_t) : Bool :=
  decide (a = cam_af_state_t.CAM_AF_STATE_FOCUSED_LOCKED ∨
    a = cam_af_state_t.CAM_AF_STATE_NOT_FOCUSED_LOCKED)

/-- The consensus autofocus state in the words of the specification: focused-locked if
both cameras report focused-locked; not-focused-locked if both report a locked state but
not both focused-locked; otherwise the state of main if main is not locked, else the state
of aux. -/
def specConsensusAf (afMain afAux : cam_af_state_t) : cam_af_state_t :=
  if afMain = cam_af_state_t.CAM_AF_STATE_FOCUSED_LOCKED ∧
      afAux = cam_af_state_t.CAM_AF_STATE_FOCUSED_LOCKED then
    cam_af_state_t.CAM_AF_STATE_FOCUSED_LOCKED
  else if afLocked afMain = true ∧ afLocked afAux = true then
    cam_af_state_t.CAM_AF_STATE_NOT_FOCUSED_LOCKED
  else if afLocked afMain = false then afMain
  else afAux

/-- The autofocus state a metadata buffer reports: its entry, or inactive without one. -/
def reportedAfState (m : Option metadata_buffer_t) : cam_af_state_t :=
  (m.bind (fun mb => mb.CAM_INTF_META_AF_STATE)).getD cam_af_state_t.CAM_AF_STATE_INACTIVE

/-- The object of the pair main wide / aux tele in TRANSITION at zoom 2.0, post-processing
disabled: configured, one frame of main metadata, zoomed in to index 3. -/
def stateInTransition : QCameraFOVControl :=
  run settingsNoPP createdMainWide (opsReconfigureInTransition.take 3)

/-- The object `stateInTransition` with the user zoom moved back to index 0, before the
state machine is updated. -/
def stateInTransitionZoomedOut : QCameraFOVControl :=
  convertUserZoomToWideAndTele stateInTransition 0

/-- The data `b` differs from the data `a` at most in what a state-machine update writes:
the previous zoom value, the zoom direction, the stable counts, the fallback flag and the
state.  Everything an update only reads is kept. -/
def updateKept (a b : fov_control_data_t) : Prop :=
  b.status3A = a.status3A ∧
  b.wideCamStreaming = a.wideCamStreaming ∧
  b.teleCamStreaming = a.teleCamStreaming ∧
  b.spatialAlignResult = a.spatialAlignResult ∧
  b.transitionParams = a.transitionParams ∧
  b.zoomWide = a.zoomWide ∧
  b.zoomTele = a.zoomTele ∧
  b.zoomRatioTable = a.zoomRatioTable ∧
  b.zoomRatioTableCount = a.zoomRatioTableCount ∧
  b.brightnessStableCountThreshold = a.brightnessStableCountThreshold ∧
  b.focusDistStableCountThreshold = a.focusDistStableCountThreshold ∧
  b.previewSize = a.previewSize ∧
  b.availableSpatialAlignSolns = a.availableSpatialAlignSolns ∧
  b.fallbackEnabled = a.fallbackEnabled

/-- The roles of the object agree with the focal lengths of its calibration: the main
camera is the wide one exactly when `isMainCamFovWider` holds. -/
def rolesMatchFocal (s : QCameraFOVControl) : Prop :=
  (isMainCamFovWider s = true ∧ s.mFovControlData.camWide = CAM_TYPE_MAIN ∧
    s.mFovControlData.camTele = CAM_TYPE_AUX) ∨
  (isMainCamFovWider s = false ∧ s.mFovControlData.camWide = CAM_TYPE_AUX ∧
    s.mFovControlData.camTele = CAM_TYPE_MAIN)

/-- The buffer behind the pointer returned by `processResultMetadata`, as left by the
call. -/
def returnedBuffer (r : process_result_t) : Option metadata_buffer_t :=
  match r.metaResult with
  | some meta_ptr_t.META_MAIN => r.metaMain
  | some meta_ptr_t.META_AUX => r.metaAux
  | none => none

/-- Main metadata reporting a focused-locked autofocus state. -/
def metaLocked : metadata_buffer_t :=
  { CAM_INTF_META_AF_STATE := some cam_af_state_t.CAM_AF_STATE_FOCUSED_LOCKED }

/-- Aux metadata reporting a not-focused-locked autofocus state. -/
def metaNotFocused : metadata_buffer_t :=
  { CAM_INTF_META_AF_STATE := some cam_af_state_t.CAM_AF_STATE_NOT_FOCUSED_LOCKED }

/-- Capabilities of a main camera (wide) whose calibration reports an aux sensor of width
0: the field of view of the tele camera is 0 and the geometry cannot be computed. -/
def capsNoTeleFov : cam_capability_t :=
  { capsMainWide with
    related_cam_calibration :=
      { main_cam_specific_calibration := { native_sensor_resolution_width := 4208,
                                           native_sensor_resolution_height := 3120 },
        aux_cam_specific_calibration := { native_sensor_resolution_width := 0,
                                          native_sensor_resolution_height := 3120 } } }

/-- The object created from the pair `capsNoTeleFov`, `capsAuxTele`. -/
def createdNoTeleFov : QCameraFOVControl :=
  (create (some capsNoTeleFov) (some capsAuxTele)).getD QCameraFOVControl.new

/-- A run without successful configuration: a zoom request, one frame of main metadata, a
configuration update without containers and another zoom request. -/
def opsUnconfigured : List Op :=
  [ Op.translateInputParams (some (paramsZoom 3)) (some {}),
    Op.processResultMetadata (some metaFocused) none,
    Op.updateConfigSettings none none,
    Op.translateInputParams (some (paramsZoom 5)) (some {}) ]

/-- Capabilities of a main camera that supports zoom but has an empty zoom-ratio table. -/
def capsEmptyZoomTable : cam_capability_t :=
  { capsMainWide with zoom_supported := 1, zoom_ratio_tbl := [], zoom_ratio_tbl_cnt := 0 }

/-! ## The entry conditions of TRANSITION in the words of the specification -/

/-- The wide-fallback flag as the WIDE case tests it: the flag of the data, cleared first
when the zoom is not above the tele-to-wide cut-over. -/
def wideFallbackFlag (d : fov_control_data_t) (zoom : ℚ) : Bool :=
  if zoom ≤ d.transitionParams.cutOverTeleToWide then false else d.fallbackToWide

/-- The WIDE to TRANSITION condition in the words of the specification, for the object
before the update: the scene is bright and far focused, and either snapshot post-process is
active, or the zoom is at least `transitionLow` and both cameras are already active and the
zoom direction is IN and the wide-fallback flag is clear, or the zoom is above
`cutOverWideToTele` and both stable counts, incremented by this update, have reached their
thresholds. -/
def specWideToTransition (s : QCameraFOVControl) : Bool :=
  let d := s.mFovControlData
  let zoom := effectiveZoom d
  decide (d.status3A.main.lux ≥ s.mFovControlConfig.auxSwitchBrightnessMin) &&
  decide (d.status3A.main.focusDistCm ≥ s.mFovControlConfig.auxSwitchFocusDistCmMin) &&
  ((updateSnapshotPPFlags s zoom).snapshotPostProcess ||
    (decide (zoom ≥ d.transitionParams.transitionLow) &&
      decide (d.spatialAlignResult.activeCameras = (d.camWide ||| d.camTele)) &&
      decide ((updateZoomDirection d).zoomDirection = dual_cam_zoom_dir.ZOOM_IN) &&
      !(wideFallbackFlag d zoom)) ||
    (decide (zoom > d.transitionParams.cutOverWideToTele) &&
      decide ((d.brightnessStableCount + 1) % UINT32_MOD ≥ d.brightnessStableCountThreshold) &&
      decide ((d.focusDistStableCount + 1) % UINT32_MOD ≥ d.focusDistStableCountThreshold)))

/-- The object of the pair main wide / aux tele, configured, after one frame of main
metadata (bright and far focused), with the user zoom moved from index 0 to index 3 (zoom
2.0) and the state machine not yet updated: in WIDE, only the wide camera active. -/
def stateBeforeZoomIn : QCameraFOVControl :=
  convertUserZoomToWideAndTele
    (run settingsNoPP createdMainWide (opsReconfigureInTransition.take 2)) 3

/-- The object created from the pair `capsMainTele`, `capsAuxWide`: the main camera is the
tele one and the state of a created object is TELE. -/
def createdMainTele : QCameraFOVControl :=
  (create (some capsMainTele) (some capsAuxWide)).getD QCameraFOVControl.new

/-- The object `createdMainTele`, configured, after 29 updates in a dark scene (0 lux,
focus distance 0 cm) at zoom index 0: in TELE with both stable counts at 29, one below the
threshold 30. -/
def stateTeleDark : QCameraFOVControl :=
  updatesWith3A (run settingsNoPP createdMainTele [opConfigure]) (List.replicate 29 (0, 0))

/-! ## The wide-fallback flag -/

/-- The data `b` has the wide-fallback flag and the fallback switch of the data `a`. -/
def fallbackKept (a b : fov_control_data_t) : Prop :=
  b.fallbackToWide = a.fallbackToWide ∧ b.fallbackEnabled = a.fallbackEnabled

/-- The wide-fallback flag is set only while fallback is enabled. -/
def fallbackSound (s : QCameraFOVControl) : Prop :=
  s.mFovControlData.fallbackToWide = true → s.mFovControlData.fallbackEnabled = true

/-! ## Scenarios for the picture sizes and the thresholds -/

/-- The largest area over a whole picture-size table, in the words of the specification
(0 for an empty table). -/
def specMaxArea (tbl : List cam_dimension_t) : Int :=
  (tbl.map (fun e => e.width * e.height)).foldl max 0

/-- Capabilities of a main camera with the picture sizes 1x1 and 10x10. -/
def capsPicMain : cam_capability_t :=
  { capsMainWide with
    picture_sizes_tbl := [{ width := 1, height := 1 }, { width := 10, height := 10 }] }

/-- Capabilities of an aux camera with the picture sizes 5x5 and 1x1. -/
def capsPicAux : cam_capability_t :=
  { capsAuxTele with
    picture_sizes_tbl := [{ width := 5, height := 5 }, { width := 1, height := 1 }] }

/-- The object of the pair main wide / aux tele after one configuration update,
post-processing disabled: basic FOV ratio 2, cut-over factor 2, margins 5, 10 and 15
percent. -/
def stateConfigured : QCameraFOVControl :=
  run settingsNoPP createdMainWide [opConfigure]

/-- The object of the pair main wide / aux tele after one configuration update with
snapshot post-processing enabled on the zoom window [1, 5]. -/
def stateConfiguredPP : QCameraFOVControl :=
  run settingsPP createdMainWide [opConfigure]

/-- The local `fovWide` of `calculateBasicFovRatio`: sensor width times pixel pitch over
focal length, of the camera with the strictly smaller focal length if it is the main one,
of the aux camera otherwise. -/
def wideFov (p : dual_cam_params_t) : ℚ :=
  if p.paramsMain.focalLengthMm < p.paramsAux.focalLengthMm then
    ((p.paramsMain.sensorStreamWidth : ℚ) * p.paramsMain.pixelPitchUm) /
      p.paramsMain.focalLengthMm
  else
    ((p.paramsAux.sensorStreamWidth : ℚ) * p.paramsAux.pixelPitchUm) /
      p.paramsAux.focalLengthMm

/-! ## Scenarios for the parameter translation -/

/-- A parameter batch of the main camera carrying the zoom value 3 and two further
entries. -/
def paramsZoomAndOthers : parm_buffer_t :=
  { CAM_INTF_PARM_ZOOM := some 3,
    CAM_INTF_META_DC_LOW_POWER_ENABLE := some 1,
    others := [(7, 42)] }

/-- Capabilities of a main camera (wide) with the zoom-ratio table 1.0, 3.0, 4.0. -/
def capsThreeRatios : cam_capability_t :=
  { capsMainWide with zoom_ratio_tbl := [100, 300, 400], zoom_ratio_tbl_cnt := 3 }

/-- The object created from the pair `capsThreeRatios`, `capsAuxTele` after one
configuration update with a 1920x1080 preview: basic FOV ratio and crop ratio 2. -/
def stateThreeRatios : QCameraFOVControl :=
  run settingsNoPP
    ((create (some capsThreeRatios) (some capsAuxTele)).getD QCameraFOVControl.new)
    [opConfigure]

/-- Two focus regions of the main camera on a 1920x1080 preview: one near the right edge,
one right of the centre. -/
def roiTwoRegions : cam_roi_info_t :=
  { num_roi := 2,
    roi := [{ left := 1900, top := 500, width := 10, height := 10 },
            { left := 1000, top := 600, width := 100, height := 100 }] }

/-- A parameter batch carrying the zoom value 1 and the focus regions `roiTwoRegions`. -/
def paramsZoomAndFocus : parm_buffer_t :=
  { CAM_INTF_PARM_ZOOM := some 1, CAM_INTF_PARM_AF_ROI := some roiTwoRegions }

/-- The start (left, top) of focus region `i` as `translateFocusAreas` computes it, before
the bounds are checked. -/
def translatedFocusStart (s : QCameraFOVControl) (roiAfMain : cam_roi_info_t) (i : Nat) :
    Int × Int :=
  let a0 := translatedFocusRect s (roiFovRatio s) (roiAfMain.roi.getD i {})
  (a0.left, a0.top)

/-- Aux metadata whose spatial-alignment output carries the output shift (1, 0) at the
reference resolution 1920x1080. -/
def metaAuxShift : metadata_buffer_t :=
  { CAM_INTF_META_DC_SAC_OUTPUT_INFO := some
      { is_output_shift_valid := true,
        output_shift := { shift_horz := 1, shift_vert := 0 },
        reference_res_for_output_shift := { width := 1920, height := 1080 } } }

/-- One metering coordinate of the main camera on a 1920x1080 preview. -/
def roiMetering : cam_set_aec_roi_t :=
  { aec_roi_enable := cam_aec_roi_ctrl_t.CAM_AEC_ROI_ON, num_roi := 1,
    coordinate := [{ x := 1400, y := 600 }] }

/-- A parameter batch carrying the zoom value 1 and the metering region `roiMetering`. -/
def paramsZoomAndMetering : parm_buffer_t :=
  { CAM_INTF_PARM_ZOOM := some 1, CAM_INTF_PARM_AEC_ROI := some roiMetering }

/-- The object `stateThreeRatios` after one frame of aux metadata carrying the output
shift (1, 0): the tele shift is (1, 0). -/
def stateWithShift : QCameraFOVControl :=
  (processResultMetadata stateThreeRatios none (some metaAuxShift)).obj

/-- The local `zoom` of `convertDisparityForInputParams`, the divisor of the crop ratio:
the wide zoom value (a table index) divided by the first entry of the zoom-ratio table. -/
def disparityZoom (d : fov_control_data_t) : ℚ :=
  (d.zoomWide : ℚ) / (d.zoomRatioTable.getD 0 0 : ℚ)

/-- A parameter batch carrying the zoom value 0 and one focus region at the centre of a
1920x1080 preview. -/
def paramsZoomZeroAndFocus : parm_buffer_t :=
  { CAM_INTF_PARM_ZOOM := some 0,
    CAM_INTF_PARM_AF_ROI := some
      { num_roi := 1, roi := [{ left := 910, top := 490, width := 100, height := 100 }] } }

/-- Capabilities of a main camera (wide) whose calibration reports a main sensor of
width 0: the field of view of the wide camera is 0. -/
def capsZeroWideWidth : cam_capability_t :=
  { capsMainWide with
    related_cam_calibration :=
      { main_cam_specific_calibration := { native_sensor_resolution_width := 0,
                                           native_sensor_resolution_height := 3120 },
        aux_cam_specific_calibration := { native_sensor_resolution_width := 4208,
                                          native_sensor_resolution_height := 3120 } } }

/-- The object created from the pair `capsZeroWideWidth`, `capsAuxTele`. -/
def createdZeroWideWidth : QCameraFOVControl :=
  (create (some capsZeroWideWidth) (some capsAuxTele)).getD QCameraFOVControl.new

/-! ## The master selection and the readiness of a camera -/

/-- The readiness of a camera for becoming the master, as the TRANSITION case tests it: the
aux camera is ready when its autofocus is valid and spatial alignment is ready; a camera
other than the aux camera (the main camera) is ready when its streaming flag is set. -/
def cameraReady (s : QCameraFOVControl) (cam : Nat) (streaming : Bool) : Bool :=
  if cam = CAM_TYPE_AUX then
    decide (s.mFovControlData.status3A.aux.afStatus = af_status.AF_VALID) &&
      isSpatialAlignmentReady s
  else streaming

/-- The condition on the fallback flag and the zoom under which the TRANSITION case selects
the wide camera: fallback is enabled and the wide-fallback flag is set, or the zoom is below
the tele-to-wide cut-over. -/
def wideSelected (d : fov_control_data_t) (zoom : ℚ) : Bool :=
  (d.fallbackEnabled && d.fallbackToWide) || decide (zoom < d.transitionParams.cutOverTeleToWide)

/-- An object of the OEM alignment scheme (the platform bit set too) whose preview master
equals the alignment master hint. -/
def stateOemHintReached : QCameraFOVControl :=
  { mFovControlData :=
      { availableSpatialAlignSolns := 3,
        spatialAlignResult := { camMasterHint := 1, readyStatus := 1 } },
    mFovControlResult := { camMasterPreview := 1, camMaster3A := 1 } }

/-! ## Where the state of the state machine is written -/

/-- The state of the object `t` is that of `s`, or the state left by a state-machine
update of an object that has the state of `s`. -/
def camStateVia (s t : QCameraFOVControl) : Prop :=
  t.mFovControlData.camState = s.mFovControlData.camState ∨
  ∃ u : QCameraFOVControl,
    u.mFovControlData.camState = s.mFovControlData.camState ∧
    t.mFovControlData.camState = (generateFovControlResult u).mFovControlData.camState

/-! ## The invariant of the masters -/

/-- The invariant of the masters of a created object: the roles are the two physical
cameras, one each; the preview master of the Result is a physical camera; the 3A master
equals the preview master; and the alignment active set is empty or one physical camera. -/
def masterInvariant (s : QCameraFOVControl) : Prop :=
  ((s.mFovControlData.camWide = CAM_TYPE_MAIN ∧ s.mFovControlData.camTele = CAM_TYPE_AUX) ∨
    (s.mFovControlData.camWide = CAM_TYPE_AUX ∧ s.mFovControlData.camTele = CAM_TYPE_MAIN)) ∧
  (s.mFovControlResult.camMasterPreview = CAM_TYPE_MAIN ∨
    s.mFovControlResult.camMasterPreview = CAM_TYPE_AUX) ∧
  s.mFovControlResult.camMaster3A = s.mFovControlResult.camMasterPreview ∧
  (s.mFovControlData.spatialAlignResult.activeCameras = 0 ∨
    s.mFovControlData.spatialAlignResult.activeCameras = CAM_TYPE_MAIN ∨
    s.mFovControlData.spatialAlignResult.activeCameras = CAM_TYPE_AUX)

/-! ## Focus regions inside the frame -/

/-- A rectangle lies inside a frame of width `w` and height `h`: its start is not negative
and its end is at most the frame size. -/
def rectInFrame (r : cam_rect_t) (w h : Int) : Prop :=
  0 ≤ r.left ∧ 0 ≤ r.top ∧ r.left + r.width ≤ w ∧ r.top + r.height ≤ h

/-- Three focus regions of the main camera on a 1920x1080 preview: one overflowing the left
and top edges after translation, one overflowing the right and bottom edges, one inside. -/
def roiThreeRegions : cam_roi_info_t :=
  { num_roi := 3,
    roi := [{ left := 100, top := 100, width := 300, height := 300 },
            { left := 1300, top := 700, width := 400, height := 200 },
            { left := 1000, top := 600, width := 100, height := 100 }] }

/-- The object `stateThreeRatios` after a request with the zoom value 1: FOV ratio 2 on a
1920x1080 preview, no disparity shift. -/
def stateZoomOne : QCameraFOVControl :=
  (translateInputParams stateThreeRatios (some (paramsZoom 1)) (some {})).obj

/-! ## A master that lags behind the state -/

/-- Aux metadata reporting a passive-focused autofocus state. -/
def metaAuxFocused : metadata_buffer_t :=
  { CAM_INTF_META_AF_STATE := some cam_af_state_t.CAM_AF_STATE_PASSIVE_FOCUSED }

/-- A run on the pair main wide / aux tele: configure; a frame of both cameras; zoom in to
index 5 (zoom 4.0); a frame of both cameras; zoom out to index 0 (zoom 1.0); a frame in
which the metadata of the main camera was dropped. -/
def opsMasterLags : List Op :=
  [ opConfigure,
    Op.processResultMetadata (some metaFocused) (some metaAuxFocused),
    Op.translateInputParams (some (paramsZoom 5)) (some {}),
    Op.processResultMetadata (some metaFocused) (some metaAuxFocused),
    Op.translateInputParams (some (paramsZoom 0)) (some {}),
    Op.processResultMetadata none (some metaAuxFocused) ]

/-- The preview master of a Result is a member of its active cameras (a bit mask). -/
def masterIsActive (r : fov_control_result_t) : Bool :=
  decide (r.activeCameras &&& r.camMasterPreview ≠ 0)

/-- First natural number that the conversion to `float` does not always keep: every
natural number below `2^24` is a single-precision value. -/
def FLOAT_EXACT_LIMIT : Nat := 16777216

/-- The rational `x` is a single-precision value: rounding keeps it.  Every value held by
a `float` field of the source is one. -/
def isFloatValue (x : ℚ) : Bool := decide (floatRound x = x)

/-- The values that one update of the state machine reads are as the source holds and
reads them: the wide zoom value indexes the zoom-ratio table, whose first entry, the
divisor of the zoom, is not zero (the zoom is then a finite number); the four thresholds
and the zoom range of the snapshot post-process, `float` fields of the source, are
single-precision values; the brightness, the focus distance and their switch thresholds,
which the update reads into `uint16_t` variables, are below `2^16`. -/
def updateInputsValid (s : QCameraFOVControl) : Bool :=
  let d := s.mFovControlData
  let pp := s.mFovControlConfig.snapshotPPConfig
  decide (d.zoomWide < d.zoomRatioTable.length) &&
  decide (d.zoomRatioTable.getD 0 0 ≠ 0) &&
  isFloatValue d.transitionParams.transitionLow &&
  isFloatValue d.transitionParams.transitionHigh &&
  isFloatValue d.transitionParams.cutOverWideToTele &&
  isFloatValue d.transitionParams.cutOverTeleToWide &&
  isFloatValue pp.zoomMin && isFloatValue pp.zoomMax &&
  decide (d.status3A.main.lux < 65536) &&
  decide (d.status3A.main.focusDistCm < 65536) &&
  decide (s.mFovControlConfig.auxSwitchBrightnessMin < 65536) &&
  decide (s.mFovControlConfig.auxSwitchFocusDistCmMin < 65536)

/-- The object `s` with the thresholds `cutOverWideToTele`, `cutOverTeleToWide`,
`transitionHigh` and `transitionLow` replaced by the given values. -/
def withThresholds (s : QCameraFOVControl) (wideToTele teleToWide high low : ℚ) :
    QCameraFOVControl :=
  { s with mFovControlData := { s.mFovControlData with
      transitionParams := { s.mFovControlData.transitionParams with
        cutOverWideToTele := wideToTele,
        cutOverTeleToWide := teleToWide,
        transitionHigh := high,
        transitionLow := low } } }

/-- The object `stateInTransitionZoomedOut` with the thresholds as the source computes
them for the pair main wide / aux tele (the percentages in double precision, each
threshold stored in single precision): 2.0999999046, 2, 2.2999999523 and 1.7000000477,
the single-precision values nearest to 2.1, 2.3 and 1.7. -/
def floatStateZoomedOut : QCameraFOVControl :=
  withThresholds stateInTransitionZoomedOut (4404019 / 2097152) 2 (9646899 / 4194304)
    (7130317 / 4194304)

/-- The object `stateBeforeZoomIn` with the thresholds as the source computes them for the
pair main wide / aux tele: 2.0999999046, 2, 2.2999999523 and 1.7000000477. -/
def floatStateBeforeZoomIn : QCameraFOVControl :=
  withThresholds stateBeforeZoomIn (4404019 / 2097152) 2 (9646899 / 4194304)
    (7130317 / 4194304)

/-- The object `stateTeleDark` with the thresholds as the source computes them for the
pair main tele / aux wide: 2.0999999046, 2, 2.3999998569 (one step below the
single-precision value nearest to 2.4) and 1.7999999523. -/
def floatStateTeleDark : QCameraFOVControl :=
  withThresholds stateTeleDark (4404019 / 2097152) 2 (10066329 / 4194304)
    (7549747 / 4194304)

/-- A table of two ratios above `2^24`, with cut-over factor 1: the conversion of the
first ratio to `float` rounds it to the second. -/
def largeRatioTable : fov_control_data_t :=
  { zoomRatioTable := [16777219, 16777220], zoomRatioTableCount := 2,
    transitionParams := { cutOverFactor := 1 } }

/-- The quotients of `roiFovRatio` are defined: the zoom ratio of the main camera is not
zero, nor is the crop ratio when its reciprocal is taken; the crop ratio and the adjusted
shifts, `float` fields of the source, are single-precision values; and the preview size is
a pair of `int32_t` values. -/
def focusTranslationDefined (s : QCameraFOVControl) : Bool :=
  let d := s.mFovControlData
  decide (findZoomRatio d (if isMainCamFovWider s then d.zoomWide else d.zoomTele) ≠ 0) &&
  (isMainCamFovWider s || decide (d.transitionParams.cropRatio ≠ 0)) &&
  isFloatValue d.transitionParams.cropRatio &&
  isFloatValue d.shiftHorzAdjusted && isFloatValue d.shiftVertAdjusted &&
  decide (INT32_MIN ≤ d.previewSize.width ∧ d.previewSize.width ≤ INT32_MAX) &&
  decide (INT32_MIN ≤ d.previewSize.height ∧ d.previewSize.height ≤ INT32_MAX)

/-- No `int32_t` overflow in the translation of the ROI `m` by `translateFocusAreas`: the
distances from the frame centre are `int32_t` values, the four converted values lie
strictly inside the `int32_t` range, and the sums of the start (raised to 0 when negative)
and the size do not exceed `INT32_MAX`. -/
def focusRectInRange (s : QCameraFOVControl) (m : cam_rect_t) : Bool :=
  let d := s.mFovControlData
  let a0 := translatedFocusRect s (roiFovRatio s) m
  decide (INT32_MIN ≤ m.left - Int.tdiv d.previewSize.width 2 ∧
    m.left - Int.tdiv d.previewSize.width 2 ≤ INT32_MAX) &&
  decide (INT32_MIN ≤ m.top - Int.tdiv d.previewSize.height 2 ∧
    m.top - Int.tdiv d.previewSize.height 2 ≤ INT32_MAX) &&
  decide (INT32_MIN < a0.left ∧ a0.left < INT32_MAX) &&
  decide (INT32_MIN < a0.top ∧ a0.top < INT32_MAX) &&
  decide (INT32_MIN < a0.width ∧ a0.width < INT32_MAX) &&
  decide (INT32_MIN < a0.height ∧ a0.height < INT32_MAX) &&
  decide (max a0.left 0 + a0.width ≤ INT32_MAX) &&
  decide (max a0.top 0 + a0.height ≤ INT32_MAX)

/-- One focus region at the centre of a 1920x1080 preview whose width is `2^30 - 64`. -/
def roiHugeWidth : cam_roi_info_t :=
  { num_roi := 1,
    roi := [{ left := 960, top := 540, width := 1073741760, height := 10 }] }

end qcamera

namespace qcamera

/-! ## Single-precision rounding and the integer ranges -/

/-- The rational `floatPow2 e` is the power `2^e`. -/
theorem floatPow2_eq (e : Int) : floatPow2 e = (2 : ℚ) ^ e := by
  unfold floatPow2
  split_ifs with h
  · obtain ⟨n, rfl⟩ := Int.eq_ofNat_of_zero_le h
    simp
  · push_neg at h
    obtain ⟨n, hn⟩ := Int.eq_ofNat_of_zero_le (show 0 ≤ -e by omega)
    have he : e = -(n : Int) := by omega
    subst he
    simp

/-- A power of two is positive. -/
theorem floatPow2_pos (e : Int) : 0 < floatPow2 e := by
  rw [floatPow2_eq]; positivity

/-- Powers of two multiply by adding the exponents. -/
theorem floatPow2_add (a b : Int) : floatPow2 (a + b) = floatPow2 a * floatPow2 b := by
  simp only [floatPow2_eq]
  exact zpow_add₀ (by norm_num) a b

/-- Powers of two grow with the exponent. -/
theorem floatPow2_le_floatPow2 {a b : Int} (h : a ≤ b) : floatPow2 a ≤ floatPow2 b := by
  simp only [floatPow2_eq]
  exact zpow_le_zpow_right₀ (by norm_num) h

/-- With enough fuel the halving loop returns the binary logarithm, rounded down. -/
theorem log2Loop_spec (fuel n : Nat) (h1 : 1 ≤ n) (hf : n ≤ fuel) :
    2 ^ log2Loop fuel n ≤ n ∧ n < 2 ^ (log2Loop fuel n + 1) := by
  induction fuel generalizing n with
  | zero => omega
  | succ k ih =>
    unfold log2Loop
    split_ifs with h2
    · obtain ⟨ha, hb⟩ := ih (n / 2) (by omega) (by omega)
      constructor
      · rw [pow_succ]; omega
      · rw [pow_succ]; omega
    · simp; omega

/-- The value `log2Floor n` is the binary logarithm of a positive `n`, rounded down. -/
theorem log2Floor_spec (n : Nat) (h1 : 1 ≤ n) :
    2 ^ log2Floor n ≤ n ∧ n < 2 ^ (log2Floor n + 1) :=
  log2Loop_spec n n h1 le_rfl

/-- A positive rational lies between the power of two at its binary exponent and the next one. -/
theorem floatExponent_spec (q : ℚ) (hq : 0 < q) :
    floatPow2 (floatExponent q) ≤ q ∧ q < floatPow2 (floatExponent q + 1) := by
  have hnum : 0 < q.num := Rat.num_pos.mpr hq
  have hden : 1 ≤ q.den := q.den_pos
  have hn1 : 1 ≤ q.num.toNat := by omega
  obtain ⟨ha1, ha2⟩ := log2Floor_spec q.num.toNat hn1
  obtain ⟨hb1, hb2⟩ := log2Floor_spec q.den hden
  have hqeq : q = (q.num.toNat : ℚ) / (q.den : ℚ) := by
    have h1 : ((q.num.toNat : Int) : ℚ) = (q.num : ℚ) := by
      rw [Int.toNat_of_nonneg hnum.le]
    have h2 : ((q.num.toNat : Int) : ℚ) = (q.num.toNat : ℚ) := by push_cast; rfl
    rw [← h2, h1]
    exact (Rat.num_div_den q).symm
  set n := q.num.toNat with hn
  set d := q.den with hd
  set a := log2Floor n with haa
  set b := log2Floor d with hbb
  have hdpos : (0 : ℚ) < (d : ℚ) := by exact_mod_cast hden
  have hA1 : ((2 : ℚ) ^ a) ≤ (n : ℚ) := by exact_mod_cast ha1
  have hA2 : (n : ℚ) < (2 : ℚ) ^ (a + 1) := by exact_mod_cast ha2
  have hB1 : ((2 : ℚ) ^ b) ≤ (d : ℚ) := by exact_mod_cast hb1
  have hB2 : (d : ℚ) < (2 : ℚ) ^ (b + 1) := by exact_mod_cast hb2
  have hup : q < floatPow2 ((a : Int) - (b : Int) + 1) := by
    rw [floatPow2_eq, hqeq, div_lt_iff₀ hdpos]
    have h2b : (0 : ℚ) < (2 : ℚ) ^ b := by positivity
    have e1 : (2 : ℚ) ^ ((a : Int) - (b : Int) + 1) * (2 : ℚ) ^ b = (2 : ℚ) ^ (a + 1) := by
      rw [← zpow_natCast, ← zpow_add₀ (by norm_num), ← zpow_natCast]
      congr 1
      push_cast
      ring
    have h2ab : (0 : ℚ) < (2 : ℚ) ^ ((a : Int) - (b : Int) + 1) := by positivity
    calc (n : ℚ) < (2 : ℚ) ^ (a + 1) := hA2
      _ = (2 : ℚ) ^ ((a : Int) - (b : Int) + 1) * (2 : ℚ) ^ b := e1.symm
      _ ≤ (2 : ℚ) ^ ((a : Int) - (b : Int) + 1) * (d : ℚ) :=
          mul_le_mul_of_nonneg_left hB1 h2ab.le
  have hlow : floatPow2 ((a : Int) - (b : Int) - 1) ≤ q := by
    rw [floatPow2_eq, hqeq, le_div_iff₀ hdpos]
    have e1 : (2 : ℚ) ^ ((a : Int) - (b : Int) - 1) * (2 : ℚ) ^ (b + 1) = (2 : ℚ) ^ a := by
      rw [← zpow_natCast, ← zpow_add₀ (by norm_num), ← zpow_natCast]
      congr 1
      push_cast
      ring
    have h2ab : (0 : ℚ) < (2 : ℚ) ^ ((a : Int) - (b : Int) - 1) := by positivity
    calc (2 : ℚ) ^ ((a : Int) - (b : Int) - 1) * (d : ℚ)
        ≤ (2 : ℚ) ^ ((a : Int) - (b : Int) - 1) * (2 : ℚ) ^ (b + 1) :=
          mul_le_mul_of_nonneg_left hB2.le h2ab.le
      _ = (2 : ℚ) ^ a := e1
      _ ≤ (n : ℚ) := hA1
  unfold floatExponent
  simp only [← hn, ← hd, ← haa, ← hbb]
  split_ifs with h
  · exact ⟨h, hup⟩
  · refine ⟨hlow, ?_⟩
    push_neg at h
    have : (a : Int) - (b : Int) - 1 + 1 = (a : Int) - (b : Int) := by ring
    rw [this]
    exact h

/-- The binary exponent grows with the value. -/
theorem floatExponent_mono (x y : ℚ) (hx : 0 < x) (hxy : x ≤ y) :
    floatExponent x ≤ floatExponent y := by
  by_contra hcon
  push_neg at hcon
  have h1 := (floatExponent_spec x hx).1
  have h2 := (floatExponent_spec y (lt_of_lt_of_le hx hxy)).2
  have h3 : floatPow2 (floatExponent y + 1) ≤ floatPow2 (floatExponent x) :=
    floatPow2_le_floatPow2 (by omega)
  linarith

/-- Rounding to the nearest integer does not go below the floor. -/
theorem roundHalfEven_floor_le (m : ℚ) : ⌊m⌋ ≤ roundHalfEven m := by
  unfold roundHalfEven
  simp only []
  split_ifs <;> omega

/-- Rounding to the nearest integer goes at most one above the floor. -/
theorem roundHalfEven_le_floor (m : ℚ) : roundHalfEven m ≤ ⌊m⌋ + 1 := by
  unfold roundHalfEven
  simp only []
  split_ifs <;> omega

/-- Rounding to the nearest integer keeps an integer. -/
theorem roundHalfEven_intCast (k : Int) : roundHalfEven (k : ℚ) = k := by
  unfold roundHalfEven
  simp

/-- Rounding to the nearest integer is monotone. -/
theorem roundHalfEven_mono (x y : ℚ) (hxy : x ≤ y) :
    roundHalfEven x ≤ roundHalfEven y := by
  rcases lt_or_eq_of_le (Int.floor_mono hxy) with hlt | heq
  · have h1 := roundHalfEven_le_floor x
    have h2 := roundHalfEven_floor_le y
    omega
  · unfold roundHalfEven
    simp only [heq]
    have hfr : x - (⌊y⌋ : ℚ) ≤ y - (⌊y⌋ : ℚ) := by linarith
    split_ifs <;> first | omega | linarith

/-- Rounding to the nearest integer does not cross an integer above the value. -/
theorem roundHalfEven_le_of_le (m : ℚ) (k : Int) (h : m ≤ (k : ℚ)) :
    roundHalfEven m ≤ k := by
  have := roundHalfEven_mono m k h
  rwa [roundHalfEven_intCast] at this

/-- Rounding to the nearest integer does not cross an integer below the value. -/
theorem roundHalfEven_ge_of_ge (m : ℚ) (k : Int) (h : (k : ℚ) ≤ m) :
    k ≤ roundHalfEven m := by
  have := roundHalfEven_mono k m h
  rwa [roundHalfEven_intCast] at this

/-- The rounded value of a non-negative rational is not negative. -/
theorem floatRoundPos_nonneg (q : ℚ) (hq : 0 ≤ q) : 0 ≤ floatRoundPos q := by
  unfold floatRoundPos
  simp only []
  have hu := floatPow2_pos (max (floatExponent q) (-126) - 23)
  have h0 : (0 : Int) ≤ roundHalfEven (q / floatPow2 (max (floatExponent q) (-126) - 23)) :=
    roundHalfEven_ge_of_ge _ 0 (by simpa using div_nonneg hq hu.le)
  have h1 : (0 : ℚ) ≤ (roundHalfEven (q / floatPow2 (max (floatExponent q) (-126) - 23)) : ℚ) := by
    exact_mod_cast h0
  exact mul_nonneg h1 hu.le

/-- The rounded value of a positive rational is at most the next power of two. -/
theorem floatRoundPos_le_floatPow2 (q : ℚ) (hq : 0 < q) :
    floatRoundPos q ≤ floatPow2 (max (floatExponent q) (-126) + 1) := by
  unfold floatRoundPos
  simp only []
  set e := max (floatExponent q) (-126) with he
  have hu := floatPow2_pos (e - 23)
  have hq2 : q < floatPow2 (e + 1) :=
    lt_of_lt_of_le (floatExponent_spec q hq).2 (floatPow2_le_floatPow2 (by omega))
  have hsplit : floatPow2 (e + 1) = floatPow2 24 * floatPow2 (e - 23) := by
    rw [← floatPow2_add]; congr 1; ring
  have h24 : floatPow2 24 = ((16777216 : Int) : ℚ) := by rw [floatPow2_eq]; norm_num
  have hm : q / floatPow2 (e - 23) ≤ ((16777216 : Int) : ℚ) := by
    rw [div_le_iff₀ hu, ← h24, ← hsplit]
    exact hq2.le
  have hr := roundHalfEven_le_of_le _ _ hm
  have hr2 : (roundHalfEven (q / floatPow2 (e - 23)) : ℚ) ≤ floatPow2 24 := by
    rw [h24]; exact_mod_cast hr
  rw [hsplit]
  exact mul_le_mul_of_nonneg_right hr2 hu.le

/-- The rounded value of a normal positive rational is at least the power of two at its
exponent. -/
theorem floatPow2_le_floatRoundPos (q : ℚ) (hq : 0 < q) (hn : -126 ≤ floatExponent q) :
    floatPow2 (floatExponent q) ≤ floatRoundPos q := by
  unfold floatRoundPos
  simp only []
  have hmax : max (floatExponent q) (-126) = floatExponent q := max_eq_left hn
  rw [hmax]
  set e := floatExponent q with he
  have hu := floatPow2_pos (e - 23)
  have hsplit : floatPow2 e = floatPow2 23 * floatPow2 (e - 23) := by
    rw [← floatPow2_add]; congr 1; ring
  have h23 : floatPow2 23 = ((8388608 : Int) : ℚ) := by rw [floatPow2_eq]; norm_num
  have hm : ((8388608 : Int) : ℚ) ≤ q / floatPow2 (e - 23) := by
    rw [le_div_iff₀ hu, ← h23, ← hsplit]
    exact (floatExponent_spec q hq).1
  have hr := roundHalfEven_ge_of_ge _ _ hm
  have hr2 : floatPow2 23 ≤ (roundHalfEven (q / floatPow2 (e - 23)) : ℚ) := by
    rw [h23]; exact_mod_cast hr
  rw [hsplit]
  exact mul_le_mul_of_nonneg_right hr2 hu.le

/-- Rounding a positive rational to single precision is monotone. -/
theorem floatRoundPos_mono (x y : ℚ) (hx : 0 < x) (hxy : x ≤ y) :
    floatRoundPos x ≤ floatRoundPos y := by
  have hy : 0 < y := lt_of_lt_of_le hx hxy
  have hb := floatExponent_mono x y hx hxy
  rcases lt_or_eq_of_le hb with hlt | heq
  · by_cases hc : max (floatExponent x) (-126) < floatExponent y
    · have h1 := floatRoundPos_le_floatPow2 x hx
      have h2 := floatPow2_le_floatRoundPos y hy (by
        have := le_max_right (floatExponent x) (-126)
        omega)
      have h3 : floatPow2 (max (floatExponent x) (-126) + 1) ≤ floatPow2 (floatExponent y) :=
        floatPow2_le_floatPow2 (by omega)
      linarith
    · push_neg at hc
      have hmx : max (floatExponent x) (-126) = -126 := by
        rcases max_cases (floatExponent x) (-126) with ⟨h, _⟩ | ⟨h, _⟩ <;> omega
      have hmy : max (floatExponent y) (-126) = -126 := by
        rcases max_cases (floatExponent y) (-126) with ⟨h, _⟩ | ⟨h, _⟩ <;> omega
      unfold floatRoundPos
      simp only [hmx, hmy]
      have hu := floatPow2_pos (-126 - 23)
      have hm : x / floatPow2 (-126 - 23) ≤ y / floatPow2 (-126 - 23) :=
        div_le_div_of_nonneg_right hxy hu.le
      have hr := roundHalfEven_mono _ _ hm
      have hr2 : (roundHalfEven (x / floatPow2 (-126 - 23)) : ℚ) ≤
          (roundHalfEven (y / floatPow2 (-126 - 23)) : ℚ) := by exact_mod_cast hr
      exact mul_le_mul_of_nonneg_right hr2 hu.le
  · unfold floatRoundPos
    simp only [heq]
    have hu := floatPow2_pos (max (floatExponent y) (-126) - 23)
    have hm : x / floatPow2 (max (floatExponent y) (-126) - 23) ≤
        y / floatPow2 (max (floatExponent y) (-126) - 23) :=
      div_le_div_of_nonneg_right hxy hu.le
    have hr := roundHalfEven_mono _ _ hm
    have hr2 : (roundHalfEven (x / floatPow2 (max (floatExponent y) (-126) - 23)) : ℚ) ≤
        (roundHalfEven (y / floatPow2 (max (floatExponent y) (-126) - 23)) : ℚ) := by
      exact_mod_cast hr
    exact mul_le_mul_of_nonneg_right hr2 hu.le

/-- Rounding to single precision is monotone on the non-negative rationals. -/
theorem floatRound_mono (x y : ℚ) (hx : 0 ≤ x) (hxy : x ≤ y) :
    floatRound x ≤ floatRound y := by
  unfold floatRound
  rcases eq_or_lt_of_le hx with h0 | hpos
  · subst h0
    simp only [if_true]
    split_ifs with h1 h2
    · exact le_refl _
    · exact floatRoundPos_nonneg y hxy
    · exact absurd (lt_of_le_of_ne hxy (Ne.symm h1)) h2
  · have hy : 0 < y := lt_of_lt_of_le hpos hxy
    simp only [hpos.ne', hy.ne', hpos, hy, if_true, if_false]
    exact floatRoundPos_mono x y hpos hxy

/-- A natural number below `2^24` is a single-precision value: its conversion to `float`
is exact. -/
theorem floatRound_natCast (n : Nat) (hn : n < FLOAT_EXACT_LIMIT) :
    floatRound (n : ℚ) = (n : ℚ) := by
  unfold FLOAT_EXACT_LIMIT at hn
  unfold floatRound
  rcases Nat.eq_zero_or_pos n with h0 | hpos
  · subst h0; simp
  · have hq : (0 : ℚ) < (n : ℚ) := by exact_mod_cast hpos
    simp only [hq.ne', hq, if_true, if_false]
    obtain ⟨hb1, hb2⟩ := floatExponent_spec (n : ℚ) hq
    have hlo : 0 ≤ floatExponent (n : ℚ) := by
      by_contra hcon
      push_neg at hcon
      have h1 : floatPow2 (floatExponent (n : ℚ) + 1) ≤ floatPow2 0 :=
        floatPow2_le_floatPow2 (by omega)
      have h2 : floatPow2 0 = 1 := by rw [floatPow2_eq]; simp
      have h3 : (1 : ℚ) ≤ (n : ℚ) := by exact_mod_cast hpos
      linarith
    have hhi : floatExponent (n : ℚ) ≤ 23 := by
      by_contra hcon
      push_neg at hcon
      have h1 : floatPow2 24 ≤ floatPow2 (floatExponent (n : ℚ)) :=
        floatPow2_le_floatPow2 (by omega)
      have h2 : floatPow2 24 = 16777216 := by rw [floatPow2_eq]; norm_num
      have h3 : (n : ℚ) < 16777216 := by exact_mod_cast hn
      linarith
    unfold floatRoundPos
    simp only []
    have hmax : max (floatExponent (n : ℚ)) (-126) = floatExponent (n : ℚ) := max_eq_left (by omega)
    rw [hmax]
    obtain ⟨k, hk⟩ := Int.eq_ofNat_of_zero_le (show 0 ≤ 23 - floatExponent (n : ℚ) by omega)
    have he : floatExponent (n : ℚ) - 23 = -(k : Int) := by omega
    rw [he]
    have hp : floatPow2 (-(k : Int)) = 1 / ((2 ^ k : Nat) : ℚ) := by
      rw [floatPow2_eq]; simp
    rw [hp]
    have hpk : (0 : ℚ) < ((2 ^ k : Nat) : ℚ) := by positivity
    have hint : (n : ℚ) / (1 / ((2 ^ k : Nat) : ℚ)) = (((n * 2 ^ k : Nat) : Int) : ℚ) := by
      push_cast
      field_simp
    rw [hint, roundHalfEven_intCast]
    push_cast
    field_simp

/-- Zero is a single-precision value. -/
theorem floatRound_zero : floatRound 0 = 0 := by simp [floatRound]

/-- The rounded value of a non-negative rational is not negative. -/
theorem floatRound_nonneg (x : ℚ) (hx : 0 ≤ x) : 0 ≤ floatRound x := by
  have := floatRound_mono 0 x le_rfl hx
  rwa [floatRound_zero] at this

/-- The conversion to `uint32_t` is the identity on natural numbers below `2^32`. -/
theorem floatToUint32_natCast (n : Nat) (h : n < UINT32_MOD) : floatToUint32 (n : ℚ) = n := by
  simp [floatToUint32, Nat.mod_eq_of_lt h]

/-- An integer inside the `int32_t` range is kept by `wrapInt32`. -/
theorem wrapInt32_eq (x : Int) (h1 : INT32_MIN ≤ x) (h2 : x ≤ INT32_MAX) : wrapInt32 x = x := by
  unfold INT32_MIN at h1
  unfold INT32_MAX at h2
  unfold wrapInt32
  omega

end qcamera

namespace qcamera

/-! ## The zoom-index lookup -/

/-- The lookup loop finds the first qualifying index of its range when there is one. -/
theorem findZoomValueLoop_found (tbl : List Nat) (r : Nat) :
    ∀ n i, (∃ j, i ≤ j ∧ j < i + n ∧ r ≤ tbl.getD j 0) →
      i ≤ findZoomValueLoop tbl r n i ∧ findZoomValueLoop tbl r n i < i + n ∧
      r ≤ tbl.getD (findZoomValueLoop tbl r n i) 0 ∧
      ∀ j, i ≤ j → j < findZoomValueLoop tbl r n i → tbl.getD j 0 < r := by
  intro n
  induction n with
  | zero =>
    rintro i ⟨j, h1, h2, _⟩
    omega
  | succ n ih =>
    rintro i ⟨j, h1, h2, h3⟩
    by_cases h : r ≤ tbl.getD i 0
    · rw [findZoomValueLoop, if_pos h]
      refine ⟨le_refl _, by omega, h, ?_⟩
      intro k hk1 hk2
      omega
    · rw [findZoomValueLoop, if_neg h]
      have hij : i ≠ j := by
        rintro rfl
        exact h h3
      obtain ⟨a, b, c, e⟩ := ih (i + 1) ⟨j, by omega, by omega, h3⟩
      refine ⟨by omega, by omega, c, ?_⟩
      intro k hk1 hk2
      by_cases hk : k = i
      · subst hk
        omega
      · exact e k (by omega) hk2

/-- The lookup loop returns its initial value 0 when no index of its range qualifies. -/
theorem findZoomValueLoop_none (tbl : List Nat) (r : Nat) :
    ∀ n i, (∀ j, i ≤ j → j < i + n → tbl.getD j 0 < r) →
      findZoomValueLoop tbl r n i = 0 := by
  intro n
  induction n with
  | zero =>
    intro i _
    rfl
  | succ n ih =>
    intro i h
    have hi : ¬ r ≤ tbl.getD i 0 := by
      have := h i (le_refl _) (by omega)
      omega
    rw [findZoomValueLoop, if_neg hi]
    exact ih (i + 1) (fun j h1 h2 => h j (by omega) (by omega))

/-- The lookup returns the smallest index of the table whose entry is at least `r`, when
there is one. -/
theorem findZoomValue_first (d : fov_control_data_t) (r : Nat)
    (h : ∃ i, i < d.zoomRatioTableCount ∧ r ≤ findZoomRatio d i) :
    findZoomValue d r < d.zoomRatioTableCount ∧
    r ≤ findZoomRatio d (findZoomValue d r) ∧
    ∀ j, j < findZoomValue d r → findZoomRatio d j < r := by
  obtain ⟨i, hi, hr⟩ := h
  obtain ⟨_, b, c, e⟩ :=
    findZoomValueLoop_found d.zoomRatioTable r d.zoomRatioTableCount 0
      ⟨i, Nat.zero_le _, by omega, hr⟩
  exact ⟨by simpa [findZoomValue] using b, c, fun j hj => e j (Nat.zero_le _) hj⟩

/-- C5: when some entry of the zoom-ratio table is at least `r`, `findZoomValue r` is the
smallest index whose entry is at least `r`: it is a valid index, its entry is at least `r`,
and every earlier entry is below `r`. -/
theorem findZoomValue_smallest_index (d : fov_control_data_t) (r : Nat)
    (h : ∃ i, i < d.zoomRatioTableCount ∧ r ≤ findZoomRatio d i) :
    findZoomValue d r < d.zoomRatioTableCount ∧
    r ≤ findZoomRatio d (findZoomValue d r) ∧
    ∀ j, j < findZoomValue d r → findZoomRatio d j < r :=
  findZoomValue_first d r h

/-- Witness of C5 on the table of Scenario A with ratio 130: the result is index 2. -/
theorem findZoomValue_smallest_index_witness :
    (∃ i, i < scenarioTable.zoomRatioTableCount ∧ 130 ≤ findZoomRatio scenarioTable i) ∧
    (findZoomValue scenarioTable 130 < scenarioTable.zoomRatioTableCount ∧
      130 ≤ findZoomRatio scenarioTable (findZoomValue scenarioTable 130) ∧
      ∀ j, j < findZoomValue scenarioTable 130 → findZoomRatio scenarioTable j < 130) :=
  ⟨⟨2, by decide, by decide⟩,
    findZoomValue_smallest_index scenarioTable 130 ⟨2, by decide, by decide⟩⟩

/-- C6 (counterexample): in the two-entry table [100, 200] no entry is at least 300, yet
`findZoomValue 300` is index 0 and not the last index 1. -/
theorem findZoomValue_not_last_index :
    0 < twoEntryTable.zoomRatioTableCount ∧
    (∀ i, i < twoEntryTable.zoomRatioTableCount → findZoomRatio twoEntryTable i < 300) ∧
    findZoomValue twoEntryTable 300 ≠ twoEntryTable.zoomRatioTableCount - 1 := by
  decide

/-- C6 (amended): when no entry of the zoom-ratio table is at least `r`, `findZoomValue r`
is index 0, the initial value of the lookup. -/
theorem findZoomValue_none_qualifies (d : fov_control_data_t) (r : Nat)
    (h : ∀ i, i < d.zoomRatioTableCount → findZoomRatio d i < r) :
    findZoomValue d r = 0 :=
  findZoomValueLoop_none d.zoomRatioTable r d.zoomRatioTableCount 0
    (fun j _ h2 => h j (by omega))

/-- Witness of C6 (amended) on the two-entry table with ratio 300. -/
theorem findZoomValue_none_qualifies_witness :
    (∀ i, i < twoEntryTable.zoomRatioTableCount → findZoomRatio twoEntryTable i < 300) ∧
    findZoomValue twoEntryTable 300 = 0 :=
  ⟨by decide, findZoomValue_none_qualifies twoEntryTable 300 (by decide)⟩

/-- C4 (counterexample): on the table [100,120,150,200,300,400] with cut-over factor 2 the
round trip of wide index 0 is index 3, three steps away. -/
theorem readjustZoom_roundtrip_far :
    (∀ a b, a ≤ b → b < scenarioTable.zoomRatioTableCount →
      findZoomRatio scenarioTable a ≤ findZoomRatio scenarioTable b) ∧
    0 < scenarioTable.transitionParams.cutOverFactor ∧
    0 < scenarioTable.zoomRatioTableCount ∧
    readjustZoomForTele scenarioTable 0 = 0 ∧
    readjustZoomForWide scenarioTable (readjustZoomForTele scenarioTable 0) = 3 ∧
    ¬ (readjustZoomForWide scenarioTable (readjustZoomForTele scenarioTable 0) ≤ 0 + 1) := by
  refine ⟨?_, by decide!, by decide, by decide!, by decide!, by decide!⟩
  intro a b hab hb
  have hb6 : b < 6 := hb
  interval_cases b <;> interval_cases a <;> decide

/-- The lookup of a ratio carried by index `j` of a non-decreasing table returns an index
at most `j` that carries the same ratio, every earlier ratio being smaller. -/
theorem findZoomValue_of_entry (d : fov_control_data_t) (j : Nat)
    (hj : j < d.zoomRatioTableCount)
    (hsorted : ∀ a b, a ≤ b → b < d.zoomRatioTableCount →
      findZoomRatio d a ≤ findZoomRatio d b) :
    findZoomValue d (findZoomRatio d j) ≤ j ∧
    findZoomRatio d (findZoomValue d (findZoomRatio d j)) = findZoomRatio d j ∧
    ∀ k, k < findZoomValue d (findZoomRatio d j) → findZoomRatio d k < findZoomRatio d j := by
  obtain ⟨_, h2, h3⟩ := findZoomValue_first d (findZoomRatio d j) ⟨j, hj, le_refl _⟩
  have hle : findZoomValue d (findZoomRatio d j) ≤ j := by
    by_contra hcon
    have := h3 j (by omega)
    omega
  exact ⟨hle, le_antisymm (hsorted _ _ hle hj) h2, h3⟩

/-- The tele ratio of a wide ratio that is the exact product of a ratio `rj` below `2^24`
and the cut-over factor: the division and its conversion to `uint32_t` return `rj`. -/
theorem teleRatio_exact (ri rj : Nat) (c : ℚ) (hc : 0 < c)
    (hri : ri < FLOAT_EXACT_LIMIT) (hrj : rj < FLOAT_EXACT_LIMIT)
    (hexact : (rj : ℚ) * c = (ri : ℚ)) :
    floatToUint32 (floatRound (floatRound (ri : ℚ) / c)) = rj ∧
    floatToUint32 (floatRound (floatRound (rj : ℚ) * c)) = ri := by
  have h32 : ∀ n : Nat, n < FLOAT_EXACT_LIMIT → n < UINT32_MOD := by
    intro n hn
    unfold FLOAT_EXACT_LIMIT at hn
    unfold UINT32_MOD
    omega
  have hdiv : (ri : ℚ) / c = (rj : ℚ) := by
    rw [← hexact]
    field_simp
  constructor
  · rw [floatRound_natCast ri hri, hdiv, floatRound_natCast rj hrj,
      floatToUint32_natCast rj (h32 rj hrj)]
  · rw [floatRound_natCast rj hrj, hexact, floatRound_natCast ri hri,
      floatToUint32_natCast ri (h32 ri hri)]

/-- C4 (amended): for a non-decreasing zoom-ratio table whose ratios are below `2^24`, a
positive cut-over factor and a wide index `i` inside the table whose ratio divided by the
cut-over factor is itself a ratio of the table (that of an index `j`), the tele index of
`i` is the smallest index carrying the ratio of `j`, and the round trip through tele
returns the smallest index carrying the ratio of `i`: it is at most `i`, has the same
ratio, every earlier ratio is smaller, and it is `i` itself when the table is strictly
increasing. -/
theorem readjustZoom_roundtrip_exact (d : fov_control_data_t) (i j : Nat)
    (hi : i < d.zoomRatioTableCount) (hj : j < d.zoomRatioTableCount)
    (hsorted : ∀ a b, a ≤ b → b < d.zoomRatioTableCount →
      findZoomRatio d a ≤ findZoomRatio d b)
    (hrange : ∀ a, a < d.zoomRatioTableCount → findZoomRatio d a < FLOAT_EXACT_LIMIT)
    (hc : 0 < d.transitionParams.cutOverFactor)
    (hexact : (findZoomRatio d j : ℚ) * d.transitionParams.cutOverFactor =
      (findZoomRatio d i : ℚ)) :
    readjustZoomForTele d i ≤ j ∧
    findZoomRatio d (readjustZoomForTele d i) = findZoomRatio d j ∧
    (∀ k, k < readjustZoomForTele d i → findZoomRatio d k < findZoomRatio d j) ∧
    readjustZoomForWide d (readjustZoomForTele d i) ≤ i ∧
    findZoomRatio d (readjustZoomForWide d (readjustZoomForTele d i)) = findZoomRatio d i ∧
    (∀ k, k < readjustZoomForWide d (readjustZoomForTele d i) →
      findZoomRatio d k < findZoomRatio d i) ∧
    ((∀ a b, a < b → b < d.zoomRatioTableCount → findZoomRatio d a < findZoomRatio d b) →
      readjustZoomForWide d (readjustZoomForTele d i) = i) := by
  obtain ⟨ht1, _⟩ := teleRatio_exact (findZoomRatio d i) (findZoomRatio d j)
    d.transitionParams.cutOverFactor hc (hrange i hi) (hrange j hj) hexact
  have htele : readjustZoomForTele d i = findZoomValue d (findZoomRatio d j) := by
    simp only [readjustZoomForTele]
    rw [ht1]
  obtain ⟨hj1, hj2, hj3⟩ := findZoomValue_of_entry d j hj hsorted
  rw [← htele] at hj1 hj2 hj3
  have hexact2 : (findZoomRatio d (readjustZoomForTele d i) : ℚ) *
      d.transitionParams.cutOverFactor = (findZoomRatio d i : ℚ) := by
    rw [hj2]
    exact hexact
  have htlt : readjustZoomForTele d i < d.zoomRatioTableCount := lt_of_le_of_lt hj1 hj
  obtain ⟨_, hw1⟩ := teleRatio_exact (findZoomRatio d i)
    (findZoomRatio d (readjustZoomForTele d i)) d.transitionParams.cutOverFactor hc
    (hrange i hi) (hrange _ htlt) hexact2
  have hwide : readjustZoomForWide d (readjustZoomForTele d i) =
      findZoomValue d (findZoomRatio d i) := by
    simp only [readjustZoomForWide]
    rw [hw1]
  obtain ⟨hi1, hi2, hi3⟩ := findZoomValue_of_entry d i hi hsorted
  rw [← hwide] at hi1 hi2 hi3
  refine ⟨hj1, hj2, hj3, hi1, hi2, hi3, ?_⟩
  intro hstrict
  by_contra hne
  have := hstrict _ _ (lt_of_le_of_ne hi1 hne) hi
  omega

/-- The table of Scenario A is strictly increasing. -/
theorem scenarioTable_strict (a b : Nat) (hab : a < b)
    (hb : b < scenarioTable.zoomRatioTableCount) :
    findZoomRatio scenarioTable a < findZoomRatio scenarioTable b := by
  have hb6 : b < 6 := hb
  interval_cases b <;> interval_cases a <;> decide

/-- The ratios of the table of Scenario A are below `2^24`. -/
theorem scenarioTable_range (a : Nat) (ha : a < scenarioTable.zoomRatioTableCount) :
    findZoomRatio scenarioTable a < FLOAT_EXACT_LIMIT := by
  have ha6 : a < 6 := ha
  interval_cases a <;> decide

/-- Witness of C4 (amended) on the table of Scenario A at wide index 4 (ratio 300) with
cut-over factor 2: the tele ratio 150 is the ratio of index 2, the tele index is 2 and the
round trip returns index 4. -/
theorem readjustZoom_roundtrip_exact_witness :
    4 < scenarioTable.zoomRatioTableCount ∧ 2 < scenarioTable.zoomRatioTableCount ∧
    (0 : ℚ) < scenarioTable.transitionParams.cutOverFactor ∧
    (findZoomRatio scenarioTable 2 : ℚ) * scenarioTable.transitionParams.cutOverFactor =
      (findZoomRatio scenarioTable 4 : ℚ) ∧
    readjustZoomForTele scenarioTable 4 ≤ 2 ∧
    readjustZoomForWide scenarioTable (readjustZoomForTele scenarioTable 4) = 4 :=
  ⟨by decide, by decide, by decide!, by decide!,
    (readjustZoom_roundtrip_exact scenarioTable 4 2 (by decide) (by decide)
      (fun a b hab hb => by
        rcases Nat.eq_or_lt_of_le hab with h | h
        · rw [h]
        · exact le_of_lt (scenarioTable_strict a b h hb))
      scenarioTable_range (by decide!) (by decide!)).1,
    (readjustZoom_roundtrip_exact scenarioTable 4 2 (by decide) (by decide)
      (fun a b hab hb => by
        rcases Nat.eq_or_lt_of_le hab with h | h
        · rw [h]
        · exact le_of_lt (scenarioTable_strict a b h hb))
      scenarioTable_range (by decide!) (by decide!)).2.2.2.2.2.2 scenarioTable_strict⟩

end qcamera

namespace qcamera

/-! ## Frame lemmas: the role assignment and the configuration flag -/

theorem rolesKept_refl (a : fov_control_data_t) : rolesKept a a := ⟨rfl, rfl, rfl⟩

theorem rolesKept_trans {a b c : fov_control_data_t} (h1 : rolesKept a b) (h2 : rolesKept b c) :
    rolesKept a c :=
  ⟨h2.1.trans h1.1, h2.2.1.trans h1.2.1, h2.2.2.trans h1.2.2⟩

theorem updateZoomDirection_rolesKept (d : fov_control_data_t) :
    rolesKept d (updateZoomDirection d) := by
  unfold updateZoomDirection rolesKept
  split_ifs <;> simp

theorem stateWide_rolesKept (s : QCameraFOVControl) (zoom : ℚ) :
    rolesKept s.mFovControlData (stateWide s zoom).mFovControlData := by
  unfold stateWide rolesKept stateWideCounters
  simp only []
  split_ifs <;> simp

theorem stateTransition_rolesKept (s : QCameraFOVControl) (zoom : ℚ) :
    rolesKept s.mFovControlData (stateTransition s zoom).mFovControlData := by
  unfold stateTransition rolesKept
  simp only []
  split_ifs <;> simp

theorem stateTele_rolesKept (s : QCameraFOVControl) (zoom : ℚ) :
    rolesKept s.mFovControlData (stateTele s zoom).mFovControlData := by
  unfold stateTele rolesKept stateTeleCounters
  simp only []
  split_ifs <;> simp

theorem stateSwitch_rolesKept (s : QCameraFOVControl) (zoom : ℚ) :
    rolesKept s.mFovControlData (stateSwitch s zoom).mFovControlData := by
  unfold stateSwitch
  split
  · exact stateWide_rolesKept s zoom
  · exact stateTransition_rolesKept s zoom
  · exact stateTele_rolesKept s zoom

theorem generateFovControlResult_rolesKept (s : QCameraFOVControl) :
    rolesKept s.mFovControlData (generateFovControlResult s).mFovControlData := by
  unfold generateFovControlResult
  simp only []
  split_ifs
  · exact rolesKept_refl _
  · exact rolesKept_trans (updateZoomDirection_rolesKept _) (stateSwitch_rolesKept _ _)

end qcamera

namespace qcamera

/-! ## Frame lemmas: the active-camera mask of the Result -/

theorem transitionMaster_activeCameras (s : QCameraFOVControl) (zoom : ℚ) :
    (transitionMaster s zoom).activeCameras = s.mFovControlResult.activeCameras := by
  unfold transitionMaster
  simp only []
  split_ifs <;> rfl

theorem stateWide_active (s : QCameraFOVControl) (zoom : ℚ) :
    activeKeptOrRole s.mFovControlData s.mFovControlResult
      (stateWide s zoom).mFovControlResult := by
  unfold stateWide activeKeptOrRole stateWideCounters
  simp only []
  split_ifs <;> simp

theorem stateTransition_active (s : QCameraFOVControl) (zoom : ℚ) :
    activeKeptOrRole s.mFovControlData s.mFovControlResult
      (stateTransition s zoom).mFovControlResult := by
  unfold stateTransition activeKeptOrRole
  simp only []
  split_ifs <;> simp [transitionMaster_activeCameras]

theorem stateTele_active (s : QCameraFOVControl) (zoom : ℚ) :
    activeKeptOrRole s.mFovControlData s.mFovControlResult
      (stateTele s zoom).mFovControlResult := by
  unfold stateTele activeKeptOrRole stateTeleCounters
  simp only []
  split_ifs <;> simp

theorem stateSwitch_active (s : QCameraFOVControl) (zoom : ℚ) :
    activeKeptOrRole s.mFovControlData s.mFovControlResult
      (stateSwitch s zoom).mFovControlResult := by
  unfold stateSwitch
  split
  · exact stateWide_active s zoom
  · exact stateTransition_active s zoom
  · exact stateTele_active s zoom

theorem generateFovControlResult_active (s : QCameraFOVControl) :
    activeKeptOrRole s.mFovControlData s.mFovControlResult
      (generateFovControlResult s).mFovControlResult := by
  unfold generateFovControlResult
  simp only []
  split_ifs
  · exact Or.inl rfl
  · have h := stateSwitch_active
      { s with
        mFovControlData := updateZoomDirection s.mFovControlData,
        mFovControlResult := updateSnapshotPPFlags s (effectiveZoom s.mFovControlData) }
      (effectiveZoom s.mFovControlData)
    have hr := updateZoomDirection_rolesKept s.mFovControlData
    unfold activeKeptOrRole at h ⊢
    simp only [hr.1, hr.2.1] at h
    exact h

/-! ## Frame lemmas: parameter translation and metadata fusion -/

theorem translateInputParams_obj (s : QCameraFOVControl)
    (paramsMainCam paramsAuxCam : Option parm_buffer_t) :
    rolesKept s.mFovControlData (translateInputParams s paramsMainCam paramsAuxCam).obj.mFovControlData ∧
    activeKeptOrRole s.mFovControlData s.mFovControlResult
      (translateInputParams s paramsMainCam paramsAuxCam).obj.mFovControlResult := by
  unfold translateInputParams
  split
  · rename_i paramsMain _
    simp only []
    have hz : ∀ z : Nat,
        rolesKept s.mFovControlData
          (generateFovControlResult (convertUserZoomToWideAndTele s z)).mFovControlData ∧
        activeKeptOrRole s.mFovControlData s.mFovControlResult
          (generateFovControlResult (convertUserZoomToWideAndTele s z)).mFovControlResult := by
      intro z
      have h1 := generateFovControlResult_rolesKept (convertUserZoomToWideAndTele s z)
      have h2 := generateFovControlResult_active (convertUserZoomToWideAndTele s z)
      exact ⟨h1, h2⟩
    cases hzoom : paramsMain.CAM_INTF_PARM_ZOOM with
    | none =>
      simp only []
      split_ifs
      · exact ⟨⟨rfl, rfl, rfl⟩, Or.inl rfl⟩
      · exact ⟨rolesKept_refl _, Or.inl rfl⟩
    | some z =>
      simp only []
      split_ifs <;> exact hz z
  · exact ⟨rolesKept_refl _, Or.inl rfl⟩

theorem bookKeepSacOutput_rolesKept (d : fov_control_data_t) (masterCam : Nat)
    (sac : cam_sac_output_info_t) : rolesKept d (bookKeepSacOutput d masterCam sac).2 :=
  ⟨rfl, rfl, rfl⟩

theorem bookKeepMaster_rolesKept (s : QCameraFOVControl)
    (metaMain metaAux : Option metadata_buffer_t) :
    rolesKept s.mFovControlData (bookKeepMaster s metaMain metaAux).2 := by
  unfold bookKeepMaster
  simp only []
  split
  · exact bookKeepSacOutput_rolesKept _ _ _
  · exact rolesKept_refl _

theorem bookKeepShiftMain_rolesKept (w : Bool) (m : Option metadata_buffer_t)
    (d : fov_control_data_t) : rolesKept d (bookKeepShiftMain w m d) := by
  unfold bookKeepShiftMain
  split
  · split_ifs <;> exact ⟨rfl, rfl, rfl⟩
  · exact rolesKept_refl _

theorem bookKeepShiftAux_rolesKept (w : Bool) (m : Option metadata_buffer_t)
    (d : fov_control_data_t) : rolesKept d (bookKeepShiftAux w m d) := by
  unfold bookKeepShiftAux
  split
  · split_ifs <;> exact ⟨rfl, rfl, rfl⟩
  · exact rolesKept_refl _

theorem bookKeepLowPower_rolesKept (masterCam : Nat) (m1 m2 : Option metadata_buffer_t)
    (d : fov_control_data_t) : rolesKept d (bookKeepLowPower masterCam m1 m2 d) := by
  unfold bookKeepLowPower
  simp only []
  by_cases h : d.availableSpatialAlignSolns &&& CAM_SPATIAL_ALIGN_OEM ≠ 0
  · rw [if_pos h]
    split
    · split_ifs <;> exact ⟨rfl, rfl, rfl⟩
    · exact rolesKept_refl _
  · rw [if_neg h]
    exact rolesKept_refl _

theorem bookKeepAfMain_rolesKept (m : Option metadata_buffer_t)
    (d : fov_control_data_t) : rolesKept d (bookKeepAfMain m d) := by
  unfold bookKeepAfMain
  split <;> exact ⟨rfl, rfl, rfl⟩

theorem bookKeepAfAux_rolesKept (m : Option metadata_buffer_t)
    (d : fov_control_data_t) : rolesKept d (bookKeepAfAux m d) := by
  unfold bookKeepAfAux
  split <;> exact ⟨rfl, rfl, rfl⟩

theorem bookKeepStreaming_rolesKept (w : Bool) (m1 m2 : Option metadata_buffer_t)
    (d : fov_control_data_t) : rolesKept d (bookKeepStreaming w m1 m2 d) :=
  ⟨rfl, rfl, rfl⟩

theorem processBookKeeping_frame (s : QCameraFOVControl)
    (metaMain metaAux : Option metadata_buffer_t) :
    rolesKept s.mFovControlData (processBookKeeping s metaMain metaAux).2.mFovControlData ∧
    (processBookKeeping s metaMain metaAux).2.mFovControlResult = s.mFovControlResult := by
  refine ⟨?_, rfl⟩
  unfold processBookKeeping
  simp only []
  exact rolesKept_trans (bookKeepMaster_rolesKept s metaMain metaAux)
    (rolesKept_trans (bookKeepShiftMain_rolesKept _ _ _)
      (rolesKept_trans (bookKeepShiftAux_rolesKept _ _ _)
        (rolesKept_trans (bookKeepLowPower_rolesKept _ _ _ _)
          (rolesKept_trans (bookKeepAfMain_rolesKept _ _)
            (rolesKept_trans (bookKeepAfAux_rolesKept _ _)
              (bookKeepStreaming_rolesKept _ _ _ _))))))

theorem processResultMetadata_obj (s : QCameraFOVControl)
    (metaMain metaAux : Option metadata_buffer_t) :
    rolesKept s.mFovControlData (processResultMetadata s metaMain metaAux).obj.mFovControlData ∧
    activeKeptOrRole s.mFovControlData s.mFovControlResult
      (processResultMetadata s metaMain metaAux).obj.mFovControlResult := by
  unfold processResultMetadata
  split_ifs
  · simp only []
    obtain ⟨h1, h2⟩ := processBookKeeping_frame s metaMain metaAux
    have h3 := generateFovControlResult_rolesKept (processBookKeeping s metaMain metaAux).2
    have h4 := generateFovControlResult_active (processBookKeeping s metaMain metaAux).2
    refine ⟨rolesKept_trans h1 h3, ?_⟩
    unfold activeKeptOrRole at h4 ⊢
    rw [h2, h1.1, h1.2.1] at h4
    exact h4
  · exact ⟨rolesKept_refl _, Or.inl rfl⟩

end qcamera

namespace qcamera

/-! ## Frame lemmas: configuration update and construction -/

theorem mainMarginLoop_rolesKept (l : List cam_stream_slot_t) :
    ∀ d : fov_control_data_t, rolesKept d (mainMarginLoop l d) := by
  induction l with
  | nil => intro d; exact rolesKept_refl d
  | cons e rest ih =>
    intro d
    unfold mainMarginLoop
    simp only []
    split_ifs
    all_goals first
      | exact ⟨rfl, rfl, rfl⟩
      | exact rolesKept_trans
          (show rolesKept d { d with previewSize := e.stream_sizes } from ⟨rfl, rfl, rfl⟩) (ih _)

theorem auxMarginLoop_rolesKept (l : List cam_stream_slot_t) :
    ∀ d : fov_control_data_t, rolesKept d (auxMarginLoop l d) := by
  induction l with
  | nil => intro d; exact rolesKept_refl d
  | cons e rest ih =>
    intro d
    unfold auxMarginLoop
    simp only []
    split_ifs
    all_goals first
      | exact ⟨rfl, rfl, rfl⟩
      | exact rolesKept_trans
          (show rolesKept d { d with previewSize := e.stream_sizes } from ⟨rfl, rfl, rfl⟩) (ih _)

theorem updateConfigReset_frame (st : FOVCSettings) (s : QCameraFOVControl)
    (i1 i2 : cam_stream_size_info_t) :
    rolesKept s.mFovControlData (updateConfigReset st s i1 i2).mFovControlData ∧
    (updateConfigReset st s i1 i2).mFovControlResult = s.mFovControlResult := by
  refine ⟨?_, rfl⟩
  have h1 := mainMarginLoop_rolesKept i1.slots
    { s.mFovControlData with camcorderMode := hasVideoStream i1 }
  have h2 := auxMarginLoop_rolesKept i2.slots
    (mainMarginLoop i1.slots { s.mFovControlData with camcorderMode := hasVideoStream i1 })
  have h3 := rolesKept_trans h1 h2
  exact ⟨h3.1, h3.2.1, h3.2.2⟩

theorem calculateBasicFovRatio_frame (s : QCameraFOVControl) :
    rolesKept s.mFovControlData (calculateBasicFovRatio s).2.mFovControlData ∧
    (calculateBasicFovRatio s).2.mFovControlResult = s.mFovControlResult := by
  unfold calculateBasicFovRatio
  simp only []
  split_ifs <;> exact ⟨⟨rfl, rfl, rfl⟩, rfl⟩

theorem combineFovAdjustment_frame (s : QCameraFOVControl) :
    rolesKept s.mFovControlData (combineFovAdjustment s).2.mFovControlData ∧
    (combineFovAdjustment s).2.mFovControlResult = s.mFovControlResult := by
  unfold combineFovAdjustment
  simp only []
  split_ifs <;> exact ⟨⟨rfl, rfl, rfl⟩, rfl⟩

theorem calculateDualCamTransitionParams_frame (s : QCameraFOVControl) :
    rolesKept s.mFovControlData (calculateDualCamTransitionParams s).mFovControlData ∧
    (calculateDualCamTransitionParams s).mFovControlResult = s.mFovControlResult := by
  unfold calculateDualCamTransitionParams
  simp only []
  split_ifs <;> exact ⟨⟨rfl, rfl, rfl⟩, rfl⟩

theorem updateConfigInitialState_frame (s : QCameraFOVControl) :
    (updateConfigInitialState s).mFovControlData.camWide = s.mFovControlData.camWide ∧
    (updateConfigInitialState s).mFovControlData.camTele = s.mFovControlData.camTele ∧
    (updateConfigInitialState s).mFovControlData.configCompleted = true ∧
    ((updateConfigInitialState s).mFovControlResult.activeCameras = s.mFovControlData.camWide ∨
      (updateConfigInitialState s).mFovControlResult.activeCameras = s.mFovControlData.camTele) := by
  have h := (calculateDualCamTransitionParams_frame s).1
  unfold updateConfigInitialState
  simp only []
  split_ifs
  · exact ⟨h.1, h.2.1, rfl, Or.inr h.2.1⟩
  · exact ⟨h.1, h.2.1, rfl, Or.inl h.1⟩

/-- What `updateConfigSettings` does to the roles, the configuration flag and the Result:
the roles are kept; on success the configuration is complete and one role is active; on
failure the configuration flag and the Result are unchanged. -/
theorem updateConfigSettings_frame (st : FOVCSettings) (s : QCameraFOVControl)
    (pm pa : Option parm_buffer_t) :
    (updateConfigSettings st s pm pa).2.mFovControlData.camWide = s.mFovControlData.camWide ∧
    (updateConfigSettings st s pm pa).2.mFovControlData.camTele = s.mFovControlData.camTele ∧
    (((updateConfigSettings st s pm pa).1 = status_t.NO_ERROR ∧
        (updateConfigSettings st s pm pa).2.mFovControlData.configCompleted = true ∧
        ((updateConfigSettings st s pm pa).2.mFovControlResult.activeCameras =
            s.mFovControlData.camWide ∨
          (updateConfigSettings st s pm pa).2.mFovControlResult.activeCameras =
            s.mFovControlData.camTele)) ∨
      ((updateConfigSettings st s pm pa).1 = status_t.INVALID_OPERATION ∧
        (updateConfigSettings st s pm pa).2.mFovControlData.configCompleted =
          s.mFovControlData.configCompleted ∧
        (updateConfigSettings st s pm pa).2.mFovControlResult = s.mFovControlResult)) := by
  unfold updateConfigSettings
  split
  · rename_i paramsMain paramsAux
    split
    · rename_i i1 i2 _ _
      simp only []
      obtain ⟨a1, a2⟩ := updateConfigReset_frame st s i1 i2
      obtain ⟨b1, b2⟩ := calculateBasicFovRatio_frame (updateConfigReset st s i1 i2)
      obtain ⟨c1, c2⟩ :=
        combineFovAdjustment_frame (calculateBasicFovRatio (updateConfigReset st s i1 i2)).2
      have hab := rolesKept_trans a1 b1
      have habc := rolesKept_trans hab c1
      split_ifs
      · obtain ⟨e1, e2, e3, e4⟩ := updateConfigInitialState_frame
          (combineFovAdjustment (calculateBasicFovRatio (updateConfigReset st s i1 i2)).2).2
        refine ⟨e1.trans habc.1, e2.trans habc.2.1, Or.inl ⟨rfl, e3, ?_⟩⟩
        rw [habc.1, habc.2.1] at e4
        exact e4
      · exact ⟨habc.1, habc.2.1, Or.inr ⟨rfl, habc.2.2, c2.trans (b2.trans a2)⟩⟩
      · exact ⟨hab.1, hab.2.1, Or.inr ⟨rfl, hab.2.2, b2.trans a2⟩⟩
    · exact ⟨rfl, rfl, Or.inr ⟨rfl, rfl, rfl⟩⟩
  · exact ⟨rfl, rfl, Or.inr ⟨rfl, rfl, rfl⟩⟩

theorem validateAndExtractParameters_rolesKept (s : QCameraFOVControl)
    (capsMainCam capsAuxCam : Option cam_capability_t) :
    rolesKept s.mFovControlData
      (validateAndExtractParameters s capsMainCam capsAuxCam).2.mFovControlData := by
  unfold validateAndExtractParameters
  split
  · simp only []
    split_ifs <;> exact ⟨rfl, rfl, rfl⟩
  · exact rolesKept_refl _

/-- The focal lengths kept by `validateAndExtractParameters`: those of the capabilities when
their hundredths differ, the hard-coded 3.5 mm and 7 mm otherwise. -/
theorem validateAndExtractParameters_focal (s : QCameraFOVControl)
    (capsMain capsAux : cam_capability_t) :
    (validateAndExtractParameters s (some capsMain) (some capsAux)).2.mDualCamParams.paramsMain.focalLengthMm =
      (if floatToUint32 (floatRound (capsMain.focal_length * 100)) ≠
          floatToUint32 (floatRound (capsAux.focal_length * 100))
        then capsMain.focal_length else 35 / 10) ∧
    (validateAndExtractParameters s (some capsMain) (some capsAux)).2.mDualCamParams.paramsAux.focalLengthMm =
      (if floatToUint32 (floatRound (capsMain.focal_length * 100)) ≠
          floatToUint32 (floatRound (capsAux.focal_length * 100))
        then capsAux.focal_length else 7) := by
  unfold validateAndExtractParameters
  simp only []
  split_ifs <;> exact ⟨rfl, rfl⟩

/-- A created object satisfies the invariant, and its configuration is not complete. -/
theorem create_fovInvariant (capsMainCam capsAuxCam : Option cam_capability_t)
    (s : QCameraFOVControl) (h : create capsMainCam capsAuxCam = some s) :
    fovInvariant s ∧ s.mFovControlData.configCompleted = false := by
  unfold create at h
  split at h
  · rename_i capsMain capsAux
    simp only [] at h
    have hv := validateAndExtractParameters_rolesKept QCameraFOVControl.new
      (some capsMain) (some capsAux)
    have hcc : (validateAndExtractParameters QCameraFOVControl.new
        (some capsMain) (some capsAux)).2.mFovControlData.configCompleted = false := hv.2.2
    split_ifs at h
    all_goals
      injection h with h
      subst h
      refine ⟨⟨?_, ?_⟩, ?_⟩
      · first
          | exact Or.inl ⟨rfl, rfl⟩
          | exact Or.inr ⟨rfl, rfl⟩
      · intro hc
        have hc2 : (validateAndExtractParameters QCameraFOVControl.new
            (some capsMain) (some capsAux)).2.mFovControlData.configCompleted = true := hc
        rw [hcc] at hc2
        exact absurd hc2 (by decide)
      · exact hcc
  · exact absurd h (by simp)

/-! ## The invariant along a run -/

theorem fovInvariant_of_frame {s t : QCameraFOVControl}
    (hr : rolesKept s.mFovControlData t.mFovControlData)
    (ha : activeKeptOrRole s.mFovControlData s.mFovControlResult t.mFovControlResult)
    (hs : fovInvariant s) : fovInvariant t := by
  obtain ⟨h1, h2, h3⟩ := hr
  unfold fovInvariant at hs ⊢
  unfold activeKeptOrRole at ha
  rw [h1, h2, h3]
  refine ⟨hs.1, ?_⟩
  intro hc
  have := hs.2 hc
  rcases ha with ha | ha | ha | ha
  · rw [ha]; exact this
  · exact Or.inl ha
  · exact Or.inr (Or.inl ha)
  · exact Or.inr (Or.inr ha)

/-- Every operation preserves the invariant. -/
theorem step_fovInvariant (st : FOVCSettings) (s : QCameraFOVControl) (op : Op)
    (hs : fovInvariant s) : fovInvariant (step st s op) := by
  cases op with
  | updateConfigSettings pm pa =>
    obtain ⟨h1, h2, h3⟩ := updateConfigSettings_frame st s pm pa
    show fovInvariant (updateConfigSettings st s pm pa).2
    unfold fovInvariant at hs ⊢
    rw [h1, h2]
    refine ⟨hs.1, ?_⟩
    rcases h3 with ⟨_, _, h⟩ | ⟨_, hc, hr⟩
    · intro _
      rcases h with h | h
      · exact Or.inl h
      · exact Or.inr (Or.inl h)
    · rw [hc, hr]
      exact hs.2
  | translateInputParams pm pa =>
    obtain ⟨h1, h2⟩ := translateInputParams_obj s pm pa
    exact fovInvariant_of_frame h1 h2 hs
  | processResultMetadata m1 m2 =>
    obtain ⟨h1, h2⟩ := processResultMetadata_obj s m1 m2
    exact fovInvariant_of_frame h1 h2 hs
  | getFovControlResult => exact hs

/-- Every run preserves the invariant. -/
theorem run_fovInvariant (st : FOVCSettings) (ops : List Op) :
    ∀ s : QCameraFOVControl, fovInvariant s → fovInvariant (run st s ops) := by
  induction ops with
  | nil => intro s hs; exact hs
  | cons op rest ih =>
    intro s hs
    exact ih (step st s op) (step_fovInvariant st s op hs)

/-- Every operation keeps the role assignment. -/
theorem step_roles (st : FOVCSettings) (s : QCameraFOVControl) (op : Op) :
    (step st s op).mFovControlData.camWide = s.mFovControlData.camWide ∧
    (step st s op).mFovControlData.camTele = s.mFovControlData.camTele := by
  cases op with
  | updateConfigSettings pm pa =>
    obtain ⟨h1, h2, _⟩ := updateConfigSettings_frame st s pm pa
    exact ⟨h1, h2⟩
  | translateInputParams pm pa =>
    obtain ⟨h1, _⟩ := translateInputParams_obj s pm pa
    exact ⟨h1.1, h1.2.1⟩
  | processResultMetadata m1 m2 =>
    obtain ⟨h1, _⟩ := processResultMetadata_obj s m1 m2
    exact ⟨h1.1, h1.2.1⟩
  | getFovControlResult => exact ⟨rfl, rfl⟩

/-- Every run keeps the role assignment. -/
theorem run_roles (st : FOVCSettings) (ops : List Op) :
    ∀ s : QCameraFOVControl,
      (run st s ops).mFovControlData.camWide = s.mFovControlData.camWide ∧
      (run st s ops).mFovControlData.camTele = s.mFovControlData.camTele := by
  induction ops with
  | nil => intro s; exact ⟨rfl, rfl⟩
  | cons op rest ih =>
    intro s
    obtain ⟨h1, h2⟩ := ih (step st s op)
    obtain ⟨h3, h4⟩ := step_roles st s op
    exact ⟨h1.trans h3, h2.trans h4⟩

/-- A completed configuration stays completed under every operation. -/
theorem step_configCompleted (st : FOVCSettings) (s : QCameraFOVControl) (op : Op)
    (hc : s.mFovControlData.configCompleted = true) :
    (step st s op).mFovControlData.configCompleted = true := by
  cases op with
  | updateConfigSettings pm pa =>
    obtain ⟨_, _, h3⟩ := updateConfigSettings_frame st s pm pa
    rcases h3 with ⟨_, h, _⟩ | ⟨_, h, _⟩
    · exact h
    · exact h.trans hc
  | translateInputParams pm pa =>
    obtain ⟨h1, _⟩ := translateInputParams_obj s pm pa
    exact h1.2.2.trans hc
  | processResultMetadata m1 m2 =>
    obtain ⟨h1, _⟩ := processResultMetadata_obj s m1 m2
    exact h1.2.2.trans hc
  | getFovControlResult => exact hc

/-- A completed configuration stays completed along every run. -/
theorem run_configCompleted (st : FOVCSettings) (ops : List Op) :
    ∀ s : QCameraFOVControl, s.mFovControlData.configCompleted = true →
      (run st s ops).mFovControlData.configCompleted = true := by
  induction ops with
  | nil => intro s hs; exact hs
  | cons op rest ih =>
    intro s hs
    exact ih (step st s op) (step_configCompleted st s op hs)

end qcamera

namespace qcamera

/-! ## The state machine alone keeps the active cameras consistent with the state -/

theorem updateZoomDirection_camState (d : fov_control_data_t) :
    (updateZoomDirection d).camState = d.camState := by
  unfold updateZoomDirection
  split_ifs <;> rfl

/-- One state-machine update keeps the active-camera mask consistent with the state (wide
in WIDE, tele in TELE, both in TRANSITION): the consistency can only be broken outside
`generateFovControlResult`. -/
theorem generateFovControlResult_consistent (s : QCameraFOVControl)
    (h : stateActiveConsistent s) : stateActiveConsistent (generateFovControlResult s) := by
  unfold stateActiveConsistent at h ⊢
  rw [(generateFovControlResult_rolesKept s).1, (generateFovControlResult_rolesKept s).2.1]
  unfold generateFovControlResult
  simp only []
  split_ifs with hc
  · exact h
  · have hz1 : (updateZoomDirection s.mFovControlData).camWide = s.mFovControlData.camWide :=
      (updateZoomDirection_rolesKept s.mFovControlData).1
    have hz2 : (updateZoomDirection s.mFovControlData).camTele = s.mFovControlData.camTele :=
      (updateZoomDirection_rolesKept s.mFovControlData).2.1
    have hs := updateZoomDirection_camState s.mFovControlData
    have hp : (updateSnapshotPPFlags s (effectiveZoom s.mFovControlData)).activeCameras =
        s.mFovControlResult.activeCameras := rfl
    unfold stateSwitch
    simp only [hs]
    cases hst : s.mFovControlData.camState with
    | STATE_WIDE =>
      rw [hst] at h
      unfold stateWide stateWideCounters
      simp only []
      split_ifs <;> simp_all
    | STATE_TRANSITION =>
      rw [hst] at h
      unfold stateTransition
      simp only []
      split_ifs <;> simp_all [transitionMaster_activeCameras]
    | STATE_TELE =>
      rw [hst] at h
      unfold stateTele stateTeleCounters
      simp only []
      split_ifs <;> simp_all

/-- Parameter translation keeps the active-camera mask consistent with the state. -/
theorem translateInputParams_consistent (s : QCameraFOVControl)
    (paramsMainCam paramsAuxCam : Option parm_buffer_t) (h : stateActiveConsistent s) :
    stateActiveConsistent (translateInputParams s paramsMainCam paramsAuxCam).obj := by
  unfold translateInputParams
  split
  · rename_i paramsMain _
    simp only []
    have hz : ∀ z : Nat, stateActiveConsistent
        (generateFovControlResult (convertUserZoomToWideAndTele s z)) :=
      fun z => generateFovControlResult_consistent _ h
    cases hzoom : paramsMain.CAM_INTF_PARM_ZOOM with
    | none =>
      simp only []
      split_ifs <;> exact h
    | some z =>
      simp only []
      split_ifs <;> exact hz z
  · exact h

/-- The book-keeping of metadata fusion leaves the state of the state machine unchanged. -/
theorem processBookKeeping_camState (s : QCameraFOVControl)
    (metaMain metaAux : Option metadata_buffer_t) :
    (processBookKeeping s metaMain metaAux).2.mFovControlData.camState =
      s.mFovControlData.camState := by
  have h1 : (bookKeepMaster s metaMain metaAux).2.camState = s.mFovControlData.camState := by
    unfold bookKeepMaster
    simp only []
    split <;> rfl
  have h2 : ∀ (w : Bool) (m : Option metadata_buffer_t) (d : fov_control_data_t),
      (bookKeepShiftMain w m d).camState = d.camState := by
    intro w m d
    unfold bookKeepShiftMain
    split
    · split_ifs <;> rfl
    · rfl
  have h3 : ∀ (w : Bool) (m : Option metadata_buffer_t) (d : fov_control_data_t),
      (bookKeepShiftAux w m d).camState = d.camState := by
    intro w m d
    unfold bookKeepShiftAux
    split
    · split_ifs <;> rfl
    · rfl
  have h4 : ∀ (c : Nat) (m1 m2 : Option metadata_buffer_t) (d : fov_control_data_t),
      (bookKeepLowPower c m1 m2 d).camState = d.camState := by
    intro c m1 m2 d
    unfold bookKeepLowPower
    simp only []
    by_cases hh : d.availableSpatialAlignSolns &&& CAM_SPATIAL_ALIGN_OEM ≠ 0
    · rw [if_pos hh]
      split
      · split_ifs <;> rfl
      · rfl
    · rw [if_neg hh]
  have h5 : ∀ (m : Option metadata_buffer_t) (d : fov_control_data_t),
      (bookKeepAfMain m d).camState = d.camState := by
    intro m d
    unfold bookKeepAfMain
    split <;> rfl
  have h6 : ∀ (m : Option metadata_buffer_t) (d : fov_control_data_t),
      (bookKeepAfAux m d).camState = d.camState := by
    intro m d
    unfold bookKeepAfAux
    split <;> rfl
  unfold processBookKeeping
  simp only []
  show (bookKeepStreaming _ _ _ _).camState = _
  unfold bookKeepStreaming
  simp only []
  rw [h6, h5, h4, h3, h2, h1]

/-- Metadata fusion keeps the active-camera mask consistent with the state. -/
theorem processResultMetadata_consistent (s : QCameraFOVControl)
    (metaMain metaAux : Option metadata_buffer_t) (h : stateActiveConsistent s) :
    stateActiveConsistent (processResultMetadata s metaMain metaAux).obj := by
  unfold processResultMetadata
  split_ifs
  · simp only []
    apply generateFovControlResult_consistent
    obtain ⟨h1, h2⟩ := processBookKeeping_frame s metaMain metaAux
    unfold stateActiveConsistent at h ⊢
    rw [h2, h1.1, h1.2.1, processBookKeeping_camState]
    exact h
  · exact h

end qcamera

namespace qcamera

/-! ## Claims on the active cameras and the roles -/

/-- C1 (code at the failing input): main wide, tele aux; configure, one frame of main
metadata, zoom in to index 3 (the state machine enters TRANSITION with both cameras
active), then a second, successful `updateConfigSettings`: the state is still TRANSITION
but the Result's `activeCameras` is the wide camera alone (1), not wide|tele (3). -/
theorem reconfigure_in_transition_single_camera :
    (runFromCreate settingsNoPP (some capsMainWide) (some capsAuxTele)
        (opsReconfigureInTransition.take 3)).map
      (fun s => (s.mFovControlData.camState, s.mFovControlResult.activeCameras,
        (updateConfigSettings settingsNoPP s (some paramsPreview) (some paramsPreview)).1)) =
      some (dual_cam_state.STATE_TRANSITION, 3, status_t.NO_ERROR) ∧
    (runFromCreate settingsNoPP (some capsMainWide) (some capsAuxTele)
        opsReconfigureInTransition).map
      (fun s => (s.mFovControlData.camState, s.mFovControlResult.activeCameras,
        s.mFovControlData.camWide ||| s.mFovControlData.camTele)) =
      some (dual_cam_state.STATE_TRANSITION, 1, 3) := by
  decide!

/-- C2 (code at the failing input): main wide, tele aux; configure, zoom to the last index
(the scene is dark, the state stays WIDE), then a second, successful `updateConfigSettings`:
the state is WIDE but the Result's `activeCameras` is the tele camera (2), not the wide
camera (1). -/
theorem reconfigure_zoomed_in_wide_state_tele_active :
    (runFromCreate settingsNoPP (some capsMainWide) (some capsAuxTele)
        (opsReconfigureZoomedIn.take 2)).map
      (fun s => (s.mFovControlData.camState, s.mFovControlResult.activeCameras,
        (updateConfigSettings settingsNoPP s (some paramsPreview) (some paramsPreview)).1)) =
      some (dual_cam_state.STATE_WIDE, 1, status_t.NO_ERROR) ∧
    (runFromCreate settingsNoPP (some capsMainWide) (some capsAuxTele)
        opsReconfigureZoomedIn).map
      (fun s => (s.mFovControlData.camState, s.mFovControlResult.activeCameras,
        s.mFovControlData.camWide, s.mFovControlData.camTele)) =
      some (dual_cam_state.STATE_WIDE, 2, 1, 2) := by
  decide!

/-- C3: from a created object, after every sequence of operations that leaves the
configuration complete, the Result's `activeCameras` is the wide camera, the tele camera or
both - that is MAIN, AUX or MAIN|AUX - and never the empty mask; and once an
`updateConfigSettings` has succeeded the configuration is complete after every later
operation. -/
theorem activeCameras_never_empty (st : FOVCSettings)
    (capsMainCam capsAuxCam : Option cam_capability_t) (s0 : QCameraFOVControl)
    (hcreate : create capsMainCam capsAuxCam = some s0) :
    (∀ ops : List Op, (run st s0 ops).mFovControlData.configCompleted = true →
      ((run st s0 ops).mFovControlResult.activeCameras = (run st s0 ops).mFovControlData.camWide ∨
        (run st s0 ops).mFovControlResult.activeCameras = (run st s0 ops).mFovControlData.camTele ∨
        (run st s0 ops).mFovControlResult.activeCameras =
          ((run st s0 ops).mFovControlData.camWide ||| (run st s0 ops).mFovControlData.camTele)) ∧
      ((run st s0 ops).mFovControlResult.activeCameras = CAM_TYPE_MAIN ∨
        (run st s0 ops).mFovControlResult.activeCameras = CAM_TYPE_AUX ∨
        (run st s0 ops).mFovControlResult.activeCameras = (CAM_TYPE_MAIN ||| CAM_TYPE_AUX)) ∧
      (run st s0 ops).mFovControlResult.activeCameras ≠ 0) ∧
    (∀ (ops1 ops2 : List Op) (pm pa : Option parm_buffer_t),
      (updateConfigSettings st (run st s0 ops1) pm pa).1 = status_t.NO_ERROR →
      (run st s0 (ops1 ++ Op.updateConfigSettings pm pa :: ops2)).mFovControlData.configCompleted =
        true) := by
  have hinv0 := (create_fovInvariant capsMainCam capsAuxCam s0 hcreate).1
  constructor
  · intro ops hc
    obtain ⟨hroles, hact⟩ := run_fovInvariant st ops s0 hinv0
    have h := hact hc
    refine ⟨h, ?_, ?_⟩
    · rcases hroles with ⟨hw, ht⟩ | ⟨hw, ht⟩
      · rw [hw, ht] at h
        exact h
      · rw [hw, ht] at h
        rcases h with h | h | h
        · exact Or.inr (Or.inl h)
        · exact Or.inl h
        · exact Or.inr (Or.inr (h.trans (by decide)))
    · rcases hroles with ⟨hw, ht⟩ | ⟨hw, ht⟩ <;>
        · rw [hw, ht] at h
          rcases h with h | h | h <;>
            · rw [h]
              decide
  · intro ops1 ops2 pm pa hok
    have hrun : run st s0 (ops1 ++ Op.updateConfigSettings pm pa :: ops2) =
        run st (updateConfigSettings st (run st s0 ops1) pm pa).2 ops2 := by
      simp [run, List.foldl_append, step]
    rw [hrun]
    apply run_configCompleted
    obtain ⟨_, _, h3⟩ := updateConfigSettings_frame st (run st s0 ops1) pm pa
    rcases h3 with ⟨_, h, _⟩ | ⟨hbad, _, _⟩
    · exact h
    · rw [hok] at hbad
      exact absurd hbad (by decide)

/-- Witness of C3 on the pair main wide / aux tele with the run that reconfigures in
TRANSITION. -/
theorem activeCameras_never_empty_witness :
    create (some capsMainWide) (some capsAuxTele) = some createdMainWide ∧
    (run settingsNoPP createdMainWide opsReconfigureInTransition).mFovControlData.configCompleted =
      true ∧
    (run settingsNoPP createdMainWide opsReconfigureInTransition).mFovControlResult.activeCameras ≠
      0 :=
  ⟨by decide!, by decide!,
    ((activeCameras_never_empty settingsNoPP (some capsMainWide) (some capsAuxTele)
      createdMainWide (by decide!)).1 opsReconfigureInTransition (by decide!)).2.2⟩

/-- C9: after a successful `create` the wide and tele roles are the main and the aux
camera, one each, so they differ; and no sequence of later operations
(`updateConfigSettings`, `translateInputParams`, `processResultMetadata`,
`getFovControlResult`) changes either role. -/
theorem roles_fixed_after_create (capsMainCam capsAuxCam : Option cam_capability_t)
    (s0 : QCameraFOVControl) (hcreate : create capsMainCam capsAuxCam = some s0) :
    ((s0.mFovControlData.camWide = CAM_TYPE_MAIN ∧ s0.mFovControlData.camTele = CAM_TYPE_AUX) ∨
      (s0.mFovControlData.camWide = CAM_TYPE_AUX ∧ s0.mFovControlData.camTele = CAM_TYPE_MAIN)) ∧
    s0.mFovControlData.camWide ≠ s0.mFovControlData.camTele ∧
    (∀ (st : FOVCSettings) (ops : List Op),
      (run st s0 ops).mFovControlData.camWide = s0.mFovControlData.camWide ∧
      (run st s0 ops).mFovControlData.camTele = s0.mFovControlData.camTele) := by
  have hinv0 := (create_fovInvariant capsMainCam capsAuxCam s0 hcreate).1
  refine ⟨hinv0.1, ?_, fun st ops => run_roles st ops s0⟩
  rcases hinv0.1 with ⟨hw, ht⟩ | ⟨hw, ht⟩ <;>
    · rw [hw, ht]
      decide

/-- Witness of C9 on the pair main tele / aux wide. -/
theorem roles_fixed_after_create_witness :
    create (some capsMainTele) (some capsAuxWide) =
      some ((create (some capsMainTele) (some capsAuxWide)).getD QCameraFOVControl.new) ∧
    ((create (some capsMainTele) (some capsAuxWide)).getD
        QCameraFOVControl.new).mFovControlData.camWide ≠
      ((create (some capsMainTele) (some capsAuxWide)).getD
        QCameraFOVControl.new).mFovControlData.camTele :=
  ⟨by decide!,
    (roles_fixed_after_create (some capsMainTele) (some capsAuxWide)
      ((create (some capsMainTele) (some capsAuxWide)).getD QCameraFOVControl.new)
      (by decide!)).2.1⟩

/-! ## Claims on the thresholds and the role assignment -/

/-- C7 (code at the failing input): main wide with basic FOV ratio 2, margins 5/10/15
percent, snapshot post-processing enabled on the zoom window [1, 5]: after
`updateConfigSettings` (which runs `calculateDualCamTransitionParams`) the low end of the
transition band is 5, above the tele-to-wide cut-over 2; running
`calculateDualCamTransitionParams` on that object again gives the same thresholds. -/
theorem transitionLow_above_cutOver_with_postprocess :
    (runFromCreate settingsPP (some capsMainWide) (some capsAuxTele) [opConfigure]).map
      (fun s => s.mFovControlConfig.snapshotPPConfig) =
      some { enablePostProcess := true, zoomMin := 1, zoomMax := 5, luxMin := 0,
             focusDistanceMin := 0 } ∧
    (runFromCreate settingsPP (some capsMainWide) (some capsAuxTele) [opConfigure]).map
      (fun s => s.mFovControlData.basicFovRatio) = some 2 ∧
    (runFromCreate settingsPP (some capsMainWide) (some capsAuxTele) [opConfigure]).map
      (fun s => s.mFovControlData.transitionParams) =
      some { cropRatio := 2, cutOverFactor := 2, cutOverWideToTele := 21 / 10,
             cutOverTeleToWide := 2, transitionHigh := 5, transitionLow := 5 } ∧
    (runFromCreate settingsPP (some capsMainWide) (some capsAuxTele) [opConfigure]).map
      (fun s => (calculateDualCamTransitionParams s).mFovControlData.transitionParams) =
      some { cropRatio := 2, cutOverFactor := 2, cutOverWideToTele := 21 / 10,
             cutOverTeleToWide := 2, transitionHigh := 5, transitionLow := 5 } ∧
    ¬ ((5 : ℚ) ≤ 2) := by
  decide!

/-- C8 (counterexample): main camera 3.504 mm, aux camera 3.501 mm: `create` succeeds and
the aux camera has the strictly smaller focal length, yet the wide role goes to the main
camera. -/
theorem near_equal_focal_lengths_main_is_wide :
    capsNearAux.focal_length < capsNearMain.focal_length ∧
    (create (some capsNearMain) (some capsNearAux)).map
      (fun s => (s.mFovControlData.camWide, s.mFovControlData.camTele)) =
      some (CAM_TYPE_MAIN, CAM_TYPE_AUX) := by
  decide!

/-- C8 (amended): for every pair of capability descriptors for which `create` succeeds:
if the focal lengths differ in their hundredths of a millimetre (the single-precision
product with 100, truncated, as the source computes it), the camera with the strictly
smaller focal length is assigned WIDE and the other TELE; if they agree in their
hundredths, the hard-coded calibration applies and the main camera is WIDE, the aux camera
TELE. -/
theorem create_role_assignment (capsMain capsAux : cam_capability_t) (s : QCameraFOVControl)
    (h : create (some capsMain) (some capsAux) = some s) :
    (floatToUint32 (floatRound (capsMain.focal_length * 100)) ≠
        floatToUint32 (floatRound (capsAux.focal_length * 100)) →
      (capsMain.focal_length < capsAux.focal_length →
        s.mFovControlData.camWide = CAM_TYPE_MAIN ∧ s.mFovControlData.camTele = CAM_TYPE_AUX) ∧
      (capsAux.focal_length < capsMain.focal_length →
        s.mFovControlData.camWide = CAM_TYPE_AUX ∧ s.mFovControlData.camTele = CAM_TYPE_MAIN)) ∧
    (floatToUint32 (floatRound (capsMain.focal_length * 100)) =
        floatToUint32 (floatRound (capsAux.focal_length * 100)) →
      s.mFovControlData.camWide = CAM_TYPE_MAIN ∧ s.mFovControlData.camTele = CAM_TYPE_AUX) := by
  obtain ⟨hm, ha⟩ := validateAndExtractParameters_focal QCameraFOVControl.new capsMain capsAux
  unfold create at h
  simp only [] at h
  split_ifs at h with hv hlt
  · injection h with h
    subst h
    rw [hm, ha] at hlt
    refine ⟨fun hne => ⟨fun _ => ⟨rfl, rfl⟩, fun hlt2 => ?_⟩, fun _ => ⟨rfl, rfl⟩⟩
    rw [if_pos hne, if_pos hne] at hlt
    exact absurd hlt (not_lt.mpr (le_of_lt hlt2))
  · injection h with h
    subst h
    rw [hm, ha] at hlt
    refine ⟨fun hne => ⟨fun hlt2 => ?_, fun _ => ⟨rfl, rfl⟩⟩, fun heq => ?_⟩
    · rw [if_pos hne, if_pos hne] at hlt
      exact absurd hlt2 hlt
    · rw [if_neg (not_not.mpr heq), if_neg (not_not.mpr heq)] at hlt
      exact absurd (by norm_num) hlt

/-- Witness of C8 (amended) on the pair 3.504 mm / 3.501 mm: `create` succeeds, the
hundredths agree (350), and the main camera is WIDE. -/
theorem create_role_assignment_witness :
    create (some capsNearMain) (some capsNearAux) =
      some ((create (some capsNearMain) (some capsNearAux)).getD QCameraFOVControl.new) ∧
    floatToUint32 (floatRound (capsNearMain.focal_length * 100)) =
      floatToUint32 (floatRound (capsNearAux.focal_length * 100)) ∧
    ((create (some capsNearMain) (some capsNearAux)).getD
        QCameraFOVControl.new).mFovControlData.camWide = CAM_TYPE_MAIN ∧
    ((create (some capsNearMain) (some capsNearAux)).getD
        QCameraFOVControl.new).mFovControlData.camTele = CAM_TYPE_AUX :=
  ⟨by decide!, by decide!,
    (create_role_assignment capsNearMain capsNearAux
      ((create (some capsNearMain) (some capsNearAux)).getD QCameraFOVControl.new)
      (by decide!)).2 (by decide!)⟩

/-! ## The initial state -/

/-- C10 (code at the failing input): main tele (7 mm), aux wide (3.5 mm), the table of
Scenario A, basic FOV ratio 2: after `create` and the first successful
`updateConfigSettings` at zoom index 0 the wide camera (aux, 2) is master for preview and
3A and the only active camera, the wide-to-tele cut-over 2.1 is above zoom 1.0, but the
state machine is in TELE, not in WIDE.  (With the roles swapped - main wide, aux tele - the
same configuration gives WIDE with the main camera as master.) -/
theorem initial_state_tele_when_aux_is_wide :
    (create (some capsMainTele) (some capsAuxWide)).map
      (fun s => (updateConfigSettings settingsNoPP s (some paramsPreview)
        (some paramsPreview)).1) = some status_t.NO_ERROR ∧
    (runFromCreate settingsNoPP (some capsMainTele) (some capsAuxWide) [opConfigure]).map
      (fun s => (s.mFovControlData.zoomWide, s.mFovControlData.camWide)) =
      some (0, CAM_TYPE_AUX) ∧
    (runFromCreate settingsNoPP (some capsMainTele) (some capsAuxWide) [opConfigure]).map
      (fun s => s.mFovControlResult) =
      some { camMasterPreview := CAM_TYPE_AUX, camMaster3A := CAM_TYPE_AUX,
             activeCameras := CAM_TYPE_AUX, snapshotPostProcess := false,
             snapshotPostProcessZoomRange := false, isValid := false } ∧
    (runFromCreate settingsNoPP (some capsMainTele) (some capsAuxWide) [opConfigure]).map
      (fun s => s.mFovControlData.transitionParams.cutOverWideToTele) = some (21 / 10) ∧
    (runFromCreate settingsNoPP (some capsMainTele) (some capsAuxWide) [opConfigure]).map
      (fun s => s.mFovControlData.camState) = some dual_cam_state.STATE_TELE ∧
    (runFromCreate settingsNoPP (some capsMainWide) (some capsAuxTele) [opConfigure]).map
      (fun s => (s.mFovControlData.camState, s.mFovControlData.camWide,
        s.mFovControlResult.camMasterPreview, s.mFovControlResult.activeCameras)) =
      some (dual_cam_state.STATE_WIDE, CAM_TYPE_MAIN, CAM_TYPE_MAIN, CAM_TYPE_MAIN) := by
  decide!

end qcamera

namespace qcamera

/-! ## Capability reconciliation -/

/-- C20 (code at the failing input): main sizes [(1,1),(2,2),(3,3)], aux sizes [(3,3)]:
the intersection in the words of the specification is [(3,3)], but the consolidated preview,
video and livesnapshot lists are [(3,1)]: the reused slot 0 takes its width from aux index 0
and its height from main index 0. -/
theorem consolidated_sizes_mix_main_height :
    specSizeIntersection capsSizesMain.preview_sizes_tbl capsSizesAux.preview_sizes_tbl =
      [{ width := 3, height := 3 }] ∧
    (consolidateCapabilities (some capsSizesMain) (some capsSizesAux)).map
      (fun c => c.preview_sizes_tbl) = some [{ width := 3, height := 1 }] ∧
    (consolidateCapabilities (some capsSizesMain) (some capsSizesAux)).map
      (fun c => c.video_sizes_tbl) = some [{ width := 3, height := 1 }] ∧
    (consolidateCapabilities (some capsSizesMain) (some capsSizesAux)).map
      (fun c => c.livesnapshot_sizes_tbl) = some [{ width := 3, height := 1 }] := by
  decide!

end qcamera

namespace qcamera

/-! ## Single updates of the state machine -/

/-- The first block of `generateFovControlResult` as one record update. -/
theorem updateZoomDirection_eq (d : fov_control_data_t) :
    updateZoomDirection d =
      { d with
        zoomWidePrev := d.zoomWide,
        zoomDirection :=
          if d.zoomWide = d.zoomWidePrev then dual_cam_zoom_dir.ZOOM_STABLE
          else if d.zoomWide > d.zoomWidePrev then dual_cam_zoom_dir.ZOOM_IN
          else dual_cam_zoom_dir.ZOOM_OUT,
        zoomStableCount :=
          if d.zoomWide = d.zoomWidePrev then (d.zoomStableCount + 1) % UINT32_MOD else 0 } := by
  unfold updateZoomDirection
  split_ifs <;> rfl

/-- The master selection of TRANSITION leaves the snapshot post-process flag alone. -/
theorem transitionMaster_snapshotPostProcess (s : QCameraFOVControl) (zoom : ℚ) :
    (transitionMaster s zoom).snapshotPostProcess = s.mFovControlResult.snapshotPostProcess := by
  unfold transitionMaster
  simp only []
  split_ifs <;> rfl

/-- A configured update in TRANSITION, unfolded: the state machine runs the TRANSITION case
on the object with the zoom direction and the post-process flags updated. -/
theorem generateFovControlResult_in_transition (s : QCameraFOVControl)
    (hcc : s.mFovControlData.configCompleted = true)
    (hst : s.mFovControlData.camState = dual_cam_state.STATE_TRANSITION) :
    generateFovControlResult s =
      { stateTransition
          { s with
            mFovControlData := updateZoomDirection s.mFovControlData,
            mFovControlResult := updateSnapshotPPFlags s (effectiveZoom s.mFovControlData) }
          (effectiveZoom s.mFovControlData) with
        mFovControlResult :=
          { (stateTransition
              { s with
                mFovControlData := updateZoomDirection s.mFovControlData,
                mFovControlResult := updateSnapshotPPFlags s (effectiveZoom s.mFovControlData) }
              (effectiveZoom s.mFovControlData)).mFovControlResult with isValid := true } } := by
  unfold generateFovControlResult
  simp only [hcc]
  unfold stateSwitch
  simp only [updateZoomDirection_camState, hst]
  rfl

/-- C12: an update performed in TRANSITION whose snapshot post-process flag is false moves
to WIDE with only the wide camera active if the zoom is below `transitionLow` and the
spatial-alignment active set is not both cameras; otherwise to TELE with only the tele
camera active if the zoom is above `transitionHigh` and the spatial-alignment active set is
not both cameras; otherwise it stays in TRANSITION with `activeCameras` unchanged.  The
object is one that the source can hold (`updateInputsValid`): the wide zoom value indexes
the zoom-ratio table, whose first entry, the divisor of the zoom, is not zero, the
thresholds are single-precision values and the brightness and focus readings are 16-bit
values; the zoom is the single-precision quotient `effectiveZoom`. -/
theorem transition_exit_rule (s : QCameraFOVControl)
    (hcc : s.mFovControlData.configCompleted = true)
    (hst : s.mFovControlData.camState = dual_cam_state.STATE_TRANSITION)
    (hpp : (updateSnapshotPPFlags s (effectiveZoom s.mFovControlData)).snapshotPostProcess =
      false)
    (_hvalid : updateInputsValid s = true) :
    (generateFovControlResult s).mFovControlData.camState =
      (if effectiveZoom s.mFovControlData < s.mFovControlData.transitionParams.transitionLow ∧
          s.mFovControlData.spatialAlignResult.activeCameras ≠
            (s.mFovControlData.camWide ||| s.mFovControlData.camTele) then
        dual_cam_state.STATE_WIDE
      else if effectiveZoom s.mFovControlData > s.mFovControlData.transitionParams.transitionHigh ∧
          s.mFovControlData.spatialAlignResult.activeCameras ≠
            (s.mFovControlData.camWide ||| s.mFovControlData.camTele) then
        dual_cam_state.STATE_TELE
      else dual_cam_state.STATE_TRANSITION) ∧
    (generateFovControlResult s).mFovControlResult.activeCameras =
      (if effectiveZoom s.mFovControlData < s.mFovControlData.transitionParams.transitionLow ∧
          s.mFovControlData.spatialAlignResult.activeCameras ≠
            (s.mFovControlData.camWide ||| s.mFovControlData.camTele) then
        s.mFovControlData.camWide
      else if effectiveZoom s.mFovControlData > s.mFovControlData.transitionParams.transitionHigh ∧
          s.mFovControlData.spatialAlignResult.activeCameras ≠
            (s.mFovControlData.camWide ||| s.mFovControlData.camTele) then
        s.mFovControlData.camTele
      else s.mFovControlResult.activeCameras) := by
  clear _hvalid
  rw [generateFovControlResult_in_transition s hcc hst]
  unfold stateTransition
  simp only [transitionMaster_snapshotPostProcess, hpp, updateZoomDirection_eq]
  split_ifs <;> simp_all [transitionMaster_activeCameras] <;> rfl

end qcamera

namespace qcamera

/-! ## Holding the zoom in WIDE: the strict path -/

/-- A configured update in WIDE, unfolded. -/
theorem generateFovControlResult_in_wide (s : QCameraFOVControl)
    (hcc : s.mFovControlData.configCompleted = true)
    (hst : s.mFovControlData.camState = dual_cam_state.STATE_WIDE) :
    generateFovControlResult s =
      { stateWide
          { s with
            mFovControlData := updateZoomDirection s.mFovControlData,
            mFovControlResult := updateSnapshotPPFlags s (effectiveZoom s.mFovControlData) }
          (effectiveZoom s.mFovControlData) with
        mFovControlResult :=
          { (stateWide
              { s with
                mFovControlData := updateZoomDirection s.mFovControlData,
                mFovControlResult := updateSnapshotPPFlags s (effectiveZoom s.mFovControlData) }
              (effectiveZoom s.mFovControlData)).mFovControlResult with isValid := true } } := by
  unfold generateFovControlResult
  simp only [hcc]
  unfold stateSwitch
  simp only [updateZoomDirection_camState, hst]
  rfl

end qcamera

namespace qcamera

end qcamera

namespace qcamera

/-! ## Post-processing pins TRANSITION -/

theorem mainMarginLoop_camState (l : List cam_stream_slot_t) :
    ∀ d : fov_control_data_t, (mainMarginLoop l d).camState = d.camState := by
  induction l with
  | nil => intro d; rfl
  | cons e rest ih =>
    intro d
    unfold mainMarginLoop
    simp only []
    split_ifs
    all_goals first
      | rfl
      | exact ih _

theorem auxMarginLoop_camState (l : List cam_stream_slot_t) :
    ∀ d : fov_control_data_t, (auxMarginLoop l d).camState = d.camState := by
  induction l with
  | nil => intro d; rfl
  | cons e rest ih =>
    intro d
    unfold auxMarginLoop
    simp only []
    split_ifs
    all_goals first
      | rfl
      | exact ih _

/-- The configuration update never writes the state of the state machine. -/
theorem updateConfigSettings_camState (st : FOVCSettings) (s : QCameraFOVControl)
    (pm pa : Option parm_buffer_t) :
    (updateConfigSettings st s pm pa).2.mFovControlData.camState =
      s.mFovControlData.camState := by
  have hreset : ∀ i1 i2 : cam_stream_size_info_t,
      (updateConfigReset st s i1 i2).mFovControlData.camState = s.mFovControlData.camState := by
    intro i1 i2
    have h1 := mainMarginLoop_camState i1.slots
      { s.mFovControlData with camcorderMode := hasVideoStream i1 }
    have h2 := auxMarginLoop_camState i2.slots
      (mainMarginLoop i1.slots { s.mFovControlData with camcorderMode := hasVideoStream i1 })
    exact h2.trans h1
  have hbasic : ∀ t : QCameraFOVControl,
      (calculateBasicFovRatio t).2.mFovControlData.camState = t.mFovControlData.camState := by
    intro t
    unfold calculateBasicFovRatio
    simp only []
    split_ifs <;> rfl
  have hcomb : ∀ t : QCameraFOVControl,
      (combineFovAdjustment t).2.mFovControlData.camState = t.mFovControlData.camState := by
    intro t
    unfold combineFovAdjustment
    simp only []
    split_ifs <;> rfl
  have hinit : ∀ t : QCameraFOVControl,
      (updateConfigInitialState t).mFovControlData.camState = t.mFovControlData.camState := by
    intro t
    have htp : (calculateDualCamTransitionParams t).mFovControlData.camState =
        t.mFovControlData.camState := by
      unfold calculateDualCamTransitionParams
      simp only []
      split_ifs <;> rfl
    unfold updateConfigInitialState
    simp only []
    split_ifs <;> exact htp
  unfold updateConfigSettings
  split
  · split
    · rename_i i1 i2 _ _
      simp only []
      split_ifs
      · rw [hinit, hcomb, hbasic, hreset]
      · rw [hcomb, hbasic, hreset]
      · rw [hbasic, hreset]
    · rfl
  · rfl

/-- Witness of C12: main wide in TRANSITION at zoom 2.0 with post-processing disabled; with
the user zoom moved back to index 0 (zoom 1.0, below `transitionLow`, 1.7 in single
precision, alignment active set the main camera alone) the update moves to WIDE with the
wide camera active. -/
theorem transition_exit_rule_witness :
    floatStateZoomedOut.mFovControlData.camState = dual_cam_state.STATE_TRANSITION ∧
    updateInputsValid floatStateZoomedOut = true ∧
    effectiveZoom floatStateZoomedOut.mFovControlData <
      floatStateZoomedOut.mFovControlData.transitionParams.transitionLow ∧
    (generateFovControlResult floatStateZoomedOut).mFovControlData.camState =
      dual_cam_state.STATE_WIDE ∧
    (generateFovControlResult floatStateZoomedOut).mFovControlResult.activeCameras =
      floatStateZoomedOut.mFovControlData.camWide :=
  have h := transition_exit_rule floatStateZoomedOut (by decide!) (by decide!)
    (by decide!) (by decide!)
  have hc : effectiveZoom floatStateZoomedOut.mFovControlData <
        floatStateZoomedOut.mFovControlData.transitionParams.transitionLow ∧
      floatStateZoomedOut.mFovControlData.spatialAlignResult.activeCameras ≠
        (floatStateZoomedOut.mFovControlData.camWide |||
          floatStateZoomedOut.mFovControlData.camTele) := by decide!
  ⟨by decide!, by decide!, hc.1, by rw [h.1, if_pos hc], by rw [h.2, if_pos hc]⟩

end qcamera

namespace qcamera

/-! ## Frame lemmas: what a state-machine update only reads -/

theorem updateKept_refl (a : fov_control_data_t) : updateKept a a :=
  ⟨rfl, rfl, rfl, rfl, rfl, rfl, rfl, rfl, rfl, rfl, rfl, rfl, rfl, rfl⟩

theorem updateKept_trans {a b c : fov_control_data_t} (h1 : updateKept a b)
    (h2 : updateKept b c) : updateKept a c := by
  obtain ⟨a1, a2, a3, a4, a5, a6, a7, a8, a9, a10, a11, a12, a13, a14⟩ := h1
  obtain ⟨b1, b2, b3, b4, b5, b6, b7, b8, b9, b10, b11, b12, b13, b14⟩ := h2
  exact ⟨b1.trans a1, b2.trans a2, b3.trans a3, b4.trans a4, b5.trans a5, b6.trans a6,
    b7.trans a7, b8.trans a8, b9.trans a9, b10.trans a10, b11.trans a11, b12.trans a12,
    b13.trans a13, b14.trans a14⟩

theorem updateZoomDirection_updateKept (d : fov_control_data_t) :
    updateKept d (updateZoomDirection d) := by
  rw [updateZoomDirection_eq]
  exact updateKept_refl d

theorem stateSwitch_frame (s : QCameraFOVControl) (zoom : ℚ) :
    updateKept s.mFovControlData (stateSwitch s zoom).mFovControlData ∧
    (stateSwitch s zoom).mDualCamParams = s.mDualCamParams ∧
    (stateSwitch s zoom).mFovControlConfig = s.mFovControlConfig := by
  unfold stateSwitch
  split
  · unfold stateWide stateWideCounters
    simp only []
    split_ifs <;> exact ⟨updateKept_refl _, rfl, rfl⟩
  · unfold stateTransition
    simp only []
    split_ifs <;> exact ⟨updateKept_refl _, rfl, rfl⟩
  · unfold stateTele stateTeleCounters
    simp only []
    split_ifs <;> exact ⟨updateKept_refl _, rfl, rfl⟩

/-- A state-machine update keeps everything it only reads, the calibration and the
configuration. -/
theorem generateFovControlResult_frame (s : QCameraFOVControl) :
    updateKept s.mFovControlData (generateFovControlResult s).mFovControlData ∧
    (generateFovControlResult s).mDualCamParams = s.mDualCamParams ∧
    (generateFovControlResult s).mFovControlConfig = s.mFovControlConfig := by
  unfold generateFovControlResult
  simp only []
  split_ifs
  · exact ⟨updateKept_refl _, rfl, rfl⟩
  · obtain ⟨h1, h2, h3⟩ := stateSwitch_frame
      { s with
        mFovControlData := updateZoomDirection s.mFovControlData,
        mFovControlResult := updateSnapshotPPFlags s (effectiveZoom s.mFovControlData) }
      (effectiveZoom s.mFovControlData)
    exact ⟨updateKept_trans (updateZoomDirection_updateKept _) h1, h2, h3⟩

/-- Parameter translation keeps the calibration. -/
theorem translateInputParams_dualCamParams (s : QCameraFOVControl)
    (pm pa : Option parm_buffer_t) :
    (translateInputParams s pm pa).obj.mDualCamParams = s.mDualCamParams := by
  unfold translateInputParams
  split
  · rename_i paramsMain _
    simp only []
    cases hzoom : paramsMain.CAM_INTF_PARM_ZOOM with
    | none =>
      simp only []
      split_ifs <;> rfl
    | some z =>
      simp only []
      split_ifs <;>
        exact (generateFovControlResult_frame (convertUserZoomToWideAndTele s z)).2.1
  · rfl

/-- Metadata fusion keeps the calibration. -/
theorem processResultMetadata_dualCamParams (s : QCameraFOVControl)
    (m1 m2 : Option metadata_buffer_t) :
    (processResultMetadata s m1 m2).obj.mDualCamParams = s.mDualCamParams := by
  unfold processResultMetadata
  split_ifs
  · exact (generateFovControlResult_frame (processBookKeeping s m1 m2).2).2.1
  · rfl

/-- The configuration update keeps the calibration. -/
theorem updateConfigSettings_dualCamParams (st : FOVCSettings) (s : QCameraFOVControl)
    (pm pa : Option parm_buffer_t) :
    (updateConfigSettings st s pm pa).2.mDualCamParams = s.mDualCamParams := by
  have hbasic : ∀ t : QCameraFOVControl,
      (calculateBasicFovRatio t).2.mDualCamParams = t.mDualCamParams := by
    intro t
    unfold calculateBasicFovRatio
    simp only []
    split_ifs <;> rfl
  have hcomb : ∀ t : QCameraFOVControl,
      (combineFovAdjustment t).2.mDualCamParams = t.mDualCamParams := by
    intro t
    unfold combineFovAdjustment
    simp only []
    split_ifs <;> rfl
  have hinit : ∀ t : QCameraFOVControl,
      (updateConfigInitialState t).mDualCamParams = t.mDualCamParams := by
    intro t
    have htp : (calculateDualCamTransitionParams t).mDualCamParams = t.mDualCamParams := by
      unfold calculateDualCamTransitionParams
      simp only []
      split_ifs <;> rfl
    unfold updateConfigInitialState
    simp only []
    split_ifs <;> exact htp
  unfold updateConfigSettings
  split
  · split
    · rename_i i1 i2 _ _
      simp only []
      split_ifs
      · rw [hinit, hcomb, hbasic]
        rfl
      · rw [hcomb, hbasic]
        rfl
      · rw [hbasic]
        rfl
    · rfl
  · rfl

/-- Every operation keeps the calibration. -/
theorem step_dualCamParams (st : FOVCSettings) (s : QCameraFOVControl) (op : Op) :
    (step st s op).mDualCamParams = s.mDualCamParams := by
  cases op with
  | updateConfigSettings pm pa => exact updateConfigSettings_dualCamParams st s pm pa
  | translateInputParams pm pa => exact translateInputParams_dualCamParams s pm pa
  | processResultMetadata m1 m2 => exact processResultMetadata_dualCamParams s m1 m2
  | getFovControlResult => rfl

/-- Every operation keeps the agreement between roles and focal lengths. -/
theorem step_rolesMatchFocal (st : FOVCSettings) (s : QCameraFOVControl) (op : Op)
    (h : rolesMatchFocal s) : rolesMatchFocal (step st s op) := by
  have hp := step_dualCamParams st s op
  obtain ⟨hw, ht⟩ := step_roles st s op
  have hm : isMainCamFovWider (step st s op) = isMainCamFovWider s := by
    unfold isMainCamFovWider
    rw [hp]
  unfold rolesMatchFocal at h ⊢
  rw [hm, hw, ht]
  exact h

/-- Every run keeps the agreement between roles and focal lengths. -/
theorem run_rolesMatchFocal (st : FOVCSettings) (ops : List Op) :
    ∀ s : QCameraFOVControl, rolesMatchFocal s → rolesMatchFocal (run st s ops) := by
  induction ops with
  | nil => intro s hs; exact hs
  | cons op rest ih =>
    intro s hs
    exact ih (step st s op) (step_rolesMatchFocal st s op hs)

/-- In a created object the roles agree with the focal lengths of the calibration. -/
theorem create_rolesMatchFocal (capsMainCam capsAuxCam : Option cam_capability_t)
    (s : QCameraFOVControl) (h : create capsMainCam capsAuxCam = some s) :
    rolesMatchFocal s := by
  unfold create at h
  split at h
  · simp only [] at h
    split_ifs at h with hv hlt
    · injection h with h
      subst h
      exact Or.inl ⟨decide_eq_true hlt, rfl, rfl⟩
    · injection h with h
      subst h
      exact Or.inr ⟨decide_eq_false hlt, rfl, rfl⟩
  · exact absurd h (by simp)

end qcamera

namespace qcamera

/-! ## Metadata fusion -/

/-- The local `masterCam` of the spatial-alignment book-keeping. -/
theorem bookKeepSacOutput_fst (d : fov_control_data_t) (masterCam : Nat)
    (sac : cam_sac_output_info_t) :
    (bookKeepSacOutput d masterCam sac).1 =
      (if sac.is_master_preview_valid = true ∧
          sac.master_preview = cam_dual_camera_role_t.CAM_ROLE_WIDE then d.camWide
        else if sac.is_master_preview_valid = true ∧
          sac.master_preview = cam_dual_camera_role_t.CAM_ROLE_TELE then d.camTele
        else masterCam) := by
  unfold bookKeepSacOutput
  simp only []
  cases hv : sac.is_master_preview_valid <;> cases hr : sac.master_preview <;>
    simp [roleToCam]

/-- The local `masterCam` of `processResultMetadata` is the master in the words of the
specification. -/
theorem processBookKeeping_fst (s : QCameraFOVControl)
    (metaMain metaAux : Option metadata_buffer_t) :
    (processBookKeeping s metaMain metaAux).1 = specFusionMaster s metaMain metaAux := by
  unfold processBookKeeping bookKeepMaster specFusionMaster
  simp only []
  have hm : (if metaMain.isSome = true then metaMain else metaAux) =
      metaMain.orElse (fun _ => metaAux) := by
    cases metaMain <;> rfl
  rw [hm]
  split
  · rw [bookKeepSacOutput_fst]
  · rfl

/-- The pointer returned by `processResultMetadata`. -/
theorem processResultMetadata_metaResult (s : QCameraFOVControl)
    (metaMain metaAux : Option metadata_buffer_t) :
    (processResultMetadata s metaMain metaAux).metaResult =
      (if specFusionMaster s metaMain metaAux = CAM_TYPE_AUX ∧ metaAux.isSome = true then
        some meta_ptr_t.META_AUX
      else if specFusionMaster s metaMain metaAux = CAM_TYPE_MAIN ∧ metaMain.isSome = true then
        some meta_ptr_t.META_MAIN
      else none) := by
  unfold processResultMetadata
  by_cases hany : metaMain.isSome = true ∨ metaAux.isSome = true
  · rw [if_pos hany]
    simp only [processBookKeeping_fst]
    split_ifs <;> rfl
  · rw [if_neg hany]
    have h1 : ¬ metaAux.isSome = true := fun h => hany (Or.inr h)
    have h2 : ¬ metaMain.isSome = true := fun h => hany (Or.inl h)
    simp [h1, h2]

/-- C14: the pointer returned by `processResultMetadata` is the aux container if the
master is AUX and aux metadata was supplied, the main container if the master is MAIN and
main metadata was supplied, and none otherwise - the master being the preview master of
the Result unless the spatial-alignment output of the frame carries a valid master-preview
role; with no container at all the call returns none and changes no state. -/
theorem fusion_returns_master_metadata (s : QCameraFOVControl)
    (metaMain metaAux : Option metadata_buffer_t) :
    (processResultMetadata s metaMain metaAux).metaResult =
      (if specFusionMaster s metaMain metaAux = CAM_TYPE_AUX ∧ metaAux.isSome = true then
        some meta_ptr_t.META_AUX
      else if specFusionMaster s metaMain metaAux = CAM_TYPE_MAIN ∧ metaMain.isSome = true then
        some meta_ptr_t.META_MAIN
      else none) ∧
    (processResultMetadata s none none).metaResult = none ∧
    (processResultMetadata s none none).obj = s :=
  ⟨processResultMetadata_metaResult s metaMain metaAux, rfl, rfl⟩

end qcamera

namespace qcamera

/-- The 3A status before the autofocus book-keeping is the one of the object. -/
theorem bookKeepLowPower_status3A (s : QCameraFOVControl)
    (metaMain metaAux : Option metadata_buffer_t) :
    (bookKeepLowPower (bookKeepMaster s metaMain metaAux).1 metaMain metaAux
      (bookKeepShiftAux (isMainCamFovWider s) metaAux
        (bookKeepShiftMain (isMainCamFovWider s) metaMain
          (bookKeepMaster s metaMain metaAux).2))).status3A = s.mFovControlData.status3A := by
  have h1 : (bookKeepMaster s metaMain metaAux).2.status3A = s.mFovControlData.status3A := by
    unfold bookKeepMaster
    simp only []
    split <;> rfl
  have h2 : ∀ (w : Bool) (m : Option metadata_buffer_t) (d : fov_control_data_t),
      (bookKeepShiftMain w m d).status3A = d.status3A := by
    intro w m d
    unfold bookKeepShiftMain
    split
    · split_ifs <;> rfl
    · rfl
  have h3 : ∀ (w : Bool) (m : Option metadata_buffer_t) (d : fov_control_data_t),
      (bookKeepShiftAux w m d).status3A = d.status3A := by
    intro w m d
    unfold bookKeepShiftAux
    split
    · split_ifs <;> rfl
    · rfl
  have h4 : ∀ (c : Nat) (m1 m2 : Option metadata_buffer_t) (d : fov_control_data_t),
      (bookKeepLowPower c m1 m2 d).status3A = d.status3A := by
    intro c m1 m2 d
    unfold bookKeepLowPower
    simp only []
    by_cases hh : d.availableSpatialAlignSolns &&& CAM_SPATIAL_ALIGN_OEM ≠ 0
    · rw [if_pos hh]
      split
      · split_ifs <;> rfl
      · rfl
    · rw [if_neg hh]
  rw [h4, h3, h2, h1]

/-- The partial fusion of a frame without aux metadata, for any object: no pointer is
returned when the master is AUX, the state machine still runs, the autofocus validity of
the main camera follows the reported autofocus state, and the streaming flags follow the
presence of the metadata. -/
theorem processResultMetadata_main_only (s : QCameraFOVControl) (mainBuf : metadata_buffer_t)
    (hmaster : specFusionMaster s (some mainBuf) none = CAM_TYPE_AUX) :
    (processResultMetadata s (some mainBuf) none).metaResult = none ∧
    (processResultMetadata s (some mainBuf) none).obj =
      generateFovControlResult (processBookKeeping s (some mainBuf) none).2 ∧
    (processResultMetadata s (some mainBuf) none).obj.mFovControlData.status3A.main.afStatus =
      (match mainBuf.CAM_INTF_META_AF_STATE with
        | some afState => afStatusOf afState
        | none => s.mFovControlData.status3A.main.afStatus) ∧
    (processResultMetadata s (some mainBuf) none).obj.mFovControlData.wideCamStreaming =
      isMainCamFovWider s ∧
    (processResultMetadata s (some mainBuf) none).obj.mFovControlData.teleCamStreaming =
      !isMainCamFovWider s := by
  have hobj : (processResultMetadata s (some mainBuf) none).obj =
      generateFovControlResult (processBookKeeping s (some mainBuf) none).2 := by
    unfold processResultMetadata
    simp
  have hk := (generateFovControlResult_frame (processBookKeeping s (some mainBuf) none).2).1
  obtain ⟨k1, k2, k3, _⟩ := hk
  refine ⟨?_, hobj, ?_, ?_, ?_⟩
  · rw [processResultMetadata_metaResult, hmaster]
    simp [CAM_TYPE_AUX, CAM_TYPE_MAIN]
  · rw [hobj, k1]
    unfold processBookKeeping
    simp only []
    unfold bookKeepStreaming bookKeepAfAux bookKeepAfMain
    simp only [Option.bind]
    rw [bookKeepLowPower_status3A]
  · rw [hobj, k2]
    unfold processBookKeeping bookKeepStreaming
    cases isMainCamFovWider s <;> simp
  · rw [hobj, k3]
    unfold processBookKeeping bookKeepStreaming
    cases isMainCamFovWider s <;> simp

/-- C15 (Scenario D): in every state reachable from a successful `create`, a
`processResultMetadata` call with main metadata only, while the master is the aux camera,
returns no authoritative metadata; yet the state-machine update still runs, the autofocus
validity of the main camera is updated from the autofocus state of the main metadata
(kept when the metadata carries none), and the streaming flag of the role played by the
main camera becomes true while the flag of the other role becomes false. -/
theorem partial_fusion_still_bookkeeps (st : FOVCSettings)
    (capsMainCam capsAuxCam : Option cam_capability_t) (s0 : QCameraFOVControl)
    (hcreate : create capsMainCam capsAuxCam = some s0) (ops : List Op)
    (mainBuf : metadata_buffer_t)
    (hmaster : specFusionMaster (run st s0 ops) (some mainBuf) none = CAM_TYPE_AUX) :
    (processResultMetadata (run st s0 ops) (some mainBuf) none).metaResult = none ∧
    (processResultMetadata (run st s0 ops) (some mainBuf) none).obj =
      generateFovControlResult (processBookKeeping (run st s0 ops) (some mainBuf) none).2 ∧
    (processResultMetadata (run st s0 ops)
        (some mainBuf) none).obj.mFovControlData.status3A.main.afStatus =
      (match mainBuf.CAM_INTF_META_AF_STATE with
        | some afState => afStatusOf afState
        | none => (run st s0 ops).mFovControlData.status3A.main.afStatus) ∧
    ((run st s0 ops).mFovControlData.camWide = CAM_TYPE_MAIN →
      (processResultMetadata (run st s0 ops)
          (some mainBuf) none).obj.mFovControlData.wideCamStreaming = true ∧
      (processResultMetadata (run st s0 ops)
          (some mainBuf) none).obj.mFovControlData.teleCamStreaming = false) ∧
    ((run st s0 ops).mFovControlData.camTele = CAM_TYPE_MAIN →
      (processResultMetadata (run st s0 ops)
          (some mainBuf) none).obj.mFovControlData.teleCamStreaming = true ∧
      (processResultMetadata (run st s0 ops)
          (some mainBuf) none).obj.mFovControlData.wideCamStreaming = false) := by
  obtain ⟨h1, h2, h3, h4, h5⟩ := processResultMetadata_main_only (run st s0 ops) mainBuf hmaster
  have hroles := run_rolesMatchFocal st ops s0
    (create_rolesMatchFocal capsMainCam capsAuxCam s0 hcreate)
  refine ⟨h1, h2, h3, ?_, ?_⟩
  · intro hw
    rcases hroles with ⟨hm, _, _⟩ | ⟨_, hw2, _⟩
    · rw [h4, h5, hm]
      exact ⟨rfl, rfl⟩
    · rw [hw] at hw2
      exact absurd hw2 (by decide)
  · intro ht
    rcases hroles with ⟨_, _, ht2⟩ | ⟨hm, _, _⟩
    · rw [ht] at ht2
      exact absurd ht2 (by decide)
    · rw [h4, h5, hm]
      exact ⟨rfl, rfl⟩

/-- Witness of C15: main wide, aux tele, configured at zoom 4.0 so that the aux camera is
the preview master; a frame with main metadata only (passive-focused) returns no metadata,
marks the main autofocus valid and the wide camera as the only one streaming. -/
theorem partial_fusion_still_bookkeeps_witness :
    specFusionMaster (run settingsNoPP createdMainWide opsReconfigureZoomedIn)
      (some metaFocused) none = CAM_TYPE_AUX ∧
    (processResultMetadata (run settingsNoPP createdMainWide opsReconfigureZoomedIn)
      (some metaFocused) none).metaResult = none ∧
    (processResultMetadata (run settingsNoPP createdMainWide opsReconfigureZoomedIn)
      (some metaFocused) none).obj.mFovControlData.wideCamStreaming = true ∧
    (processResultMetadata (run settingsNoPP createdMainWide opsReconfigureZoomedIn)
      (some metaFocused) none).obj.mFovControlData.teleCamStreaming = false :=
  have h := partial_fusion_still_bookkeeps settingsNoPP (some capsMainWide) (some capsAuxTele)
    createdMainWide (by decide!) opsReconfigureZoomedIn metaFocused (by decide!)
  ⟨by decide!, h.1, (h.2.2.2.1 (by decide!)).1, (h.2.2.2.1 (by decide!)).2⟩

end qcamera

namespace qcamera

/-- The consolidation of the source computes the consensus of the specification. -/
theorem consolidateAfState_eq_spec (a b : cam_af_state_t) :
    consolidateAfState a b = specConsensusAf a b := by
  cases a <;> cases b <;> rfl

/-- The consensus is focused-locked exactly when both states are focused-locked. -/
theorem specConsensusAf_focused_iff (a b : cam_af_state_t) :
    specConsensusAf a b = cam_af_state_t.CAM_AF_STATE_FOCUSED_LOCKED ↔
      (a = cam_af_state_t.CAM_AF_STATE_FOCUSED_LOCKED ∧
        b = cam_af_state_t.CAM_AF_STATE_FOCUSED_LOCKED) := by
  cases a <;> cases b <;> decide

/-- C16: a `processResultMetadata` call with both metadata containers and a non-null result
writes to the returned container the consensus autofocus state of the specification:
focused-locked if both cameras report focused-locked, not-focused-locked if both report a
locked state but not both focused-locked, otherwise the state of main if main is not
locked, else the state of aux (a container without autofocus entry reports inactive); and
the written state is focused-locked if and only if both cameras report focused-locked. -/
theorem consensus_af_written (s : QCameraFOVControl) (mainBuf auxBuf : metadata_buffer_t)
    (hres : (processResultMetadata s (some mainBuf) (some auxBuf)).metaResult ≠ none) :
    (returnedBuffer (processResultMetadata s (some mainBuf) (some auxBuf))).bind
        (fun mb => mb.CAM_INTF_META_AF_STATE) =
      some (specConsensusAf (reportedAfState (some mainBuf)) (reportedAfState (some auxBuf))) ∧
    (specConsensusAf (reportedAfState (some mainBuf)) (reportedAfState (some auxBuf)) =
        cam_af_state_t.CAM_AF_STATE_FOCUSED_LOCKED ↔
      (reportedAfState (some mainBuf) = cam_af_state_t.CAM_AF_STATE_FOCUSED_LOCKED ∧
        reportedAfState (some auxBuf) = cam_af_state_t.CAM_AF_STATE_FOCUSED_LOCKED)) := by
  refine ⟨?_, specConsensusAf_focused_iff _ _⟩
  rw [← consolidateAfState_eq_spec]
  revert hres
  unfold processResultMetadata returnedBuffer reportedAfState
  simp only [Option.isSome_some, or_self, if_true, and_true, true_and]
  by_cases h1 : (processBookKeeping s (some mainBuf) (some auxBuf)).1 = CAM_TYPE_AUX
  · simp [h1]
  · by_cases h2 : (processBookKeeping s (some mainBuf) (some auxBuf)).1 = CAM_TYPE_MAIN
    · have hne : ¬ CAM_TYPE_MAIN = CAM_TYPE_AUX := by decide
      simp [h2, hne]
    · simp [h1, h2]

/-- Witness of C16: main wide with the main camera as master; main reports focused-locked,
aux reports not-focused-locked: the main container is returned and carries
not-focused-locked. -/
theorem consensus_af_written_witness :
    (processResultMetadata stateInTransition (some metaLocked) (some metaNotFocused)).metaResult =
      some meta_ptr_t.META_MAIN ∧
    (returnedBuffer (processResultMetadata stateInTransition (some metaLocked)
        (some metaNotFocused))).bind (fun mb => mb.CAM_INTF_META_AF_STATE) =
      some (specConsensusAf (reportedAfState (some metaLocked))
        (reportedAfState (some metaNotFocused))) ∧
    specConsensusAf (reportedAfState (some metaLocked)) (reportedAfState (some metaNotFocused)) =
      cam_af_state_t.CAM_AF_STATE_NOT_FOCUSED_LOCKED :=
  ⟨by decide!,
    (consensus_af_written stateInTransition metaLocked metaNotFocused (by decide!)).1,
    by decide⟩

end qcamera

namespace qcamera

/-! ## Validity of the Result before the configuration -/

/-- Before the configuration is complete an update marks the Result invalid. -/
theorem generateFovControlResult_unconfigured (s : QCameraFOVControl)
    (hcc : s.mFovControlData.configCompleted = false) :
    (generateFovControlResult s).mFovControlData.configCompleted = false ∧
    (generateFovControlResult s).mFovControlResult.isValid = false := by
  unfold generateFovControlResult
  rw [if_pos hcc]
  exact ⟨hcc, rfl⟩

/-- An operation other than a successful configuration update keeps the object
unconfigured and its Result invalid. -/
theorem step_unconfigured (st : FOVCSettings) (s : QCameraFOVControl) (op : Op)
    (hcc : s.mFovControlData.configCompleted = false)
    (hv : s.mFovControlResult.isValid = false)
    (hno : noSuccessfulConfig st s [op] = true) :
    (step st s op).mFovControlData.configCompleted = false ∧
    (step st s op).mFovControlResult.isValid = false := by
  cases op with
  | updateConfigSettings pm pa =>
    simp only [noSuccessfulConfig, Bool.and_true, decide_eq_true_eq] at hno
    obtain ⟨_, _, h3⟩ := updateConfigSettings_frame st s pm pa
    rcases h3 with ⟨hok, _, _⟩ | ⟨_, hc, hr⟩
    · exact absurd hok hno
    · show (updateConfigSettings st s pm pa).2.mFovControlData.configCompleted = false ∧
        (updateConfigSettings st s pm pa).2.mFovControlResult.isValid = false
      rw [hc, hr]
      exact ⟨hcc, hv⟩
  | translateInputParams pm pa =>
    show (translateInputParams s pm pa).obj.mFovControlData.configCompleted = false ∧
      (translateInputParams s pm pa).obj.mFovControlResult.isValid = false
    unfold translateInputParams
    split
    · rename_i paramsMain _
      simp only []
      cases hzoom : paramsMain.CAM_INTF_PARM_ZOOM with
      | none =>
        simp only []
        split_ifs <;> exact ⟨hcc, hv⟩
      | some z =>
        simp only []
        split_ifs <;>
          exact generateFovControlResult_unconfigured (convertUserZoomToWideAndTele s z) hcc
    · exact ⟨hcc, hv⟩
  | processResultMetadata m1 m2 =>
    show (processResultMetadata s m1 m2).obj.mFovControlData.configCompleted = false ∧
      (processResultMetadata s m1 m2).obj.mFovControlResult.isValid = false
    unfold processResultMetadata
    split_ifs
    · exact generateFovControlResult_unconfigured _
        ((processBookKeeping_frame s m1 m2).1.2.2.trans hcc)
    · exact ⟨hcc, hv⟩
  | getFovControlResult => exact ⟨hcc, hv⟩

theorem noSuccessfulConfig_cons (st : FOVCSettings) (s : QCameraFOVControl) (op : Op)
    (rest : List Op) (h : noSuccessfulConfig st s (op :: rest) = true) :
    noSuccessfulConfig st s [op] = true ∧ noSuccessfulConfig st (step st s op) rest = true := by
  cases op with
  | updateConfigSettings pm pa =>
    simp only [noSuccessfulConfig, Bool.and_eq_true, Bool.and_true] at h ⊢
    exact h
  | translateInputParams pm pa => exact ⟨rfl, h⟩
  | processResultMetadata m1 m2 => exact ⟨rfl, h⟩
  | getFovControlResult => exact ⟨rfl, h⟩

/-- A run without successful configuration update keeps the object unconfigured and its
Result invalid. -/
theorem run_unconfigured (st : FOVCSettings) (ops : List Op) :
    ∀ s : QCameraFOVControl, s.mFovControlData.configCompleted = false →
      s.mFovControlResult.isValid = false → noSuccessfulConfig st s ops = true →
      (run st s ops).mFovControlData.configCompleted = false ∧
      (run st s ops).mFovControlResult.isValid = false := by
  induction ops with
  | nil => intro s hcc hv _; exact ⟨hcc, hv⟩
  | cons op rest ih =>
    intro s hcc hv hno
    obtain ⟨h1, h2⟩ := noSuccessfulConfig_cons st s op rest hno
    obtain ⟨a, b⟩ := step_unconfigured st s op hcc hv h1
    exact ih (step st s op) a b h2

/-- The Result of a created object is not valid. -/
theorem create_isValid (capsMainCam capsAuxCam : Option cam_capability_t)
    (s : QCameraFOVControl) (h : create capsMainCam capsAuxCam = some s) :
    s.mFovControlResult.isValid = false := by
  unfold create at h
  split at h
  · rename_i capsMain capsAux
    simp only [] at h
    have hr : (validateAndExtractParameters QCameraFOVControl.new
        (some capsMain) (some capsAux)).2.mFovControlResult.isValid = false := by
      unfold validateAndExtractParameters
      simp only []
      split_ifs <;> rfl
    split_ifs at h
    all_goals
      injection h with h
      subst h
      exact hr
  · exact absurd h (by simp)

/-- C17: after `create`, along every sequence of `translateInputParams`,
`processResultMetadata`, `getFovControlResult` and failed `updateConfigSettings` calls - no
`updateConfigSettings` of the sequence succeeds - `getFovControlResult` returns a Result
with `isValid` false. -/
theorem isValid_false_before_configuration (st : FOVCSettings)
    (capsMainCam capsAuxCam : Option cam_capability_t) (s0 : QCameraFOVControl)
    (hcreate : create capsMainCam capsAuxCam = some s0) (ops : List Op)
    (hno : noSuccessfulConfig st s0 ops = true) :
    (getFovControlResult (run st s0 ops)).isValid = false :=
  (run_unconfigured st ops s0 (create_fovInvariant capsMainCam capsAuxCam s0 hcreate).2
    (create_isValid capsMainCam capsAuxCam s0 hcreate) hno).2

/-- Witness of C17: main wide; a zoom request, a frame of main metadata, a configuration
update without containers and another zoom request leave `isValid` false. -/
theorem isValid_false_before_configuration_witness :
    noSuccessfulConfig settingsNoPP createdMainWide opsUnconfigured = true ∧
    (getFovControlResult (run settingsNoPP createdMainWide opsUnconfigured)).isValid = false :=
  ⟨by decide!,
    isValid_false_before_configuration settingsNoPP (some capsMainWide) (some capsAuxTele)
      createdMainWide (by decide!) opsUnconfigured (by decide!)⟩

/-! ## Failure of the configuration update -/

/-- C18: `updateConfigSettings` called with a container missing, or with the stream-info
entry not valid in one of the containers, returns INVALID_OPERATION and leaves the whole
object unchanged; and every failing `updateConfigSettings` call, a geometry failure
included, leaves the Result unchanged. -/
theorem config_failure_atomic (st : FOVCSettings) (s : QCameraFOVControl)
    (pm pa : Option parm_buffer_t) :
    ((pm = none ∨ pa = none ∨
        pm.bind (fun b => b.CAM_INTF_META_STREAM_INFO) = none ∨
        pa.bind (fun b => b.CAM_INTF_META_STREAM_INFO) = none) →
      updateConfigSettings st s pm pa = (status_t.INVALID_OPERATION, s)) ∧
    ((updateConfigSettings st s pm pa).1 ≠ status_t.NO_ERROR →
      (updateConfigSettings st s pm pa).2.mFovControlResult = s.mFovControlResult) := by
  constructor
  · intro h
    unfold updateConfigSettings
    cases pm with
    | none => rfl
    | some pmb =>
      cases pa with
      | none => rfl
      | some pab =>
        simp only []
        cases h1 : pmb.CAM_INTF_META_STREAM_INFO with
        | none => rfl
        | some i1 =>
          cases h2 : pab.CAM_INTF_META_STREAM_INFO with
          | none => rfl
          | some i2 =>
            exfalso
            rcases h with h | h | h | h
            · exact absurd h (by simp)
            · exact absurd h (by simp)
            · simp [h1] at h
            · simp [h2] at h
  · intro hfail
    obtain ⟨_, _, h3⟩ := updateConfigSettings_frame st s pm pa
    rcases h3 with ⟨hok, _, _⟩ | ⟨_, _, hr⟩
    · exact absurd hok hfail
    · exact hr

/-- Witness of C18: without containers the object is unchanged; with a calibration whose
tele field of view is 0 the configuration update fails in the geometry and the Result is
unchanged (the run-time data is not: the stability thresholds are already set to 30). -/
theorem config_failure_atomic_witness :
    updateConfigSettings settingsNoPP createdMainWide none none =
      (status_t.INVALID_OPERATION, createdMainWide) ∧
    (updateConfigSettings settingsNoPP createdNoTeleFov (some paramsPreview)
      (some paramsPreview)).1 = status_t.INVALID_OPERATION ∧
    (updateConfigSettings settingsNoPP createdNoTeleFov (some paramsPreview)
      (some paramsPreview)).2.mFovControlResult = createdNoTeleFov.mFovControlResult ∧
    (updateConfigSettings settingsNoPP createdNoTeleFov (some paramsPreview)
      (some paramsPreview)).2.mFovControlData.brightnessStableCountThreshold = 30 ∧
    createdNoTeleFov.mFovControlData.brightnessStableCountThreshold = 0 :=
  ⟨(config_failure_atomic settingsNoPP createdMainWide none none).1 (Or.inl rfl),
    by decide!,
    (config_failure_atomic settingsNoPP createdNoTeleFov (some paramsPreview)
      (some paramsPreview)).2 (by decide!),
    by decide!, by decide!⟩

/-! ## Construction and the zoom table -/

/-- C19 (counterexample): a main descriptor with `zoom_supported` = 1 and an empty
zoom-ratio table (`zoom_ratio_tbl_cnt` = 0): `create` produces an object, whose table count
is 0. -/
theorem create_accepts_empty_zoom_table :
    capsEmptyZoomTable.zoom_ratio_tbl_cnt = 0 ∧
    (create (some capsEmptyZoomTable) (some capsAuxTele)).isSome = true ∧
    (create (some capsEmptyZoomTable) (some capsAuxTele)).map
      (fun s => s.mFovControlData.zoomRatioTableCount) = some 0 := by
  decide!

/-- C19 (amended): construction validates zoom support, not the zoom table: for every pair
of capability descriptors `create` produces an object exactly when the main descriptor has
`zoom_supported` > 0, whatever its zoom-ratio table; the object then carries that table and
its count. -/
theorem create_validates_zoom_support (capsMain capsAux : cam_capability_t) :
    (create (some capsMain) (some capsAux)).isSome = decide (capsMain.zoom_supported > 0) ∧
    (create (some capsMain) (some capsAux)).map
        (fun s => (s.mFovControlData.zoomRatioTable, s.mFovControlData.zoomRatioTableCount)) =
      (if capsMain.zoom_supported > 0 then
        some (capsMain.zoom_ratio_tbl, capsMain.zoom_ratio_tbl_cnt)
      else none) := by
  have hv : (validateAndExtractParameters QCameraFOVControl.new (some capsMain)
      (some capsAux)).1 = decide (capsMain.zoom_supported > 0) := by
    unfold validateAndExtractParameters
    simp only []
    by_cases hz : capsMain.zoom_supported > 0
    · simp only [hz, if_true, decide_True]
    · simp only [hz, if_false, decide_False]
  have ht : capsMain.zoom_supported > 0 →
      (validateAndExtractParameters QCameraFOVControl.new (some capsMain)
        (some capsAux)).2.mFovControlData.zoomRatioTable = capsMain.zoom_ratio_tbl ∧
      (validateAndExtractParameters QCameraFOVControl.new (some capsMain)
        (some capsAux)).2.mFovControlData.zoomRatioTableCount = capsMain.zoom_ratio_tbl_cnt := by
    intro hz
    unfold validateAndExtractParameters
    simp only []
    rw [if_pos hz]
    exact ⟨rfl, rfl⟩
  unfold create
  simp only [hv]
  by_cases hz : capsMain.zoom_supported > 0
  · obtain ⟨t1, t2⟩ := ht hz
    simp only [hz, decide_True, if_true]
    split_ifs <;> simp [t1, t2]
  · simp [hz]

end qcamera

namespace qcamera

/-! ## The picture-size table -/

/-- C21 (code at the failing input): main picture sizes 1x1, 10x10 and aux picture sizes
5x5, 1x1.  The largest area of the aux table, 25, is strictly smaller than that of the main
table, 100; but both loops stop before the last entry, so the code finds 1x1 for main and
5x5 for aux and keeps the main table, whose largest area 100 exceeds the 25 of the aux
camera. -/
theorem picture_sizes_max_skips_last_entry :
    specMaxArea capsPicAux.picture_sizes_tbl = 25 ∧
    specMaxArea capsPicMain.picture_sizes_tbl = 100 ∧
    maxPicDim capsPicMain.picture_sizes_tbl = { width := 1, height := 1 } ∧
    maxPicDim capsPicAux.picture_sizes_tbl = { width := 5, height := 5 } ∧
    (consolidateCapabilities (some capsPicMain) (some capsPicAux)).map
      (fun c => c.picture_sizes_tbl) =
      some [{ width := 1, height := 1 }, { width := 10, height := 10 }] ∧
    (consolidateCapabilities (some capsPicMain) (some capsPicAux)).map
      (fun c => decide (specMaxArea c.picture_sizes_tbl ≤
        specMaxArea capsPicAux.picture_sizes_tbl)) = some false := by
  decide!

/-! ## The threshold formulas -/

/-- With snapshot post-processing enabled the high end of the band covers `zoomMax`; the
low end is the computed one unless the window starts below it, and is then replaced by
`zoomMax`. -/
theorem calculateDualCamTransitionParams_postprocess (s : QCameraFOVControl)
    (hpp : s.mFovControlConfig.snapshotPPConfig.enablePostProcess = true) :
    (calculateDualCamTransitionParams s).mFovControlData.transitionParams.transitionHigh ≥
      s.mFovControlConfig.snapshotPPConfig.zoomMax ∧
    (calculateDualCamTransitionParams s).mFovControlData.transitionParams.transitionLow =
      (if s.mFovControlConfig.snapshotPPConfig.zoomMin <
          s.mFovControlData.transitionParams.cutOverFactor -
            ((if isMainCamFovWider s = true then s.mFovControlConfig.percentMarginAux
              else s.mFovControlConfig.percentMarginMain) / 100) *
              s.mFovControlData.basicFovRatio then
        s.mFovControlConfig.snapshotPPConfig.zoomMax
      else
        s.mFovControlData.transitionParams.cutOverFactor -
          ((if isMainCamFovWider s = true then s.mFovControlConfig.percentMarginAux
            else s.mFovControlConfig.percentMarginMain) / 100) *
            s.mFovControlData.basicFovRatio) := by
  unfold calculateDualCamTransitionParams
  simp only [hpp, if_true]
  constructor
  · split_ifs <;> first
      | exact le_refl _
      | exact not_lt.mp (by assumption)
  · trivial

/-- C28 (code at the failing input): snapshot post-processing enabled on the zoom window
[1, 5], basic FOV ratio 2: `calculateDualCamTransitionParams` computes the low end 1.7 of
the band and, the window starting below it, replaces it by `zoomMax` = 5.  The band starts
at 5, above `zoomMin` = 1; its high end 5 covers `zoomMax`. -/
theorem postprocess_window_low_end_uncovered :
    stateConfiguredPP.mFovControlConfig.snapshotPPConfig.enablePostProcess = true ∧
    stateConfiguredPP.mFovControlConfig.snapshotPPConfig.zoomMin = 1 ∧
    stateConfiguredPP.mFovControlConfig.snapshotPPConfig.zoomMax = 5 ∧
    stateConfiguredPP.mFovControlData.transitionParams.transitionLow = 5 ∧
    (calculateDualCamTransitionParams
      stateConfiguredPP).mFovControlData.transitionParams.transitionLow = 5 ∧
    (calculateDualCamTransitionParams
      stateConfiguredPP).mFovControlData.transitionParams.transitionHigh = 5 ∧
    ¬ ((calculateDualCamTransitionParams
        stateConfiguredPP).mFovControlData.transitionParams.transitionLow ≤
      stateConfiguredPP.mFovControlConfig.snapshotPPConfig.zoomMin) ∧
    (calculateDualCamTransitionParams
        stateConfiguredPP).mFovControlData.transitionParams.transitionHigh ≥
      stateConfiguredPP.mFovControlConfig.snapshotPPConfig.zoomMax := by
  decide!

end qcamera

namespace qcamera

/-! ## The wide-fallback flag is set only while fallback is enabled -/

theorem fallbackKept_refl (d : fov_control_data_t) : fallbackKept d d := ⟨rfl, rfl⟩

theorem fallbackKept_trans {a b c : fov_control_data_t}
    (h1 : fallbackKept a b) (h2 : fallbackKept b c) : fallbackKept a c :=
  ⟨h2.1.trans h1.1, h2.2.trans h1.2⟩

theorem fallbackSound_of_kept {s t : QCameraFOVControl}
    (h : fallbackKept s.mFovControlData t.mFovControlData) (hs : fallbackSound s) :
    fallbackSound t := by
  unfold fallbackSound at hs ⊢
  rw [h.1, h.2]
  exact hs

theorem stateSwitch_fallbackSound (s : QCameraFOVControl) (zoom : ℚ)
    (hs : fallbackSound s) : fallbackSound (stateSwitch s zoom) := by
  unfold fallbackSound at hs ⊢
  unfold stateSwitch
  split
  · unfold stateWide stateWideCounters
    simp only []
    split_ifs <;> simp_all
  · unfold stateTransition
    simp only []
    split_ifs <;> simp_all
  · unfold stateTele stateTeleCounters
    simp only []
    split_ifs <;> simp_all

/-- A state-machine update sets the wide-fallback flag only when fallback is enabled. -/
theorem generateFovControlResult_fallbackSound (s : QCameraFOVControl)
    (hs : fallbackSound s) : fallbackSound (generateFovControlResult s) := by
  have h1 : fallbackSound
      { s with
        mFovControlData := updateZoomDirection s.mFovControlData,
        mFovControlResult := updateSnapshotPPFlags s (effectiveZoom s.mFovControlData) } := by
    refine fallbackSound_of_kept ?_ hs
    rw [updateZoomDirection_eq]
    exact ⟨rfl, rfl⟩
  have h2 := stateSwitch_fallbackSound _ (effectiveZoom s.mFovControlData) h1
  unfold generateFovControlResult
  simp only []
  split_ifs
  · exact hs
  · exact h2

theorem bookKeepMaster_fallbackKept (s : QCameraFOVControl)
    (metaMain metaAux : Option metadata_buffer_t) :
    fallbackKept s.mFovControlData (bookKeepMaster s metaMain metaAux).2 := by
  unfold bookKeepMaster
  simp only []
  split
  · exact ⟨rfl, rfl⟩
  · exact fallbackKept_refl _

theorem bookKeepShiftMain_fallbackKept (w : Bool) (m : Option metadata_buffer_t)
    (d : fov_control_data_t) : fallbackKept d (bookKeepShiftMain w m d) := by
  unfold bookKeepShiftMain
  split
  · split_ifs <;> exact ⟨rfl, rfl⟩
  · exact fallbackKept_refl _

theorem bookKeepShiftAux_fallbackKept (w : Bool) (m : Option metadata_buffer_t)
    (d : fov_control_data_t) : fallbackKept d (bookKeepShiftAux w m d) := by
  unfold bookKeepShiftAux
  split
  · split_ifs <;> exact ⟨rfl, rfl⟩
  · exact fallbackKept_refl _

theorem bookKeepLowPower_fallbackKept (masterCam : Nat) (m1 m2 : Option metadata_buffer_t)
    (d : fov_control_data_t) : fallbackKept d (bookKeepLowPower masterCam m1 m2 d) := by
  unfold bookKeepLowPower
  simp only []
  by_cases h : d.availableSpatialAlignSolns &&& CAM_SPATIAL_ALIGN_OEM ≠ 0
  · rw [if_pos h]
    split
    · split_ifs <;> exact ⟨rfl, rfl⟩
    · exact fallbackKept_refl _
  · rw [if_neg h]
    exact fallbackKept_refl _

theorem bookKeepAfMain_fallbackKept (m : Option metadata_buffer_t)
    (d : fov_control_data_t) : fallbackKept d (bookKeepAfMain m d) := by
  unfold bookKeepAfMain
  split
  · exact ⟨rfl, rfl⟩
  · exact fallbackKept_refl _

theorem bookKeepAfAux_fallbackKept (m : Option metadata_buffer_t)
    (d : fov_control_data_t) : fallbackKept d (bookKeepAfAux m d) := by
  unfold bookKeepAfAux
  split
  · exact ⟨rfl, rfl⟩
  · exact fallbackKept_refl _

/-- The book-keeping of `processResultMetadata` leaves the wide-fallback flag and the
fallback switch alone. -/
theorem processBookKeeping_fallbackKept (s : QCameraFOVControl)
    (metaMain metaAux : Option metadata_buffer_t) :
    fallbackKept s.mFovControlData (processBookKeeping s metaMain metaAux).2.mFovControlData := by
  unfold processBookKeeping
  simp only []
  exact fallbackKept_trans (bookKeepMaster_fallbackKept s metaMain metaAux)
    (fallbackKept_trans (bookKeepShiftMain_fallbackKept _ _ _)
      (fallbackKept_trans (bookKeepShiftAux_fallbackKept _ _ _)
        (fallbackKept_trans (bookKeepLowPower_fallbackKept _ _ _ _)
          (fallbackKept_trans (bookKeepAfMain_fallbackKept _ _)
            (fallbackKept_trans (bookKeepAfAux_fallbackKept _ _)
              (show fallbackKept _ (bookKeepStreaming _ _ _ _) from ⟨rfl, rfl⟩))))))

theorem processResultMetadata_fallbackSound (s : QCameraFOVControl)
    (m1 m2 : Option metadata_buffer_t) (hs : fallbackSound s) :
    fallbackSound (processResultMetadata s m1 m2).obj := by
  unfold processResultMetadata
  split_ifs
  · exact generateFovControlResult_fallbackSound _
      (fallbackSound_of_kept (processBookKeeping_fallbackKept s m1 m2) hs)
  · exact hs

theorem translateInputParams_fallbackSound (s : QCameraFOVControl)
    (pm pa : Option parm_buffer_t) (hs : fallbackSound s) :
    fallbackSound (translateInputParams s pm pa).obj := by
  have hz : ∀ z : Nat,
      fallbackSound (generateFovControlResult (convertUserZoomToWideAndTele s z)) := by
    intro z
    exact generateFovControlResult_fallbackSound _
      (fallbackSound_of_kept
        (show fallbackKept s.mFovControlData
          (convertUserZoomToWideAndTele s z).mFovControlData from ⟨rfl, rfl⟩) hs)
  have hd : ∀ t : QCameraFOVControl, fallbackSound t →
      fallbackSound (convertDisparityForInputParams t) := by
    intro t ht
    exact fallbackSound_of_kept
      (show fallbackKept t.mFovControlData
        (convertDisparityForInputParams t).mFovControlData from ⟨rfl, rfl⟩) ht
  unfold translateInputParams
  split
  · rename_i paramsMain _
    simp only []
    cases hzoom : paramsMain.CAM_INTF_PARM_ZOOM with
    | none =>
      simp only []
      split_ifs
      · exact hd s hs
      · exact hs
    | some z =>
      simp only []
      split_ifs
      all_goals exact hd _ (hz z)
  · exact hs

/-- After a configuration update that reaches the reset, the wide-fallback flag is
clear; an update that fails its guard leaves the object as it is. -/
theorem updateConfigSettings_fallbackSound (st : FOVCSettings) (s : QCameraFOVControl)
    (pm pa : Option parm_buffer_t) (hs : fallbackSound s) :
    fallbackSound (updateConfigSettings st s pm pa).2 := by
  have hbasic : ∀ t : QCameraFOVControl,
      (calculateBasicFovRatio t).2.mFovControlData.fallbackToWide =
        t.mFovControlData.fallbackToWide := by
    intro t
    unfold calculateBasicFovRatio
    simp only []
    split_ifs <;> rfl
  have hcomb : ∀ t : QCameraFOVControl,
      (combineFovAdjustment t).2.mFovControlData.fallbackToWide =
        t.mFovControlData.fallbackToWide := by
    intro t
    unfold combineFovAdjustment
    simp only []
    split_ifs <;> rfl
  have hinit : ∀ t : QCameraFOVControl,
      (updateConfigInitialState t).mFovControlData.fallbackToWide =
        t.mFovControlData.fallbackToWide := by
    intro t
    unfold updateConfigInitialState calculateDualCamTransitionParams
    simp only []
    split_ifs <;> rfl
  have hreset : ∀ i1 i2 : cam_stream_size_info_t,
      (updateConfigReset st s i1 i2).mFovControlData.fallbackToWide = false := by
    intro i1 i2
    rfl
  unfold fallbackSound at hs ⊢
  unfold updateConfigSettings
  split
  · split
    · rename_i i1 i2 _ _
      simp only []
      intro h
      split_ifs at h
      · rw [hinit, hcomb, hbasic, hreset] at h
        exact absurd h (by decide)
      · rw [hcomb, hbasic, hreset] at h
        exact absurd h (by decide)
      · rw [hbasic, hreset] at h
        exact absurd h (by decide)
    · exact hs
  · exact hs

theorem step_fallbackSound (st : FOVCSettings) (s : QCameraFOVControl) (op : Op)
    (hs : fallbackSound s) : fallbackSound (step st s op) := by
  cases op with
  | updateConfigSettings pm pa => exact updateConfigSettings_fallbackSound st s pm pa hs
  | translateInputParams pm pa => exact translateInputParams_fallbackSound s pm pa hs
  | processResultMetadata m1 m2 => exact processResultMetadata_fallbackSound s m1 m2 hs
  | getFovControlResult => exact hs

theorem run_fallbackSound (st : FOVCSettings) (ops : List Op) :
    ∀ s : QCameraFOVControl, fallbackSound s → fallbackSound (run st s ops) := by
  induction ops with
  | nil => intro s hs; exact hs
  | cons op rest ih =>
    intro s hs
    exact ih (step st s op) (step_fallbackSound st s op hs)

/-- A created object has the wide-fallback flag clear. -/
theorem create_fallbackSound (capsMainCam capsAuxCam : Option cam_capability_t)
    (s : QCameraFOVControl) (h : create capsMainCam capsAuxCam = some s) :
    fallbackSound s := by
  have hv : ∀ a b : cam_capability_t,
      (validateAndExtractParameters QCameraFOVControl.new
        (some a) (some b)).2.mFovControlData.fallbackToWide = false := by
    intro a b
    unfold validateAndExtractParameters
    simp only []
    split_ifs <;> rfl
  unfold create at h
  split at h
  · rename_i capsMain capsAux
    simp only [] at h
    split_ifs at h
    all_goals
      injection h with h
      subst h
      intro hf
      have hf2 : (validateAndExtractParameters QCameraFOVControl.new
          (some capsMain) (some capsAux)).2.mFovControlData.fallbackToWide = true := hf
      rw [hv] at hf2
      exact absurd hf2 (by decide)
  · exact absurd h (by simp)

end qcamera

namespace qcamera

/-! ## Entering TRANSITION from WIDE and from TELE -/

/-- A configured update in TELE, unfolded. -/
theorem generateFovControlResult_in_tele (s : QCameraFOVControl)
    (hcc : s.mFovControlData.configCompleted = true)
    (hst : s.mFovControlData.camState = dual_cam_state.STATE_TELE) :
    generateFovControlResult s =
      { stateTele
          { s with
            mFovControlData := updateZoomDirection s.mFovControlData,
            mFovControlResult := updateSnapshotPPFlags s (effectiveZoom s.mFovControlData) }
          (effectiveZoom s.mFovControlData) with
        mFovControlResult :=
          { (stateTele
              { s with
                mFovControlData := updateZoomDirection s.mFovControlData,
                mFovControlResult := updateSnapshotPPFlags s (effectiveZoom s.mFovControlData) }
              (effectiveZoom s.mFovControlData)).mFovControlResult with isValid := true } } := by
  unfold generateFovControlResult
  simp only [hcc]
  unfold stateSwitch
  simp only [updateZoomDirection_camState, hst]
  rfl

/-- C29 (counterexample): configured, bright and far focused, in WIDE with only the wide
camera active, post-processing disabled, the user zoom just moved in from index 0 to
index 3: the zoom 2.0 is at least `transitionLow` 1.7 and not above `cutOverWideToTele`
2.1.  The condition of the claim is false (not both cameras are active, and the strict
path needs a zoom above 2.1), yet the update enters TRANSITION. -/
theorem wide_relaxed_path_without_both_active :
    stateBeforeZoomIn.mFovControlData.configCompleted = true ∧
    stateBeforeZoomIn.mFovControlData.camState = dual_cam_state.STATE_WIDE ∧
    effectiveZoom stateBeforeZoomIn.mFovControlData = 2 ∧
    stateBeforeZoomIn.mFovControlData.transitionParams.transitionLow = 17 / 10 ∧
    stateBeforeZoomIn.mFovControlData.transitionParams.cutOverWideToTele = 21 / 10 ∧
    stateBeforeZoomIn.mFovControlData.spatialAlignResult.activeCameras = 1 ∧
    (stateBeforeZoomIn.mFovControlData.camWide |||
      stateBeforeZoomIn.mFovControlData.camTele) = 3 ∧
    specWideToTransition stateBeforeZoomIn = false ∧
    (generateFovControlResult stateBeforeZoomIn).mFovControlData.camState =
      dual_cam_state.STATE_TRANSITION := by
  decide!

/-- C29 (amended): for a configured update performed in WIDE the state after the update is
TRANSITION if and only if the scene is bright and far focused and either snapshot
post-process is active, or (the zoom is at least `transitionLow` or both cameras are
already active) and the zoom direction is IN and the wide-fallback flag is clear, or the
zoom is above `cutOverWideToTele` and both stable counts, incremented by this update, have
reached their thresholds; otherwise the state stays WIDE.  The object is one
that the source can hold (`updateInputsValid`): the wide zoom value indexes the zoom-ratio
table, whose first entry, the divisor of the zoom, is not zero, the thresholds are
single-precision values and the brightness and focus readings are 16-bit values; the zoom
is the single-precision quotient `effectiveZoom`. -/
theorem wide_to_transition_condition (s : QCameraFOVControl)
    (hcc : s.mFovControlData.configCompleted = true)
    (hst : s.mFovControlData.camState = dual_cam_state.STATE_WIDE)
    (_hvalid : updateInputsValid s = true) :
    ((generateFovControlResult s).mFovControlData.camState = dual_cam_state.STATE_TRANSITION ↔
      (s.mFovControlData.status3A.main.lux ≥ s.mFovControlConfig.auxSwitchBrightnessMin ∧
        s.mFovControlData.status3A.main.focusDistCm ≥
          s.mFovControlConfig.auxSwitchFocusDistCmMin ∧
        ((updateSnapshotPPFlags s (effectiveZoom s.mFovControlData)).snapshotPostProcess = true ∨
          ((effectiveZoom s.mFovControlData ≥ s.mFovControlData.transitionParams.transitionLow ∨
              s.mFovControlData.spatialAlignResult.activeCameras =
                (s.mFovControlData.camWide ||| s.mFovControlData.camTele)) ∧
            (updateZoomDirection s.mFovControlData).zoomDirection = dual_cam_zoom_dir.ZOOM_IN ∧
            wideFallbackFlag s.mFovControlData (effectiveZoom s.mFovControlData) = false) ∨
          (effectiveZoom s.mFovControlData >
              s.mFovControlData.transitionParams.cutOverWideToTele ∧
            (s.mFovControlData.brightnessStableCount + 1) % UINT32_MOD ≥
              s.mFovControlData.brightnessStableCountThreshold ∧
            (s.mFovControlData.focusDistStableCount + 1) % UINT32_MOD ≥
              s.mFovControlData.focusDistStableCountThreshold)))) ∧
    ((generateFovControlResult s).mFovControlData.camState ≠ dual_cam_state.STATE_TRANSITION →
      (generateFovControlResult s).mFovControlData.camState = dual_cam_state.STATE_WIDE) := by
  clear _hvalid
  rw [generateFovControlResult_in_wide s hcc hst]
  unfold stateWide stateWideCounters wideFallbackFlag
  simp only [updateZoomDirection_eq]
  split_ifs <;> simp_all <;> tauto

/-- C29 (witness): the amended condition at the object `floatStateBeforeZoomIn` (first
table entry 100, zoom 2.0, thresholds in single precision), where the relaxed path fires
with only the wide camera active. -/
theorem wide_to_transition_condition_witness :
    floatStateBeforeZoomIn.mFovControlData.configCompleted = true ∧
    floatStateBeforeZoomIn.mFovControlData.camState = dual_cam_state.STATE_WIDE ∧
    updateInputsValid floatStateBeforeZoomIn = true ∧
    (generateFovControlResult floatStateBeforeZoomIn).mFovControlData.camState =
      dual_cam_state.STATE_TRANSITION :=
  ⟨by decide!, by decide!, by decide!,
    (wide_to_transition_condition floatStateBeforeZoomIn (by decide!) (by decide!)
      (by decide!)).1.2 (by decide!)⟩

/-- C30: for a configured update performed in TELE: on the relaxed path (snapshot
post-process active, or the zoom direction OUT with the zoom at most `transitionHigh` or
both cameras active) the state becomes TRANSITION and the wide-fallback flag is unchanged;
otherwise the state becomes TRANSITION exactly when the scene is dark or macro and the
brightness or the focus-distance stable count, as updated by this update, has reached its
threshold, and then the flag is set to true if fallback is enabled and unchanged if not,
so that from an object whose flag is set only while fallback is enabled (every object of a
run from `create`) the flag is then true if and only if fallback is enabled; otherwise the
state stays TELE.  In TRANSITION both cameras are active.  The object is one
that the source can hold (`updateInputsValid`): the wide zoom value indexes the zoom-ratio
table, whose first entry, the divisor of the zoom, is not zero, the thresholds are
single-precision values and the brightness and focus readings are 16-bit values; the zoom
is the single-precision quotient `effectiveZoom`. -/
theorem tele_to_transition_and_fallback (s : QCameraFOVControl)
    (hcc : s.mFovControlData.configCompleted = true)
    (hst : s.mFovControlData.camState = dual_cam_state.STATE_TELE)
    (_hvalid : updateInputsValid s = true) :
    (((updateSnapshotPPFlags s (effectiveZoom s.mFovControlData)).snapshotPostProcess = true ∨
        ((updateZoomDirection s.mFovControlData).zoomDirection = dual_cam_zoom_dir.ZOOM_OUT ∧
          (effectiveZoom s.mFovControlData ≤ s.mFovControlData.transitionParams.transitionHigh ∨
            s.mFovControlData.spatialAlignResult.activeCameras =
              (s.mFovControlData.camWide ||| s.mFovControlData.camTele)))) →
      (generateFovControlResult s).mFovControlData.camState = dual_cam_state.STATE_TRANSITION ∧
      (generateFovControlResult s).mFovControlData.fallbackToWide =
        s.mFovControlData.fallbackToWide) ∧
    (¬ ((updateSnapshotPPFlags s (effectiveZoom s.mFovControlData)).snapshotPostProcess = true ∨
        ((updateZoomDirection s.mFovControlData).zoomDirection = dual_cam_zoom_dir.ZOOM_OUT ∧
          (effectiveZoom s.mFovControlData ≤ s.mFovControlData.transitionParams.transitionHigh ∨
            s.mFovControlData.spatialAlignResult.activeCameras =
              (s.mFovControlData.camWide ||| s.mFovControlData.camTele)))) →
      ((generateFovControlResult s).mFovControlData.camState =
          dual_cam_state.STATE_TRANSITION ↔
        ((s.mFovControlData.status3A.main.lux < s.mFovControlConfig.auxSwitchBrightnessMin ∨
            s.mFovControlData.status3A.main.focusDistCm <
              s.mFovControlConfig.auxSwitchFocusDistCmMin) ∧
          ((stateTeleCounters s).brightnessStableCount ≥
              s.mFovControlData.brightnessStableCountThreshold ∨
            (stateTeleCounters s).focusDistStableCount ≥
              s.mFovControlData.focusDistStableCountThreshold))) ∧
      ((generateFovControlResult s).mFovControlData.camState =
          dual_cam_state.STATE_TRANSITION →
        (generateFovControlResult s).mFovControlData.fallbackToWide =
          (if s.mFovControlData.fallbackEnabled = true then true
            else s.mFovControlData.fallbackToWide)) ∧
      (fallbackSound s →
        (generateFovControlResult s).mFovControlData.camState =
          dual_cam_state.STATE_TRANSITION →
        ((generateFovControlResult s).mFovControlData.fallbackToWide = true ↔
          s.mFovControlData.fallbackEnabled = true)) ∧
      ((generateFovControlResult s).mFovControlData.camState ≠
          dual_cam_state.STATE_TRANSITION →
        (generateFovControlResult s).mFovControlData.camState = dual_cam_state.STATE_TELE ∧
        (generateFovControlResult s).mFovControlData.fallbackToWide =
          s.mFovControlData.fallbackToWide)) ∧
    ((generateFovControlResult s).mFovControlData.camState = dual_cam_state.STATE_TRANSITION →
      (generateFovControlResult s).mFovControlResult.activeCameras =
        (s.mFovControlData.camWide ||| s.mFovControlData.camTele)) := by
  clear _hvalid
  rw [generateFovControlResult_in_tele s hcc hst]
  unfold stateTele stateTeleCounters fallbackSound
  simp only [updateZoomDirection_eq]
  split_ifs <;> simp_all

/-- C30 (witness): the 30th dark update of `floatStateTeleDark` takes the strict path: the
zoom is stable, so the relaxed path is closed; the brightness count reaches the threshold
30, the state becomes TRANSITION and the wide-fallback flag is set, fallback being
enabled. -/
theorem tele_to_transition_and_fallback_witness :
    floatStateTeleDark.mFovControlData.configCompleted = true ∧
    floatStateTeleDark.mFovControlData.camState = dual_cam_state.STATE_TELE ∧
    updateInputsValid floatStateTeleDark = true ∧
    floatStateTeleDark.mFovControlData.fallbackToWide = false ∧
    (generateFovControlResult floatStateTeleDark).mFovControlData.camState =
      dual_cam_state.STATE_TRANSITION ∧
    (generateFovControlResult floatStateTeleDark).mFovControlData.fallbackToWide = true :=
  ⟨by decide!, by decide!, by decide!, by decide!,
    ((tele_to_transition_and_fallback floatStateTeleDark (by decide!) (by decide!)
      (by decide!)).2.1 (by decide!)).1.2 (by decide!),
    (((tele_to_transition_and_fallback floatStateTeleDark (by decide!) (by decide!)
      (by decide!)).2.1 (by decide!)).2.1 (by decide!)).trans (by decide!)⟩

end qcamera

namespace qcamera

/-! ## Zoom translation -/

/-- The tele zoom value depends on the zoom-ratio table and the cut-over factor only. -/
theorem readjustZoomForTele_congr {a b : fov_control_data_t}
    (h1 : a.zoomRatioTable = b.zoomRatioTable)
    (h2 : a.zoomRatioTableCount = b.zoomRatioTableCount)
    (h3 : a.transitionParams.cutOverFactor = b.transitionParams.cutOverFactor) (z : Nat) :
    readjustZoomForTele a z = readjustZoomForTele b z := by
  unfold readjustZoomForTele findZoomValue findZoomRatio
  rw [h1, h2, h3]

/-- C22: a `translateInputParams` call with two containers whose main container carries
the zoom value `z` returns NO_ERROR; afterwards the zoom entry of the container of the
wider camera is `z` and that of the other camera is `readjustZoomForTele z`, the index of
the ratio of `z` divided by the cut-over factor; the user-zoom entry is `z` in both
containers; every aux entry other than zoom, user zoom, focus ROI and metering ROI equals
the entry of the main container. -/
theorem zoom_translation (s : QCameraFOVControl) (paramsMain paramsAux : parm_buffer_t)
    (z : Nat) (hz : paramsMain.CAM_INTF_PARM_ZOOM = some z) :
    (translateInputParams s (some paramsMain) (some paramsAux)).rc = status_t.NO_ERROR ∧
    readjustZoomForTele s.mFovControlData z =
      findZoomValue s.mFovControlData
        (floatToUint32 (floatRound (floatRound (findZoomRatio s.mFovControlData z : ℚ) /
          s.mFovControlData.transitionParams.cutOverFactor))) ∧
    ∃ mainOut auxOut : parm_buffer_t,
      (translateInputParams s (some paramsMain) (some paramsAux)).paramsMainCam =
        some mainOut ∧
      (translateInputParams s (some paramsMain) (some paramsAux)).paramsAuxCam =
        some auxOut ∧
      (isMainCamFovWider s = true →
        mainOut.CAM_INTF_PARM_ZOOM = some z ∧
        auxOut.CAM_INTF_PARM_ZOOM = some (readjustZoomForTele s.mFovControlData z)) ∧
      (isMainCamFovWider s = false →
        auxOut.CAM_INTF_PARM_ZOOM = some z ∧
        mainOut.CAM_INTF_PARM_ZOOM = some (readjustZoomForTele s.mFovControlData z)) ∧
      mainOut.CAM_INTF_PARM_DC_USERZOOM = some z ∧
      auxOut.CAM_INTF_PARM_DC_USERZOOM = some z ∧
      auxOut.CAM_INTF_META_STREAM_INFO = mainOut.CAM_INTF_META_STREAM_INFO ∧
      auxOut.CAM_INTF_META_DC_SAC_OUTPUT_INFO = mainOut.CAM_INTF_META_DC_SAC_OUTPUT_INFO ∧
      auxOut.CAM_INTF_META_DC_LOW_POWER_ENABLE = mainOut.CAM_INTF_META_DC_LOW_POWER_ENABLE ∧
      auxOut.CAM_INTF_META_AF_STATE = mainOut.CAM_INTF_META_AF_STATE ∧
      auxOut.CAM_INTF_META_FACE_DETECTION = mainOut.CAM_INTF_META_FACE_DETECTION ∧
      auxOut.others = mainOut.others ∧
      mainOut.CAM_INTF_META_STREAM_INFO = paramsMain.CAM_INTF_META_STREAM_INFO ∧
      mainOut.CAM_INTF_META_DC_SAC_OUTPUT_INFO = paramsMain.CAM_INTF_META_DC_SAC_OUTPUT_INFO ∧
      mainOut.CAM_INTF_META_DC_LOW_POWER_ENABLE =
        paramsMain.CAM_INTF_META_DC_LOW_POWER_ENABLE ∧
      mainOut.CAM_INTF_META_AF_STATE = paramsMain.CAM_INTF_META_AF_STATE ∧
      mainOut.CAM_INTF_META_FACE_DETECTION = paramsMain.CAM_INTF_META_FACE_DETECTION ∧
      mainOut.others = paramsMain.others := by
  have hw : isMainCamFovWider (convertUserZoomToWideAndTele s z) = isMainCamFovWider s := rfl
  have ht : (convertUserZoomToWideAndTele s z).mFovControlData.zoomTele =
      readjustZoomForTele s.mFovControlData z := by
    unfold convertUserZoomToWideAndTele
    exact readjustZoomForTele_congr rfl rfl rfl z
  have hwd : (convertUserZoomToWideAndTele s z).mFovControlData.zoomWide = z := rfl
  refine ⟨rfl, rfl, ?_⟩
  obtain ⟨si, zm, uz, af, aec, sac, lp, afs, fd, oth⟩ := paramsMain
  simp only at hz
  subst hz
  unfold translateInputParams
  simp only [hw, ht, hwd]
  refine ⟨_, _, rfl, rfl, ?_⟩
  cases hmw : isMainCamFovWider s <;> cases af <;> cases aec <;> simp <;>
    split_ifs <;> simp

/-- C22 (witness): zoom value 3 on the configured pair main wide / aux tele (ratio 2.0,
cut-over factor 2): the main batch keeps zoom 3, the aux batch gets the tele zoom 0 (ratio
1.0), both get user zoom 3, and the other entries of the aux batch are those of main. -/
theorem zoom_translation_witness :
    paramsZoomAndOthers.CAM_INTF_PARM_ZOOM = some 3 ∧
    (translateInputParams stateConfigured (some paramsZoomAndOthers) (some {})).rc =
      status_t.NO_ERROR ∧
    (translateInputParams stateConfigured (some paramsZoomAndOthers) (some {})).paramsMainCam =
      some { paramsZoomAndOthers with CAM_INTF_PARM_DC_USERZOOM := some 3 } ∧
    (translateInputParams stateConfigured (some paramsZoomAndOthers) (some {})).paramsAuxCam =
      some { paramsZoomAndOthers with
        CAM_INTF_PARM_ZOOM := some 0, CAM_INTF_PARM_DC_USERZOOM := some 3 } :=
  ⟨rfl, (zoom_translation stateConfigured paramsZoomAndOthers {} 3 rfl).1,
    by decide!, by decide!⟩

/-! ## Translation of the focus regions -/

/-- The body of the loop of `translateFocusAreas` reverts to the regions of the main
camera when the translated start of its region lies at or beyond the frame. -/
theorem translateFocusAreasBody_revert (s : QCameraFOVControl) (roiAfMain acc : cam_roi_info_t)
    (i : Nat)
    (h : (translatedFocusStart s roiAfMain i).1 ≥ s.mFovControlData.previewSize.width ∨
      (translatedFocusStart s roiAfMain i).2 ≥ s.mFovControlData.previewSize.height) :
    translateFocusAreasBody s (roiFovRatio s) roiAfMain i acc = roiAfMain := by
  unfold translatedFocusStart at h
  unfold translateFocusAreasBody
  simp only [] at h ⊢
  rw [if_pos h]

/-- The last iteration of the loop of `translateFocusAreas`, taken apart. -/
theorem translateFocusAreasLoop_last (s : QCameraFOVControl) (fovRatio : ℚ)
    (roiAfMain : cam_roi_info_t) (n : Nat) :
    ∀ (i : Nat) (acc : cam_roi_info_t),
      translateFocusAreasLoop s fovRatio roiAfMain (n + 1) i acc =
        translateFocusAreasBody s fovRatio roiAfMain (i + n)
          (translateFocusAreasLoop s fovRatio roiAfMain n i acc) := by
  induction n with
  | zero =>
    intro i acc
    simp [translateFocusAreasLoop]
  | succ n ih =>
    intro i acc
    rw [translateFocusAreasLoop, ih (i + 1) (translateFocusAreasBody s fovRatio roiAfMain i acc)]
    rw [show i + 1 + n = i + (n + 1) by omega]
    rfl

/-- When the translated start of the last region lies at or beyond the frame, in
particular for a single region, `translateFocusAreas` returns the regions of the main
camera. -/
theorem translateFocusAreas_last_out_of_frame (s : QCameraFOVControl)
    (roiAfMain : cam_roi_info_t) (n : Nat) (hn : roiAfMain.num_roi = n + 1)
    (h : (translatedFocusStart s roiAfMain n).1 ≥ s.mFovControlData.previewSize.width ∨
      (translatedFocusStart s roiAfMain n).2 ≥ s.mFovControlData.previewSize.height) :
    translateFocusAreas s roiAfMain = roiAfMain := by
  unfold translateFocusAreas
  rw [hn, translateFocusAreasLoop_last, Nat.zero_add]
  exact translateFocusAreasBody_revert s roiAfMain _ n h

/-- C23 (code at the failing input): two focus regions on a 1920x1080 preview, FOV ratio 2,
no disparity shift.  The translated start of region 0 is at x = 2840, beyond the frame, and
the code reverts to the regions of the main camera; the loop then goes on and translates
region 1, so the result is not the input: its region 1 is the translated one. -/
theorem focus_fallback_keeps_translating :
    (translateInputParams stateThreeRatios (some paramsZoomAndFocus)
        (some {})).obj.mFovControlData.previewSize = { width := 1920, height := 1080 } ∧
    roiFovRatio (translateInputParams stateThreeRatios (some paramsZoomAndFocus)
        (some {})).obj = 2 ∧
    translatedFocusStart (translateInputParams stateThreeRatios (some paramsZoomAndFocus)
        (some {})).obj roiTwoRegions 0 = (2840, 460) ∧
    translateFocusAreas (translateInputParams stateThreeRatios (some paramsZoomAndFocus)
        (some {})).obj roiTwoRegions =
      { num_roi := 2,
        roi := [{ left := 1900, top := 500, width := 10, height := 10 },
                { left := 1040, top := 660, width := 200, height := 200 }] } ∧
    (translateInputParams stateThreeRatios (some paramsZoomAndFocus)
        (some {})).paramsAuxCam.bind (fun p => p.CAM_INTF_PARM_AF_ROI) =
      some { num_roi := 2,
             roi := [{ left := 1900, top := 500, width := 10, height := 10 },
                     { left := 1040, top := 660, width := 200, height := 200 }] } ∧
    translateFocusAreas (translateInputParams stateThreeRatios (some paramsZoomAndFocus)
        (some {})).obj roiTwoRegions ≠ roiTwoRegions := by
  decide!

end qcamera

namespace qcamera

/-! ## Translation of the metering regions -/

/-- C24 (code at the failing input): after a frame of aux metadata with the output shift
(1, 0), a request with zoom value 1 and the metering coordinate (1400, 600) on a 1920x1080
preview: the FOV ratio is 2 and the adjusted horizontal shift 200.  The coordinate without
the shift, x = 1840, passes the bounds check; the coordinate written is 1840 + 200 = 2040,
outside the frame. -/
theorem metering_clamp_ignores_shift :
    stateWithShift.mFovControlData.spatialAlignResult.shiftTele =
      { shiftHorz := 1, shiftVert := 0 } ∧
    (translateInputParams stateWithShift (some paramsZoomAndMetering)
        (some {})).obj.mFovControlData.previewSize = { width := 1920, height := 1080 } ∧
    (translateInputParams stateWithShift (some paramsZoomAndMetering)
        (some {})).obj.mFovControlData.shiftHorzAdjusted = 200 ∧
    (translateInputParams stateWithShift (some paramsZoomAndMetering)
        (some {})).obj.mFovControlData.shiftVertAdjusted = 0 ∧
    roiFovRatio (translateInputParams stateWithShift (some paramsZoomAndMetering)
        (some {})).obj = 2 ∧
    translateMeteringAreas (translateInputParams stateWithShift (some paramsZoomAndMetering)
        (some {})).obj roiMetering =
      { aec_roi_enable := cam_aec_roi_ctrl_t.CAM_AEC_ROI_ON, num_roi := 1,
        coordinate := [{ x := 2040, y := 660 }] } ∧
    (translateInputParams stateWithShift (some paramsZoomAndMetering)
        (some {})).paramsAuxCam.bind (fun p => p.CAM_INTF_PARM_AEC_ROI) =
      some { aec_roi_enable := cam_aec_roi_ctrl_t.CAM_AEC_ROI_ON, num_roi := 1,
             coordinate := [{ x := 2040, y := 660 }] } ∧
    ¬ ((2040 : Int) ≤ 1920 - 1) := by
  decide!

/-! ## The disparity adjustment -/

/-- The function `convertDisparityForInputParams` divides the crop ratio by
`disparityZoom`. -/
theorem convertDisparityForInputParams_eq (s : QCameraFOVControl) :
    convertDisparityForInputParams s =
      { s with mFovControlData := { s.mFovControlData with
          shiftHorzAdjusted :=
            (s.mFovControlData.transitionParams.cropRatio / disparityZoom s.mFovControlData) *
              (s.mFovControlData.spatialAlignResult.shiftTele.shiftHorz : ℚ),
          shiftVertAdjusted :=
            (s.mFovControlData.transitionParams.cropRatio / disparityZoom s.mFovControlData) *
              (s.mFovControlData.spatialAlignResult.shiftTele.shiftVert : ℚ) } } := rfl

/-- C25 (code at the failing input): the divisor of `convertDisparityForInputParams` is
the zoom index over the first table entry, so it is 0 after every request with the user
zoom 0, whatever the object and its table; on the configured pair main wide / aux tele a
request with zoom value 0 and a focus region leaves the zoom index 0 over the first table
entry 100, while the zoom ratio at index 0 over the first entry, which the state machine
uses as the zoom, is 1. -/
theorem disparity_divisor_zero_at_zoom_index_zero :
    (∀ s : QCameraFOVControl,
      disparityZoom
        (generateFovControlResult (convertUserZoomToWideAndTele s 0)).mFovControlData = 0) ∧
    stateConfigured.mFovControlData.configCompleted = true ∧
    (translateInputParams stateConfigured (some paramsZoomZeroAndFocus)
        (some {})).rc = status_t.NO_ERROR ∧
    (translateInputParams stateConfigured (some paramsZoomZeroAndFocus)
        (some {})).obj.mFovControlData.zoomWide = 0 ∧
    (translateInputParams stateConfigured (some paramsZoomZeroAndFocus)
        (some {})).obj.mFovControlData.zoomRatioTable.getD 0 0 = 100 ∧
    disparityZoom (translateInputParams stateConfigured (some paramsZoomZeroAndFocus)
        (some {})).obj.mFovControlData = 0 ∧
    effectiveZoom (translateInputParams stateConfigured (some paramsZoomZeroAndFocus)
        (some {})).obj.mFovControlData = 1 := by
  refine ⟨?_, by decide!, by decide!, by decide!, by decide!, by decide!, by decide!⟩
  intro s
  have h := (generateFovControlResult_frame (convertUserZoomToWideAndTele s 0)).1
  have hz : (generateFovControlResult
      (convertUserZoomToWideAndTele s 0)).mFovControlData.zoomWide = 0 :=
    h.2.2.2.2.2.1
  unfold disparityZoom
  rw [hz]
  simp

/-! ## The cut-over factor -/

/-- C26 (code at the failing input): a main camera (wide) whose calibration reports a
sensor width 0 is accepted by `create`; the configuration update succeeds, the field of
view of the tele camera being positive, and leaves the basic FOV ratio and the cut-over
factor at 0, the divisor of `readjustZoomForTele`. -/
theorem cutOverFactor_zero_for_zero_wide_width :
    (create (some capsZeroWideWidth) (some capsAuxTele)).isSome = true ∧
    createdZeroWideWidth.mDualCamParams.paramsMain.sensorStreamWidth = 0 ∧
    isMainCamFovWider createdZeroWideWidth = true ∧
    (updateConfigSettings settingsNoPP createdZeroWideWidth (some paramsPreview)
      (some paramsPreview)).1 = status_t.NO_ERROR ∧
    (updateConfigSettings settingsNoPP createdZeroWideWidth (some paramsPreview)
      (some paramsPreview)).2.mFovControlData.configCompleted = true ∧
    (updateConfigSettings settingsNoPP createdZeroWideWidth (some paramsPreview)
      (some paramsPreview)).2.mFovControlData.basicFovRatio = 0 ∧
    (updateConfigSettings settingsNoPP createdZeroWideWidth (some paramsPreview)
      (some paramsPreview)).2.mFovControlData.transitionParams.cutOverFactor = 0 ∧
    ¬ (0 < (updateConfigSettings settingsNoPP createdZeroWideWidth (some paramsPreview)
      (some paramsPreview)).2.mFovControlData.transitionParams.cutOverFactor) := by
  decide!

end qcamera

namespace qcamera

/-! ## The sign of the cut-over factor -/

/-- When `calculateBasicFovRatio` succeeds, the basic FOV ratio has the sign of the field
of view of the wide camera, which the function does not check. -/
theorem calculateBasicFovRatio_pos (s : QCameraFOVControl)
    (h : (calculateBasicFovRatio s).1 = true) :
    (0 < (calculateBasicFovRatio s).2.mFovControlData.basicFovRatio ↔
      0 < wideFov s.mDualCamParams) ∧
    (calculateBasicFovRatio s).2.mDualCamParams = s.mDualCamParams ∧
    (calculateBasicFovRatio s).2.mFovControlData.camMainWidthMargin =
      s.mFovControlData.camMainWidthMargin ∧
    (calculateBasicFovRatio s).2.mFovControlData.camAuxWidthMargin =
      s.mFovControlData.camAuxWidthMargin ∧
    (calculateBasicFovRatio s).2.mFovControlData.camMainHeightMargin =
      s.mFovControlData.camMainHeightMargin ∧
    (calculateBasicFovRatio s).2.mFovControlData.camAuxHeightMargin =
      s.mFovControlData.camAuxHeightMargin := by
  unfold calculateBasicFovRatio at h ⊢
  unfold wideFov
  simp only [] at h ⊢
  split_ifs at h ⊢ <;> first
    | exact absurd h (by decide)
    | (refine ⟨?_, rfl, rfl, rfl, rfl, rfl⟩
       simp only []
       rw [div_pos_iff_of_pos_right (by assumption)])

/-- When `combineFovAdjustment` succeeds, the cut-over factor has the sign of the basic FOV
ratio. -/
theorem combineFovAdjustment_pos (s : QCameraFOVControl)
    (h : (combineFovAdjustment s).1 = true) :
    (0 < (combineFovAdjustment s).2.mFovControlData.transitionParams.cutOverFactor ↔
      0 < s.mFovControlData.basicFovRatio) := by
  unfold combineFovAdjustment at h ⊢
  simp only [] at h ⊢
  split_ifs at h ⊢ <;> first
    | exact absurd h (by decide)
    | (simp only []
       rw [div_pos_iff_of_pos_right (by assumption)])

/-- The transition parameters are computed from the cut-over factor and leave it alone. -/
theorem updateConfigInitialState_cutOverFactor (s : QCameraFOVControl) :
    (updateConfigInitialState s).mFovControlData.transitionParams.cutOverFactor =
      s.mFovControlData.transitionParams.cutOverFactor := by
  unfold updateConfigInitialState calculateDualCamTransitionParams
  simp only []
  split_ifs <;> rfl

/-- After a successful configuration update the cut-over factor is positive exactly when
the field of view of the wide camera is: the update checks the field of view of the tele
camera and the margin ratio only. -/
theorem updateConfigSettings_cutOverFactor_pos (st : FOVCSettings) (s : QCameraFOVControl)
    (pm pa : Option parm_buffer_t)
    (h : (updateConfigSettings st s pm pa).1 = status_t.NO_ERROR) :
    (0 < (updateConfigSettings st s pm pa).2.mFovControlData.transitionParams.cutOverFactor ↔
      0 < wideFov s.mDualCamParams) := by
  unfold updateConfigSettings at h ⊢
  split at h
  · split at h
    · rename_i i1 i2 _ _
      simp only [] at h ⊢
      split_ifs at h with h1 h2
      · rw [if_pos h1, if_pos h2]
        simp only []
        rw [updateConfigInitialState_cutOverFactor, combineFovAdjustment_pos _ h2,
          (calculateBasicFovRatio_pos _ h1).1]
        rfl
    · simp at h
  · simp at h

end qcamera

namespace qcamera

/-! ## The master selection in TRANSITION -/

/-- The readiness of spatial alignment does not depend on what the first two blocks of a
state-machine update write. -/
theorem isSpatialAlignmentReady_update (s : QCameraFOVControl) (zoom : ℚ) :
    isSpatialAlignmentReady
      { s with
        mFovControlData := updateZoomDirection s.mFovControlData,
        mFovControlResult := updateSnapshotPPFlags s zoom } = isSpatialAlignmentReady s := by
  rw [updateZoomDirection_eq]
  rfl

/-- The exit of the TRANSITION case leaves the masters chosen by the master selection. -/
theorem stateTransition_masters (s : QCameraFOVControl) (zoom : ℚ) :
    (stateTransition s zoom).mFovControlResult.camMasterPreview =
      (transitionMaster s zoom).camMasterPreview ∧
    (stateTransition s zoom).mFovControlResult.camMaster3A =
      (transitionMaster s zoom).camMaster3A := by
  unfold stateTransition
  simp only []
  split_ifs <;> exact ⟨rfl, rfl⟩

/-- The master selection of the TRANSITION case as one expression. -/
theorem transitionMaster_eq (s : QCameraFOVControl) (zoom : ℚ) :
    (transitionMaster s zoom).camMasterPreview =
      (if wideSelected s.mFovControlData zoom = true ∧
          cameraReady s s.mFovControlData.camWide s.mFovControlData.wideCamStreaming = true then
        s.mFovControlData.camWide
      else if wideSelected s.mFovControlData zoom = false ∧
          zoom > s.mFovControlData.transitionParams.cutOverWideToTele ∧
          cameraReady s s.mFovControlData.camTele s.mFovControlData.teleCamStreaming = true then
        s.mFovControlData.camTele
      else s.mFovControlResult.camMasterPreview) ∧
    (transitionMaster s zoom).camMaster3A =
      (if wideSelected s.mFovControlData zoom = true ∧
          cameraReady s s.mFovControlData.camWide s.mFovControlData.wideCamStreaming = true then
        s.mFovControlData.camWide
      else if wideSelected s.mFovControlData zoom = false ∧
          zoom > s.mFovControlData.transitionParams.cutOverWideToTele ∧
          cameraReady s s.mFovControlData.camTele s.mFovControlData.teleCamStreaming = true then
        s.mFovControlData.camTele
      else s.mFovControlResult.camMaster3A) := by
  have hw : wideSelected s.mFovControlData zoom = true ↔
      ((s.mFovControlData.fallbackEnabled = true ∧ s.mFovControlData.fallbackToWide = true) ∨
        zoom < s.mFovControlData.transitionParams.cutOverTeleToWide) := by
    simp [wideSelected]
  have hrw : cameraReady s s.mFovControlData.camWide s.mFovControlData.wideCamStreaming = true ↔
      (if s.mFovControlData.camWide = CAM_TYPE_AUX then
        s.mFovControlData.status3A.aux.afStatus = af_status.AF_VALID ∧
          isSpatialAlignmentReady s = true
      else s.mFovControlData.wideCamStreaming = true) := by
    unfold cameraReady
    split_ifs <;> simp
  have hrt : cameraReady s s.mFovControlData.camTele s.mFovControlData.teleCamStreaming = true ↔
      (if s.mFovControlData.camTele = CAM_TYPE_AUX then
        s.mFovControlData.status3A.aux.afStatus = af_status.AF_VALID ∧
          isSpatialAlignmentReady s = true
      else s.mFovControlData.teleCamStreaming = true) := by
    unfold cameraReady
    split_ifs <;> simp
  simp only [← Bool.not_eq_true, hw, hrw, hrt]
  unfold transitionMaster
  simp only []
  split_ifs <;> simp_all

/-- The master selection of a state-machine update in TRANSITION, in terms of the object
before the update. -/
theorem transitionMaster_update (s : QCameraFOVControl) (zoom : ℚ) :
    transitionMaster
      { s with
        mFovControlData := updateZoomDirection s.mFovControlData,
        mFovControlResult := updateSnapshotPPFlags s zoom } zoom =
    { transitionMaster s zoom with
      snapshotPostProcess := (updateSnapshotPPFlags s zoom).snapshotPostProcess,
      snapshotPostProcessZoomRange :=
        (updateSnapshotPPFlags s zoom).snapshotPostProcessZoomRange } := by
  unfold transitionMaster
  simp only [isSpatialAlignmentReady_update]
  rw [updateZoomDirection_eq]
  simp only []
  unfold updateSnapshotPPFlags
  split_ifs <;> rfl

/-- A configured update in TRANSITION leaves the masters chosen by the master selection on
the object before the update. -/
theorem generateFovControlResult_transition_masters (s : QCameraFOVControl)
    (hcc : s.mFovControlData.configCompleted = true)
    (hst : s.mFovControlData.camState = dual_cam_state.STATE_TRANSITION) :
    (generateFovControlResult s).mFovControlResult.camMasterPreview =
      (transitionMaster s (effectiveZoom s.mFovControlData)).camMasterPreview ∧
    (generateFovControlResult s).mFovControlResult.camMaster3A =
      (transitionMaster s (effectiveZoom s.mFovControlData)).camMaster3A := by
  rw [generateFovControlResult_in_transition s hcc hst]
  have h1 := stateTransition_masters
    { s with
      mFovControlData := updateZoomDirection s.mFovControlData,
      mFovControlResult := updateSnapshotPPFlags s (effectiveZoom s.mFovControlData) }
    (effectiveZoom s.mFovControlData)
  rw [transitionMaster_update] at h1
  exact h1

/-- C31: for a configured update performed in TRANSITION the preview master and the 3A
master become the wide camera if (fallback is enabled and the wide-fallback flag is set, or
the zoom is below `cutOverTeleToWide`) and the wide camera is ready; become the tele camera
if that condition on fallback and zoom is false, the zoom is above `cutOverWideToTele` and
the tele camera is ready; and are unchanged otherwise.  The aux camera is ready when its
autofocus is valid and spatial alignment is ready, the main camera when its streaming flag
is set.  The object is one that the source can hold (`updateInputsValid`): the wide zoom
value indexes the zoom-ratio table, whose first entry, the divisor of the zoom, is not
zero, the thresholds are single-precision values and the brightness and focus readings are
16-bit values; the zoom is the single-precision quotient `effectiveZoom`. -/
theorem transition_master_selection (s : QCameraFOVControl)
    (hcc : s.mFovControlData.configCompleted = true)
    (hst : s.mFovControlData.camState = dual_cam_state.STATE_TRANSITION)
    (_hvalid : updateInputsValid s = true) :
    (generateFovControlResult s).mFovControlResult.camMasterPreview =
      (if wideSelected s.mFovControlData (effectiveZoom s.mFovControlData) = true ∧
          cameraReady s s.mFovControlData.camWide s.mFovControlData.wideCamStreaming = true then
        s.mFovControlData.camWide
      else if wideSelected s.mFovControlData (effectiveZoom s.mFovControlData) = false ∧
          effectiveZoom s.mFovControlData >
            s.mFovControlData.transitionParams.cutOverWideToTele ∧
          cameraReady s s.mFovControlData.camTele s.mFovControlData.teleCamStreaming = true then
        s.mFovControlData.camTele
      else s.mFovControlResult.camMasterPreview) ∧
    (generateFovControlResult s).mFovControlResult.camMaster3A =
      (if wideSelected s.mFovControlData (effectiveZoom s.mFovControlData) = true ∧
          cameraReady s s.mFovControlData.camWide s.mFovControlData.wideCamStreaming = true then
        s.mFovControlData.camWide
      else if wideSelected s.mFovControlData (effectiveZoom s.mFovControlData) = false ∧
          effectiveZoom s.mFovControlData >
            s.mFovControlData.transitionParams.cutOverWideToTele ∧
          cameraReady s s.mFovControlData.camTele s.mFovControlData.teleCamStreaming = true then
        s.mFovControlData.camTele
      else s.mFovControlResult.camMaster3A) := by
  have h1 := generateFovControlResult_transition_masters s hcc hst
  have h2 := transitionMaster_eq s (effectiveZoom s.mFovControlData)
  exact ⟨h1.1.trans h2.1, h1.2.trans h2.2⟩

/-- C31 (witness): in TRANSITION with the zoom moved back to index 0 (zoom 1.0, below the
cut-over 2.0) the wide camera, the main one, is streaming and becomes the master. -/
theorem transition_master_selection_witness :
    floatStateZoomedOut.mFovControlData.configCompleted = true ∧
    floatStateZoomedOut.mFovControlData.camState = dual_cam_state.STATE_TRANSITION ∧
    updateInputsValid floatStateZoomedOut = true ∧
    effectiveZoom floatStateZoomedOut.mFovControlData = 1 ∧
    (generateFovControlResult floatStateZoomedOut).mFovControlResult.camMasterPreview =
      CAM_TYPE_MAIN :=
  ⟨by decide!, by decide!, by decide!, by decide!,
    (transition_master_selection floatStateZoomedOut (by decide!) (by decide!)
      (by decide!)).1.trans (by decide!)⟩

/-! ## The master outside the master selection -/

/-- An update performed in WIDE or in TELE, and an update before the configuration is
complete, leaves the Result as it is up to the snapshot post-process flags, the active
cameras and the validity flag. -/
theorem generateFovControlResult_masters_outside (s : QCameraFOVControl)
    (h : s.mFovControlData.configCompleted = false ∨
      s.mFovControlData.camState = dual_cam_state.STATE_WIDE ∨
      s.mFovControlData.camState = dual_cam_state.STATE_TELE) :
    (generateFovControlResult s).mFovControlResult.camMasterPreview =
      s.mFovControlResult.camMasterPreview ∧
    (generateFovControlResult s).mFovControlResult.camMaster3A =
      s.mFovControlResult.camMaster3A := by
  by_cases hcc : s.mFovControlData.configCompleted = true
  · rcases h with h | h | h
    · rw [hcc] at h
      exact absurd h (by decide)
    · rw [generateFovControlResult_in_wide s hcc h]
      unfold stateWide updateSnapshotPPFlags
      simp only []
      split_ifs <;> exact ⟨rfl, rfl⟩
    · rw [generateFovControlResult_in_tele s hcc h]
      unfold stateTele updateSnapshotPPFlags
      simp only []
      split_ifs <;> exact ⟨rfl, rfl⟩
  · unfold generateFovControlResult
    simp only []
    have hf : s.mFovControlData.configCompleted = false := by
      cases hb : s.mFovControlData.configCompleted
      · rfl
      · exact absurd hb hcc
    rw [if_pos hf]
    exact ⟨rfl, rfl⟩

end qcamera

namespace qcamera

/-! ## Only defined transitions -/

/-- A state-machine update never moves the state directly between WIDE and TELE. -/
theorem generateFovControlResult_no_direct (s : QCameraFOVControl) :
    (s.mFovControlData.camState = dual_cam_state.STATE_WIDE →
      (generateFovControlResult s).mFovControlData.camState ≠ dual_cam_state.STATE_TELE) ∧
    (s.mFovControlData.camState = dual_cam_state.STATE_TELE →
      (generateFovControlResult s).mFovControlData.camState ≠ dual_cam_state.STATE_WIDE) := by
  by_cases hcc : s.mFovControlData.configCompleted = true
  · constructor
    · intro hst
      rw [generateFovControlResult_in_wide s hcc hst]
      unfold stateWide stateWideCounters
      simp only []
      split_ifs <;> simp [updateZoomDirection_camState, hst]
    · intro hst
      rw [generateFovControlResult_in_tele s hcc hst]
      unfold stateTele stateTeleCounters
      simp only []
      split_ifs <;> simp [updateZoomDirection_camState, hst]
  · have hf : s.mFovControlData.configCompleted = false := by
      cases hb : s.mFovControlData.configCompleted
      · rfl
      · exact absurd hb hcc
    have hk : (generateFovControlResult s).mFovControlData.camState =
        s.mFovControlData.camState := by
      unfold generateFovControlResult
      simp only []
      rw [if_pos hf]
    rw [hk]
    constructor <;> intro h <;> rw [h] <;> decide

/-- Every operation leaves the state as it is or as a state-machine update leaves it. -/
theorem step_camStateVia (st : FOVCSettings) (s : QCameraFOVControl) (op : Op) :
    camStateVia s (step st s op) := by
  cases op with
  | updateConfigSettings pm pa => exact Or.inl (updateConfigSettings_camState st s pm pa)
  | getFovControlResult => exact Or.inl rfl
  | processResultMetadata m1 m2 =>
    show camStateVia s (processResultMetadata s m1 m2).obj
    unfold processResultMetadata
    split_ifs
    · exact Or.inr ⟨(processBookKeeping s m1 m2).2, processBookKeeping_camState s m1 m2, rfl⟩
    · exact Or.inl rfl
  | translateInputParams pm pa =>
    show camStateVia s (translateInputParams s pm pa).obj
    unfold translateInputParams
    split
    · rename_i paramsMain _
      simp only []
      cases hzoom : paramsMain.CAM_INTF_PARM_ZOOM with
      | none =>
        simp only []
        split_ifs <;> exact Or.inl rfl
      | some z =>
        simp only []
        split_ifs <;> exact Or.inr ⟨convertUserZoomToWideAndTele s z, rfl, rfl⟩
    · exact Or.inl rfl

/-- C33: a single state-machine update never moves the state directly from WIDE to TELE
or from TELE to WIDE; the configuration update leaves the state as it is, and so do the
book-keeping of the metadata fusion, the zoom conversion and the disparity conversion, so
that every operation leaves the state as it is or as a state-machine update leaves it; no
operation moves the state directly between WIDE and TELE. -/
theorem only_defined_transitions (st : FOVCSettings) (s : QCameraFOVControl) :
    (s.mFovControlData.camState = dual_cam_state.STATE_WIDE →
      (generateFovControlResult s).mFovControlData.camState ≠ dual_cam_state.STATE_TELE) ∧
    (s.mFovControlData.camState = dual_cam_state.STATE_TELE →
      (generateFovControlResult s).mFovControlData.camState ≠ dual_cam_state.STATE_WIDE) ∧
    (∀ pm pa : Option parm_buffer_t,
      (updateConfigSettings st s pm pa).2.mFovControlData.camState =
        s.mFovControlData.camState) ∧
    (∀ m1 m2 : Option metadata_buffer_t,
      (processBookKeeping s m1 m2).2.mFovControlData.camState = s.mFovControlData.camState) ∧
    (∀ z : Nat,
      (convertUserZoomToWideAndTele s z).mFovControlData.camState =
        s.mFovControlData.camState) ∧
    (convertDisparityForInputParams s).mFovControlData.camState = s.mFovControlData.camState ∧
    (∀ op : Op, camStateVia s (step st s op)) ∧
    (∀ op : Op,
      ¬ (s.mFovControlData.camState = dual_cam_state.STATE_WIDE ∧
        (step st s op).mFovControlData.camState = dual_cam_state.STATE_TELE) ∧
      ¬ (s.mFovControlData.camState = dual_cam_state.STATE_TELE ∧
        (step st s op).mFovControlData.camState = dual_cam_state.STATE_WIDE)) := by
  refine ⟨(generateFovControlResult_no_direct s).1, (generateFovControlResult_no_direct s).2,
    updateConfigSettings_camState st s, processBookKeeping_camState s, fun _ => rfl, rfl,
    step_camStateVia st s, ?_⟩
  intro op
  rcases step_camStateVia st s op with h | ⟨u, hu, h⟩
  · rw [h]
    constructor <;> rintro ⟨h1, h2⟩ <;> rw [h1] at h2 <;> exact absurd h2 (by decide)
  · rw [h]
    constructor
    · rintro ⟨h1, h2⟩
      exact (generateFovControlResult_no_direct u).1 (hu.trans h1) h2
    · rintro ⟨h1, h2⟩
      exact (generateFovControlResult_no_direct u).2 (hu.trans h1) h2

/-! ## Readiness of spatial alignment -/

/-- C34: with the OEM bit available, the platform bit set or not, `isSpatialAlignmentReady`
is true iff the preview master of the Result differs from the alignment master hint;
otherwise, with the platform bit available, it is true iff the ready status is non-zero;
with neither bit it is true.  The preview master is a camera type, below 256. -/
theorem spatial_alignment_readiness (s : QCameraFOVControl)
    (hm : s.mFovControlResult.camMasterPreview < 256) :
    (s.mFovControlData.availableSpatialAlignSolns &&& CAM_SPATIAL_ALIGN_OEM ≠ 0 →
      (isSpatialAlignmentReady s = true ↔
        s.mFovControlResult.camMasterPreview ≠
          s.mFovControlData.spatialAlignResult.camMasterHint)) ∧
    (s.mFovControlData.availableSpatialAlignSolns &&& CAM_SPATIAL_ALIGN_OEM = 0 →
      s.mFovControlData.availableSpatialAlignSolns &&& CAM_SPATIAL_ALIGN_QTI ≠ 0 →
      (isSpatialAlignmentReady s = true ↔
        s.mFovControlData.spatialAlignResult.readyStatus ≠ 0)) ∧
    (s.mFovControlData.availableSpatialAlignSolns &&& CAM_SPATIAL_ALIGN_OEM = 0 →
      s.mFovControlData.availableSpatialAlignSolns &&& CAM_SPATIAL_ALIGN_QTI = 0 →
      isSpatialAlignmentReady s = true) := by
  have hmod : s.mFovControlResult.camMasterPreview % 256 = s.mFovControlResult.camMasterPreview :=
    Nat.mod_eq_of_lt hm
  unfold isSpatialAlignmentReady
  simp only [hmod]
  refine ⟨?_, ?_, ?_⟩
  · intro h
    rw [if_pos h]
    split_ifs <;> simp_all
  · intro h1 h2
    rw [if_neg (not_not.mpr h1), if_pos h2]
    split_ifs <;> simp_all
  · intro h1 h2
    rw [if_neg (not_not.mpr h1), if_neg (not_not.mpr h2)]

/-- C34 (witness): with both scheme bits available, the preview master equal to the master
hint and a non-zero ready status, spatial alignment is not ready: the OEM rule decides. -/
theorem spatial_alignment_readiness_witness :
    stateOemHintReached.mFovControlResult.camMasterPreview < 256 ∧
    stateOemHintReached.mFovControlData.availableSpatialAlignSolns &&&
      CAM_SPATIAL_ALIGN_OEM ≠ 0 ∧
    stateOemHintReached.mFovControlData.availableSpatialAlignSolns &&&
      CAM_SPATIAL_ALIGN_QTI ≠ 0 ∧
    stateOemHintReached.mFovControlData.spatialAlignResult.readyStatus ≠ 0 ∧
    ¬ (stateOemHintReached.mFovControlResult.camMasterPreview ≠
      stateOemHintReached.mFovControlData.spatialAlignResult.camMasterHint) ∧
    isSpatialAlignmentReady stateOemHintReached = false :=
  ⟨by decide, by decide, by decide, by decide, by decide,
    by
      have h := (spatial_alignment_readiness stateOemHintReached (by decide)).1 (by decide)
      cases hb : isSpatialAlignmentReady stateOemHintReached
      · rfl
      · exact absurd (h.mp hb) (by decide)⟩

end qcamera

namespace qcamera

/-! ## The tele zoom value against the wide zoom value -/

/-- The ratio handed to `findZoomValue` by `readjustZoomForTele` is at most the ratio of
the wide zoom value when that ratio is below `2^24` and the cut-over factor is at least 1. -/
theorem teleRatio_le (r : Nat) (c : ℚ) (hc : 1 ≤ c) (hr : r < FLOAT_EXACT_LIMIT) :
    floatToUint32 (floatRound (floatRound (r : ℚ) / c)) ≤ r := by
  unfold floatToUint32
  rw [floatRound_natCast r hr]
  have h1 : (r : ℚ) / c ≤ (r : ℚ) := div_le_self (Nat.cast_nonneg r) hc
  have h0 : (0 : ℚ) ≤ (r : ℚ) / c :=
    div_nonneg (Nat.cast_nonneg r) (le_trans zero_le_one hc)
  have h2 : floatRound ((r : ℚ) / c) ≤ (r : ℚ) := by
    have := floatRound_mono _ _ h0 h1
    rwa [floatRound_natCast r hr] at this
  have h3 : ⌊floatRound ((r : ℚ) / c)⌋ ≤ (r : Int) := by
    have h4 : ⌊floatRound ((r : ℚ) / c)⌋ ≤ ⌊(r : ℚ)⌋ := Int.floor_mono h2
    rwa [Int.floor_natCast] at h4
  have h5 : Int.toNat ⌊floatRound ((r : ℚ) / c)⌋ ≤ r := by
    have h6 := Int.toNat_le_toNat h3
    simpa using h6
  exact le_trans (Nat.mod_le _ _) h5

/-- The ratio handed to `findZoomValue` by `readjustZoomForTele` grows with the ratio of
the wide zoom value, for ratios below `2^24` and a cut-over factor of at least 1. -/
theorem teleRatio_mono (r1 r2 : Nat) (c : ℚ) (hc : 1 ≤ c) (h : r1 ≤ r2)
    (h24 : r2 < FLOAT_EXACT_LIMIT) :
    floatToUint32 (floatRound (floatRound (r1 : ℚ) / c)) ≤
      floatToUint32 (floatRound (floatRound (r2 : ℚ) / c)) := by
  have hc0 : (0 : ℚ) < c := lt_of_lt_of_le one_pos hc
  have hb : ∀ r : Nat, r < FLOAT_EXACT_LIMIT →
      floatToUint32 (floatRound (floatRound (r : ℚ) / c)) =
        Int.toNat ⌊floatRound ((r : ℚ) / c)⌋ := by
    intro r hr
    have h7 := teleRatio_le r c hc hr
    unfold floatToUint32 at h7 ⊢
    rw [floatRound_natCast r hr] at h7 ⊢
    have h8 : Int.toNat ⌊floatRound ((r : ℚ) / c)⌋ < UINT32_MOD := by
      by_contra hcon
      push_neg at hcon
      have h9 : Int.toNat ⌊floatRound ((r : ℚ) / c)⌋ ≤ r := by
        have h1 : (r : ℚ) / c ≤ (r : ℚ) := div_le_self (Nat.cast_nonneg r) hc
        have h0 : (0 : ℚ) ≤ (r : ℚ) / c := div_nonneg (Nat.cast_nonneg r) hc0.le
        have h2 : floatRound ((r : ℚ) / c) ≤ (r : ℚ) := by
          have := floatRound_mono _ _ h0 h1
          rwa [floatRound_natCast r hr] at this
        have h4 : ⌊floatRound ((r : ℚ) / c)⌋ ≤ ⌊(r : ℚ)⌋ := Int.floor_mono h2
        rw [Int.floor_natCast] at h4
        have h6 := Int.toNat_le_toNat h4
        simpa using h6
      unfold FLOAT_EXACT_LIMIT at hr
      unfold UINT32_MOD at hcon
      omega
    exact Nat.mod_eq_of_lt h8
  rw [hb r1 (lt_of_le_of_lt h h24), hb r2 h24]
  apply Int.toNat_le_toNat
  apply Int.floor_mono
  apply floatRound_mono
  · exact div_nonneg (Nat.cast_nonneg r1) hc0.le
  · exact div_le_div_of_nonneg_right (by exact_mod_cast h) hc0.le

/-- C38 (counterexample): on the table [16777219, 16777220] with cut-over factor 1 the
conversion of the ratio of index 0 to `float` rounds it to 16777220, the ratio of index 1:
the tele index of wide index 0 is 1. -/
theorem tele_index_above_wide_index :
    0 < largeRatioTable.zoomRatioTableCount ∧
    (1 : ℚ) ≤ largeRatioTable.transitionParams.cutOverFactor ∧
    findZoomRatio largeRatioTable 0 ≤ findZoomRatio largeRatioTable 1 ∧
    floatRound (findZoomRatio largeRatioTable 0 : ℚ) = 16777220 ∧
    readjustZoomForTele largeRatioTable 0 = 1 ∧
    ¬ (readjustZoomForTele largeRatioTable 0 ≤ 0) := by
  refine ⟨by decide, by decide!, by decide, by decide!, by decide!, by decide!⟩

/-- C38 (amended): for a table whose ratios are below `2^24`, a wide zoom value `i` inside
the table and a cut-over factor of at least 1, `readjustZoomForTele i` is an index inside
the table and at most `i`; and when the table is non-decreasing, `readjustZoomForTele` is
monotone non-decreasing over the indices inside the table. -/
theorem tele_index_at_most_wide_index (d : fov_control_data_t)
    (hc : 1 ≤ d.transitionParams.cutOverFactor)
    (hrange : ∀ a, a < d.zoomRatioTableCount → findZoomRatio d a < FLOAT_EXACT_LIMIT) :
    (∀ i, i < d.zoomRatioTableCount →
      readjustZoomForTele d i < d.zoomRatioTableCount ∧ readjustZoomForTele d i ≤ i) ∧
    ((∀ a b, a ≤ b → b < d.zoomRatioTableCount → findZoomRatio d a ≤ findZoomRatio d b) →
      ∀ i j, i ≤ j → j < d.zoomRatioTableCount →
        readjustZoomForTele d i ≤ readjustZoomForTele d j) := by
  have hfirst : ∀ i, i < d.zoomRatioTableCount →
      readjustZoomForTele d i < d.zoomRatioTableCount ∧
      floatToUint32 (floatRound (floatRound (findZoomRatio d i : ℚ) /
          d.transitionParams.cutOverFactor)) ≤
        findZoomRatio d (readjustZoomForTele d i) ∧
      ∀ j, j < readjustZoomForTele d i →
        findZoomRatio d j <
          floatToUint32 (floatRound (floatRound (findZoomRatio d i : ℚ) /
            d.transitionParams.cutOverFactor)) := by
    intro i hi
    exact findZoomValue_first d _ ⟨i, hi, teleRatio_le _ _ hc (hrange i hi)⟩
  constructor
  · intro i hi
    obtain ⟨h1, _, h3⟩ := hfirst i hi
    refine ⟨h1, ?_⟩
    by_contra hlt
    have h4 := h3 i (not_le.mp hlt)
    exact absurd (teleRatio_le (findZoomRatio d i) _ hc (hrange i hi)) (not_le.mpr h4)
  · intro hmono i j hij hj
    obtain ⟨_, _, h3⟩ := hfirst i (lt_of_le_of_lt hij hj)
    obtain ⟨_, h5, _⟩ := hfirst j hj
    by_contra hlt
    have h7 := h3 (readjustZoomForTele d j) (not_le.mp hlt)
    have h8 := teleRatio_mono (findZoomRatio d i) (findZoomRatio d j)
      d.transitionParams.cutOverFactor hc (hmono i j hij hj) (hrange j hj)
    exact absurd (le_trans h8 h5) (not_le.mpr h7)

/-- C38 (witness): on the table of Scenario A with cut-over factor 2 the tele zoom values
of the indices 0 to 5 are 0, 0, 0, 0, 2 and 3. -/
theorem tele_index_at_most_wide_index_witness :
    (1 : ℚ) ≤ scenarioTable.transitionParams.cutOverFactor ∧
    (List.range 6).map (readjustZoomForTele scenarioTable) = [0, 0, 0, 0, 2, 3] ∧
    readjustZoomForTele scenarioTable 4 < scenarioTable.zoomRatioTableCount ∧
    readjustZoomForTele scenarioTable 4 ≤ 4 :=
  ⟨by decide!, by decide!,
    ((tele_index_at_most_wide_index scenarioTable (by decide!) scenarioTable_range).1 4
      (by decide)).1,
    ((tele_index_at_most_wide_index scenarioTable (by decide!) scenarioTable_range).1 4
      (by decide)).2⟩

end qcamera

namespace qcamera

/-! ## The invariant of the masters along a run -/

/-- The master selection keeps both masters, or makes the wide camera both masters, or
makes the tele camera both masters. -/
theorem transitionMaster_cases (s : QCameraFOVControl) (zoom : ℚ) :
    ((transitionMaster s zoom).camMasterPreview = s.mFovControlResult.camMasterPreview ∧
      (transitionMaster s zoom).camMaster3A = s.mFovControlResult.camMaster3A) ∨
    ((transitionMaster s zoom).camMasterPreview = s.mFovControlData.camWide ∧
      (transitionMaster s zoom).camMaster3A = s.mFovControlData.camWide) ∨
    ((transitionMaster s zoom).camMasterPreview = s.mFovControlData.camTele ∧
      (transitionMaster s zoom).camMaster3A = s.mFovControlData.camTele) := by
  unfold transitionMaster
  simp only []
  split_ifs
  all_goals first
    | exact Or.inl ⟨rfl, rfl⟩
    | exact Or.inr (Or.inl ⟨rfl, rfl⟩)
    | exact Or.inr (Or.inr ⟨rfl, rfl⟩)

/-- A state-machine update keeps both masters, or makes the wide camera both masters, or
makes the tele camera both masters. -/
theorem generateFovControlResult_masters_cases (s : QCameraFOVControl) :
    ((generateFovControlResult s).mFovControlResult.camMasterPreview =
        s.mFovControlResult.camMasterPreview ∧
      (generateFovControlResult s).mFovControlResult.camMaster3A =
        s.mFovControlResult.camMaster3A) ∨
    ((generateFovControlResult s).mFovControlResult.camMasterPreview =
        s.mFovControlData.camWide ∧
      (generateFovControlResult s).mFovControlResult.camMaster3A = s.mFovControlData.camWide) ∨
    ((generateFovControlResult s).mFovControlResult.camMasterPreview =
        s.mFovControlData.camTele ∧
      (generateFovControlResult s).mFovControlResult.camMaster3A = s.mFovControlData.camTele) := by
  by_cases hcc : s.mFovControlData.configCompleted = true
  · cases hst : s.mFovControlData.camState with
    | STATE_WIDE =>
      exact Or.inl (generateFovControlResult_masters_outside s (Or.inr (Or.inl hst)))
    | STATE_TELE =>
      exact Or.inl (generateFovControlResult_masters_outside s (Or.inr (Or.inr hst)))
    | STATE_TRANSITION =>
      have h1 := generateFovControlResult_transition_masters s hcc hst
      rw [h1.1, h1.2]
      exact transitionMaster_cases s _
  · have hf : s.mFovControlData.configCompleted = false := by
      cases hb : s.mFovControlData.configCompleted
      · rfl
      · exact absurd hb hcc
    exact Or.inl (generateFovControlResult_masters_outside s (Or.inl hf))

/-- A state-machine update keeps the invariant of the masters. -/
theorem generateFovControlResult_masterInvariant (s : QCameraFOVControl)
    (hs : masterInvariant s) : masterInvariant (generateFovControlResult s) := by
  obtain ⟨hr, hm, h3, ha⟩ := hs
  have hk := generateFovControlResult_rolesKept s
  have hu := (generateFovControlResult_frame s).1
  have hsar : (generateFovControlResult s).mFovControlData.spatialAlignResult =
      s.mFovControlData.spatialAlignResult := hu.2.2.2.1
  unfold masterInvariant
  rw [hk.1, hk.2.1, hsar]
  refine ⟨hr, ?_, ?_, ha⟩
  · rcases generateFovControlResult_masters_cases s with h | h | h
    · rw [h.1]
      exact hm
    · rw [h.1]
      rcases hr with hr | hr
      · exact Or.inl hr.1
      · exact Or.inr hr.1
    · rw [h.1]
      rcases hr with hr | hr
      · exact Or.inr hr.2
      · exact Or.inl hr.2
  · rcases generateFovControlResult_masters_cases s with h | h | h
    · rw [h.1, h.2]
      exact h3
    · rw [h.1, h.2]
    · rw [h.1, h.2]

theorem bookKeepSacOutput_alignActive (d : fov_control_data_t) (masterCam : Nat)
    (sac : cam_sac_output_info_t) :
    (bookKeepSacOutput d masterCam sac).2.spatialAlignResult.activeCameras =
      d.spatialAlignResult.activeCameras := by
  unfold bookKeepSacOutput
  simp only []
  repeat' split
  all_goals rfl

theorem bookKeepMaster_alignActive (s : QCameraFOVControl)
    (metaMain metaAux : Option metadata_buffer_t) :
    (bookKeepMaster s metaMain metaAux).2.spatialAlignResult.activeCameras =
      s.mFovControlData.spatialAlignResult.activeCameras := by
  unfold bookKeepMaster
  simp only []
  split
  · exact bookKeepSacOutput_alignActive _ _ _
  · rfl

theorem bookKeepShiftMain_alignActive (w : Bool) (m : Option metadata_buffer_t)
    (d : fov_control_data_t) :
    (bookKeepShiftMain w m d).spatialAlignResult.activeCameras =
      d.spatialAlignResult.activeCameras := by
  unfold bookKeepShiftMain
  split
  · split_ifs <;> rfl
  · rfl

theorem bookKeepShiftAux_alignActive (w : Bool) (m : Option metadata_buffer_t)
    (d : fov_control_data_t) :
    (bookKeepShiftAux w m d).spatialAlignResult.activeCameras =
      d.spatialAlignResult.activeCameras := by
  unfold bookKeepShiftAux
  split
  · split_ifs <;> rfl
  · rfl

theorem bookKeepLowPower_alignActive (masterCam : Nat) (m1 m2 : Option metadata_buffer_t)
    (d : fov_control_data_t) :
    (bookKeepLowPower masterCam m1 m2 d).spatialAlignResult.activeCameras =
        d.spatialAlignResult.activeCameras ∨
      (bookKeepLowPower masterCam m1 m2 d).spatialAlignResult.activeCameras = masterCam := by
  unfold bookKeepLowPower
  simp only []
  by_cases h : d.availableSpatialAlignSolns &&& CAM_SPATIAL_ALIGN_OEM ≠ 0
  · rw [if_pos h]
    split
    · split_ifs
      · exact Or.inr rfl
      · exact Or.inl rfl
    · exact Or.inl rfl
  · rw [if_neg h]
    exact Or.inl rfl

theorem bookKeepAfMain_alignActive (m : Option metadata_buffer_t) (d : fov_control_data_t) :
    (bookKeepAfMain m d).spatialAlignResult.activeCameras =
      d.spatialAlignResult.activeCameras := by
  unfold bookKeepAfMain
  split <;> rfl

theorem bookKeepAfAux_alignActive (m : Option metadata_buffer_t) (d : fov_control_data_t) :
    (bookKeepAfAux m d).spatialAlignResult.activeCameras =
      d.spatialAlignResult.activeCameras := by
  unfold bookKeepAfAux
  split <;> rfl

/-- The book-keeping of `processResultMetadata` keeps the alignment active set or replaces
it by the master of the frame. -/
theorem processBookKeeping_alignActive (s : QCameraFOVControl)
    (metaMain metaAux : Option metadata_buffer_t) :
    (processBookKeeping s metaMain metaAux).2.mFovControlData.spatialAlignResult.activeCameras =
        s.mFovControlData.spatialAlignResult.activeCameras ∨
      (processBookKeeping s metaMain metaAux).2.mFovControlData.spatialAlignResult.activeCameras =
        specFusionMaster s metaMain metaAux := by
  have hm := processBookKeeping_fst s metaMain metaAux
  unfold processBookKeeping at hm ⊢
  simp only [] at hm ⊢
  have h0 : (bookKeepStreaming (isMainCamFovWider s) metaMain metaAux
      (bookKeepAfAux metaAux
        (bookKeepAfMain metaMain
          (bookKeepLowPower (bookKeepMaster s metaMain metaAux).1 metaMain metaAux
            (bookKeepShiftAux (isMainCamFovWider s) metaAux
              (bookKeepShiftMain (isMainCamFovWider s) metaMain
                (bookKeepMaster s metaMain metaAux).2)))))).spatialAlignResult.activeCameras =
      (bookKeepLowPower (bookKeepMaster s metaMain metaAux).1 metaMain metaAux
        (bookKeepShiftAux (isMainCamFovWider s) metaAux
          (bookKeepShiftMain (isMainCamFovWider s) metaMain
            (bookKeepMaster s metaMain metaAux).2))).spatialAlignResult.activeCameras := by
    show (bookKeepAfAux _ _).spatialAlignResult.activeCameras = _
    rw [bookKeepAfAux_alignActive, bookKeepAfMain_alignActive]
  rw [h0]
  rcases bookKeepLowPower_alignActive (bookKeepMaster s metaMain metaAux).1 metaMain metaAux
      (bookKeepShiftAux (isMainCamFovWider s) metaAux
        (bookKeepShiftMain (isMainCamFovWider s) metaMain
          (bookKeepMaster s metaMain metaAux).2)) with h | h
  · left
    rw [h, bookKeepShiftAux_alignActive, bookKeepShiftMain_alignActive,
      bookKeepMaster_alignActive]
  · right
    rw [h, hm]

/-- The master of a fusion call is the preview master of the Result, the wide camera or
the tele camera. -/
theorem specFusionMaster_cases (s : QCameraFOVControl)
    (metaMain metaAux : Option metadata_buffer_t) :
    specFusionMaster s metaMain metaAux = s.mFovControlResult.camMasterPreview ∨
    specFusionMaster s metaMain metaAux = s.mFovControlData.camWide ∨
    specFusionMaster s metaMain metaAux = s.mFovControlData.camTele := by
  unfold specFusionMaster
  split
  · split_ifs
    · exact Or.inr (Or.inl rfl)
    · exact Or.inr (Or.inr rfl)
    · exact Or.inl rfl
  · exact Or.inl rfl

/-- Under the invariant of the masters the master of a fusion call is a physical
camera. -/
theorem specFusionMaster_physical (s : QCameraFOVControl)
    (metaMain metaAux : Option metadata_buffer_t) (hs : masterInvariant s) :
    specFusionMaster s metaMain metaAux = CAM_TYPE_MAIN ∨
    specFusionMaster s metaMain metaAux = CAM_TYPE_AUX := by
  obtain ⟨hr, hm, _, _⟩ := hs
  rcases specFusionMaster_cases s metaMain metaAux with h | h | h
  · rw [h]
    exact hm
  · rw [h]
    rcases hr with hr | hr
    · exact Or.inl hr.1
    · exact Or.inr hr.1
  · rw [h]
    rcases hr with hr | hr
    · exact Or.inr hr.2
    · exact Or.inl hr.2

/-- The book-keeping of `processResultMetadata` keeps the invariant of the masters. -/
theorem processBookKeeping_masterInvariant (s : QCameraFOVControl)
    (metaMain metaAux : Option metadata_buffer_t) (hs : masterInvariant s) :
    masterInvariant (processBookKeeping s metaMain metaAux).2 := by
  have hp := specFusionMaster_physical s metaMain metaAux hs
  obtain ⟨hr, hm, h3, ha⟩ := hs
  obtain ⟨hk, hres⟩ := processBookKeeping_frame s metaMain metaAux
  unfold masterInvariant
  rw [hk.1, hk.2.1, hres]
  refine ⟨hr, hm, h3, ?_⟩
  rcases processBookKeeping_alignActive s metaMain metaAux with h | h
  · rw [h]
    exact ha
  · rw [h]
    exact Or.inr hp

theorem processResultMetadata_masterInvariant (s : QCameraFOVControl)
    (m1 m2 : Option metadata_buffer_t) (hs : masterInvariant s) :
    masterInvariant (processResultMetadata s m1 m2).obj := by
  unfold processResultMetadata
  split_ifs
  · exact generateFovControlResult_masterInvariant _
      (processBookKeeping_masterInvariant s m1 m2 hs)
  · exact hs

theorem translateInputParams_masterInvariant (s : QCameraFOVControl)
    (pm pa : Option parm_buffer_t) (hs : masterInvariant s) :
    masterInvariant (translateInputParams s pm pa).obj := by
  have hz : ∀ z : Nat,
      masterInvariant (generateFovControlResult (convertUserZoomToWideAndTele s z)) := by
    intro z
    exact generateFovControlResult_masterInvariant _ hs
  have hd : ∀ t : QCameraFOVControl, masterInvariant t →
      masterInvariant (convertDisparityForInputParams t) := by
    intro t ht
    exact ht
  unfold translateInputParams
  split
  · rename_i paramsMain _
    simp only []
    cases hzoom : paramsMain.CAM_INTF_PARM_ZOOM with
    | none =>
      simp only []
      split_ifs
      · exact hd s hs
      · exact hs
    | some z =>
      simp only []
      split_ifs
      all_goals exact hd _ (hz z)
  · exact hs

/-- The initial masters and alignment active set chosen by a successful configuration
update: all three the tele camera, or all three the wide camera. -/
theorem updateConfigInitialState_masters (s : QCameraFOVControl) :
    ((updateConfigInitialState s).mFovControlResult.camMasterPreview = s.mFovControlData.camTele ∧
      (updateConfigInitialState s).mFovControlResult.camMaster3A = s.mFovControlData.camTele ∧
      (updateConfigInitialState s).mFovControlData.spatialAlignResult.activeCameras =
        s.mFovControlData.camTele) ∨
    ((updateConfigInitialState s).mFovControlResult.camMasterPreview = s.mFovControlData.camWide ∧
      (updateConfigInitialState s).mFovControlResult.camMaster3A = s.mFovControlData.camWide ∧
      (updateConfigInitialState s).mFovControlData.spatialAlignResult.activeCameras =
        s.mFovControlData.camWide) := by
  have h := (calculateDualCamTransitionParams_frame s).1
  unfold updateConfigInitialState
  simp only []
  split_ifs
  · exact Or.inl ⟨h.2.1, h.2.1, h.2.1⟩
  · exact Or.inr ⟨h.1, h.1, h.1⟩

/-- An object with the roles and the masters of an object that satisfies the invariant of
the masters, and an alignment active set of one physical camera, satisfies it. -/
theorem masterInvariant_of_frame {s t : QCameraFOVControl} (hs : masterInvariant s)
    (hk : rolesKept s.mFovControlData t.mFovControlData)
    (hres : t.mFovControlResult = s.mFovControlResult)
    (ha : t.mFovControlData.spatialAlignResult.activeCameras = CAM_TYPE_MAIN) :
    masterInvariant t := by
  obtain ⟨hr, hm, h3, _⟩ := hs
  unfold masterInvariant
  rw [hk.1, hk.2.1, hres, ha]
  exact ⟨hr, hm, h3, Or.inr (Or.inl rfl)⟩

/-- A configuration update, successful or not, keeps the invariant of the masters. -/
theorem updateConfigSettings_masterInvariant (st : FOVCSettings) (s : QCameraFOVControl)
    (pm pa : Option parm_buffer_t) (hs : masterInvariant s) :
    masterInvariant (updateConfigSettings st s pm pa).2 := by
  have hbasic : ∀ t : QCameraFOVControl,
      (calculateBasicFovRatio t).2.mFovControlData.spatialAlignResult =
        t.mFovControlData.spatialAlignResult := by
    intro t
    unfold calculateBasicFovRatio
    simp only []
    split_ifs <;> rfl
  have hcomb : ∀ t : QCameraFOVControl,
      (combineFovAdjustment t).2.mFovControlData.spatialAlignResult =
        t.mFovControlData.spatialAlignResult := by
    intro t
    unfold combineFovAdjustment
    simp only []
    split_ifs <;> rfl
  unfold updateConfigSettings
  split
  · split
    · rename_i i1 i2 _ _
      simp only []
      obtain ⟨hk0, hr0⟩ := updateConfigReset_frame st s i1 i2
      obtain ⟨hk1, hr1⟩ := calculateBasicFovRatio_frame (updateConfigReset st s i1 i2)
      obtain ⟨hk2, hr2⟩ := combineFovAdjustment_frame
        (calculateBasicFovRatio (updateConfigReset st s i1 i2)).2
      have ha0 : (updateConfigReset st s i1 i2).mFovControlData.spatialAlignResult.activeCameras =
          CAM_TYPE_MAIN := rfl
      have h1 : masterInvariant (calculateBasicFovRatio (updateConfigReset st s i1 i2)).2 :=
        masterInvariant_of_frame hs (rolesKept_trans hk0 hk1) (hr1.trans hr0)
          (by rw [hbasic]; exact ha0)
      have h2 : masterInvariant
          (combineFovAdjustment (calculateBasicFovRatio (updateConfigReset st s i1 i2)).2).2 :=
        masterInvariant_of_frame h1 hk2 hr2 (by rw [hcomb, hbasic]; exact ha0)
      split_ifs
      · obtain ⟨hr, _, _, _⟩ := h2
        obtain ⟨hw, ht, _, _⟩ := updateConfigInitialState_frame
          (combineFovAdjustment (calculateBasicFovRatio (updateConfigReset st s i1 i2)).2).2
        unfold masterInvariant
        rw [hw, ht]
        rcases updateConfigInitialState_masters
          (combineFovAdjustment (calculateBasicFovRatio (updateConfigReset st s i1 i2)).2).2
          with h | h
        · rw [h.1, h.2.1, h.2.2]
          refine ⟨hr, ?_, rfl, ?_⟩
          · rcases hr with hr | hr
            · exact Or.inr hr.2
            · exact Or.inl hr.2
          · rcases hr with hr | hr
            · exact Or.inr (Or.inr hr.2)
            · exact Or.inr (Or.inl hr.2)
        · rw [h.1, h.2.1, h.2.2]
          refine ⟨hr, ?_, rfl, ?_⟩
          · rcases hr with hr | hr
            · exact Or.inl hr.1
            · exact Or.inr hr.1
          · rcases hr with hr | hr
            · exact Or.inr (Or.inl hr.1)
            · exact Or.inr (Or.inr hr.1)
      · exact h2
      · exact h1
    · exact hs
  · exact hs

theorem step_masterInvariant (st : FOVCSettings) (s : QCameraFOVControl) (op : Op)
    (hs : masterInvariant s) : masterInvariant (step st s op) := by
  cases op with
  | updateConfigSettings pm pa => exact updateConfigSettings_masterInvariant st s pm pa hs
  | translateInputParams pm pa => exact translateInputParams_masterInvariant s pm pa hs
  | processResultMetadata m1 m2 => exact processResultMetadata_masterInvariant s m1 m2 hs
  | getFovControlResult => exact hs

/-- The invariant of the masters holds along every run. -/
theorem run_masterInvariant (st : FOVCSettings) (ops : List Op) :
    ∀ s : QCameraFOVControl, masterInvariant s → masterInvariant (run st s ops) := by
  induction ops with
  | nil => intro s hs; exact hs
  | cons op rest ih =>
    intro s hs
    exact ih (step st s op) (step_masterInvariant st s op hs)

/-- A created object satisfies the invariant of the masters: both masters are the main
camera and the alignment active set is empty. -/
theorem create_masterInvariant (capsMainCam capsAuxCam : Option cam_capability_t)
    (s : QCameraFOVControl) (h : create capsMainCam capsAuxCam = some s) :
    masterInvariant s := by
  have hinv := (create_fovInvariant capsMainCam capsAuxCam s h).1.1
  have hv : ∀ a b : cam_capability_t,
      (validateAndExtractParameters QCameraFOVControl.new
        (some a) (some b)).2.mFovControlData.spatialAlignResult.activeCameras = 0 := by
    intro a b
    unfold validateAndExtractParameters
    simp only []
    split_ifs <;> rfl
  refine ⟨hinv, ?_⟩
  unfold create at h
  split at h
  · rename_i capsMain capsAux
    simp only [] at h
    split_ifs at h
    all_goals
      injection h with h
      subst h
      exact ⟨Or.inl rfl, rfl, Or.inl (hv capsMain capsAux)⟩
  · exact absurd h (by simp)

end qcamera

namespace qcamera

/-! ## Consequences of the invariant of the masters -/

/-- With both metadata containers and a master of the frame that is a physical camera,
the returned container carries the consolidated autofocus state. -/
theorem processResultMetadata_af_written (s : QCameraFOVControl)
    (mainBuf auxBuf : metadata_buffer_t)
    (h : specFusionMaster s (some mainBuf) (some auxBuf) = CAM_TYPE_MAIN ∨
      specFusionMaster s (some mainBuf) (some auxBuf) = CAM_TYPE_AUX) :
    (returnedBuffer (processResultMetadata s (some mainBuf) (some auxBuf))).bind
        (fun mb => mb.CAM_INTF_META_AF_STATE) =
      some (consolidateAfState (reportedAfState (some mainBuf))
        (reportedAfState (some auxBuf))) := by
  rw [← processBookKeeping_fst] at h
  unfold processResultMetadata returnedBuffer reportedAfState
  simp only [Option.isSome_some, or_self, if_true, and_true, true_and]
  have hne : ¬ CAM_TYPE_MAIN = CAM_TYPE_AUX := by decide
  rcases h with h | h
  · simp [h, hne]
  · simp [h]

/-- The exit of a configured update in TRANSITION whose post-process flag is false, when
the alignment active set is not both cameras. -/
theorem transition_exit_without_both (s : QCameraFOVControl)
    (hcc : s.mFovControlData.configCompleted = true)
    (hst : s.mFovControlData.camState = dual_cam_state.STATE_TRANSITION)
    (hpp : (updateSnapshotPPFlags s (effectiveZoom s.mFovControlData)).snapshotPostProcess =
      false)
    (hb : s.mFovControlData.spatialAlignResult.activeCameras ≠
      (s.mFovControlData.camWide ||| s.mFovControlData.camTele)) :
    (generateFovControlResult s).mFovControlData.camState =
      (if effectiveZoom s.mFovControlData < s.mFovControlData.transitionParams.transitionLow then
        dual_cam_state.STATE_WIDE
      else if effectiveZoom s.mFovControlData >
          s.mFovControlData.transitionParams.transitionHigh then
        dual_cam_state.STATE_TELE
      else dual_cam_state.STATE_TRANSITION) := by
  rw [generateFovControlResult_in_transition s hcc hst]
  unfold stateTransition
  simp only [transitionMaster_snapshotPostProcess, hpp, updateZoomDirection_eq]
  split_ifs <;> simp_all

/-- Under the invariant of the masters the alignment active set is not both cameras. -/
theorem masterInvariant_not_both (s : QCameraFOVControl) (hs : masterInvariant s) :
    s.mFovControlData.spatialAlignResult.activeCameras ≠
      (s.mFovControlData.camWide ||| s.mFovControlData.camTele) := by
  obtain ⟨hr, _, _, ha⟩ := hs
  rcases hr with ⟨h1, h2⟩ | ⟨h1, h2⟩ <;> rw [h1, h2] <;>
    rcases ha with h | h | h <;> rw [h] <;> decide

/-- C37: in every object of a run from `create` the alignment active set is empty, the
main camera or the aux camera, never both cameras; hence, for every object whose alignment
active set is not both cameras (every object of a run, by the first part), a configured
update in TRANSITION whose snapshot post-process flag is false exits to WIDE when the zoom
is below `transitionLow`, and otherwise to TELE when the zoom is above `transitionHigh` (in
particular whenever `transitionLow` is at most `transitionHigh`).  For the exits the
object is one that the source can hold (`updateInputsValid`): the wide zoom value indexes
the zoom-ratio table, whose first entry, the divisor of the zoom, is not zero, the
thresholds are single-precision values and the brightness and focus readings are 16-bit
values; the zoom is the single-precision quotient `effectiveZoom`. -/
theorem alignment_active_set_never_both (st : FOVCSettings)
    (capsMainCam capsAuxCam : Option cam_capability_t) (s0 : QCameraFOVControl)
    (hcreate : create capsMainCam capsAuxCam = some s0) (ops : List Op) :
    ((run st s0 ops).mFovControlData.spatialAlignResult.activeCameras = 0 ∨
      (run st s0 ops).mFovControlData.spatialAlignResult.activeCameras = CAM_TYPE_MAIN ∨
      (run st s0 ops).mFovControlData.spatialAlignResult.activeCameras = CAM_TYPE_AUX) ∧
    (run st s0 ops).mFovControlData.spatialAlignResult.activeCameras ≠
      ((run st s0 ops).mFovControlData.camWide ||| (run st s0 ops).mFovControlData.camTele) ∧
    (∀ s : QCameraFOVControl,
      s.mFovControlData.spatialAlignResult.activeCameras ≠
        (s.mFovControlData.camWide ||| s.mFovControlData.camTele) →
      s.mFovControlData.configCompleted = true →
      s.mFovControlData.camState = dual_cam_state.STATE_TRANSITION →
      (updateSnapshotPPFlags s (effectiveZoom s.mFovControlData)).snapshotPostProcess =
        false →
      updateInputsValid s = true →
      (effectiveZoom s.mFovControlData < s.mFovControlData.transitionParams.transitionLow →
        (generateFovControlResult s).mFovControlData.camState =
          dual_cam_state.STATE_WIDE) ∧
      (¬ effectiveZoom s.mFovControlData < s.mFovControlData.transitionParams.transitionLow →
        effectiveZoom s.mFovControlData > s.mFovControlData.transitionParams.transitionHigh →
        (generateFovControlResult s).mFovControlData.camState =
          dual_cam_state.STATE_TELE) ∧
      (s.mFovControlData.transitionParams.transitionLow ≤
          s.mFovControlData.transitionParams.transitionHigh →
        effectiveZoom s.mFovControlData > s.mFovControlData.transitionParams.transitionHigh →
        (generateFovControlResult s).mFovControlData.camState =
          dual_cam_state.STATE_TELE)) := by
  have hinv := run_masterInvariant st ops s0 (create_masterInvariant _ _ s0 hcreate)
  have hb := masterInvariant_not_both _ hinv
  refine ⟨hinv.2.2.2, hb, ?_⟩
  intro s hs hcc hst hpp _
  have hx := transition_exit_without_both s hcc hst hpp hs
  refine ⟨?_, ?_, ?_⟩
  · intro h
    rw [hx, if_pos h]
  · intro h1 h2
    rw [hx, if_neg h1, if_pos h2]
  · intro hle h2
    have h1 : ¬ effectiveZoom s.mFovControlData <
        s.mFovControlData.transitionParams.transitionLow :=
      not_lt.mpr (le_trans hle (le_of_lt h2))
    rw [hx, if_neg h1, if_pos h2]

/-- C37 (witness): the run that enters TRANSITION at zoom 2.0 and then moves the zoom back
to index 0: the alignment active set is the main camera, and the update at zoom 1.0, below
`transitionLow` (1.7 in single precision), exits to WIDE. -/
theorem alignment_active_set_never_both_witness :
    create (some capsMainWide) (some capsAuxTele) = some createdMainWide ∧
    (run settingsNoPP createdMainWide
      (opsReconfigureInTransition.take 3)).mFovControlData.spatialAlignResult.activeCameras =
      CAM_TYPE_MAIN ∧
    (run settingsNoPP createdMainWide
      (opsReconfigureInTransition.take 3)).mFovControlData.spatialAlignResult.activeCameras ≠
      ((run settingsNoPP createdMainWide
          (opsReconfigureInTransition.take 3)).mFovControlData.camWide |||
        (run settingsNoPP createdMainWide
          (opsReconfigureInTransition.take 3)).mFovControlData.camTele) ∧
    updateInputsValid floatStateZoomedOut = true ∧
    (generateFovControlResult floatStateZoomedOut).mFovControlData.camState =
      dual_cam_state.STATE_WIDE :=
  ⟨by decide!, by decide!,
    (alignment_active_set_never_both settingsNoPP (some capsMainWide) (some capsAuxTele)
      createdMainWide (by decide!) (opsReconfigureInTransition.take 3)).2.1,
    by decide!,
    ((alignment_active_set_never_both settingsNoPP (some capsMainWide) (some capsAuxTele)
      createdMainWide (by decide!) (opsReconfigureInTransition.take 3)).2.2
      floatStateZoomedOut (by decide!) (by decide!) (by decide!) (by decide!)
      (by decide!)).1 (by decide!)⟩

/-- C39: in every object of a run from `create` the preview master is the main or the aux
camera; a `processResultMetadata` call given both metadata containers returns one of the
two, never none, and the returned container carries the consensus autofocus state. -/
theorem fusion_with_both_never_missing (st : FOVCSettings)
    (capsMainCam capsAuxCam : Option cam_capability_t) (s0 : QCameraFOVControl)
    (hcreate : create capsMainCam capsAuxCam = some s0) (ops : List Op)
    (mainBuf auxBuf : metadata_buffer_t) :
    ((run st s0 ops).mFovControlResult.camMasterPreview = CAM_TYPE_MAIN ∨
      (run st s0 ops).mFovControlResult.camMasterPreview = CAM_TYPE_AUX) ∧
    ((processResultMetadata (run st s0 ops) (some mainBuf) (some auxBuf)).metaResult =
        some meta_ptr_t.META_MAIN ∨
      (processResultMetadata (run st s0 ops) (some mainBuf) (some auxBuf)).metaResult =
        some meta_ptr_t.META_AUX) ∧
    (processResultMetadata (run st s0 ops) (some mainBuf) (some auxBuf)).metaResult ≠ none ∧
    (returnedBuffer (processResultMetadata (run st s0 ops) (some mainBuf) (some auxBuf))).bind
        (fun mb => mb.CAM_INTF_META_AF_STATE) =
      some (consolidateAfState (reportedAfState (some mainBuf))
        (reportedAfState (some auxBuf))) := by
  have hinv := run_masterInvariant st ops s0 (create_masterInvariant _ _ s0 hcreate)
  have hp := specFusionMaster_physical (run st s0 ops) (some mainBuf) (some auxBuf) hinv
  have hne : ¬ CAM_TYPE_MAIN = CAM_TYPE_AUX := by decide
  have hres : (processResultMetadata (run st s0 ops) (some mainBuf) (some auxBuf)).metaResult =
        some meta_ptr_t.META_MAIN ∨
      (processResultMetadata (run st s0 ops) (some mainBuf) (some auxBuf)).metaResult =
        some meta_ptr_t.META_AUX := by
    rw [processResultMetadata_metaResult]
    rcases hp with h | h
    · left
      simp [h, hne]
    · right
      simp [h]
  refine ⟨hinv.2.1, hres, ?_, processResultMetadata_af_written _ _ _ hp⟩
  rcases hres with h | h <;> rw [h] <;> simp

/-- C39 (witness): on the object in TRANSITION of the pair main wide / aux tele the call
with both containers returns the main container. -/
theorem fusion_with_both_never_missing_witness :
    create (some capsMainWide) (some capsAuxTele) = some createdMainWide ∧
    (processResultMetadata
      (run settingsNoPP createdMainWide (opsReconfigureInTransition.take 3))
      (some metaLocked) (some metaNotFocused)).metaResult = some meta_ptr_t.META_MAIN ∧
    (processResultMetadata
      (run settingsNoPP createdMainWide (opsReconfigureInTransition.take 3))
      (some metaLocked) (some metaNotFocused)).metaResult ≠ none :=
  ⟨by decide!, by decide!,
    (fusion_with_both_never_missing settingsNoPP (some capsMainWide) (some capsAuxTele)
      createdMainWide (by decide!) (opsReconfigureInTransition.take 3)
      metaLocked metaNotFocused).2.2.1⟩

/-- C40: in every object of a run from `create` the preview master of the Result equals
its 3A master. -/
theorem preview_and_3A_master_agree (st : FOVCSettings)
    (capsMainCam capsAuxCam : Option cam_capability_t) (s0 : QCameraFOVControl)
    (hcreate : create capsMainCam capsAuxCam = some s0) (ops : List Op) :
    (run st s0 ops).mFovControlResult.camMasterPreview =
      (run st s0 ops).mFovControlResult.camMaster3A :=
  (run_masterInvariant st ops s0 (create_masterInvariant _ _ s0 hcreate)).2.2.1.symm

/-- C40 (witness): the run that enters TRANSITION and is then reconfigured leaves both
masters on the main camera. -/
theorem preview_and_3A_master_agree_witness :
    create (some capsMainWide) (some capsAuxTele) = some createdMainWide ∧
    (run settingsNoPP createdMainWide opsReconfigureInTransition).mFovControlResult.camMasterPreview =
      (run settingsNoPP createdMainWide opsReconfigureInTransition).mFovControlResult.camMaster3A ∧
    (run settingsNoPP createdMainWide opsReconfigureInTransition).mFovControlResult.camMaster3A =
      CAM_TYPE_MAIN :=
  ⟨by decide!,
    preview_and_3A_master_agree settingsNoPP (some capsMainWide) (some capsAuxTele)
      createdMainWide (by decide!) opsReconfigureInTransition,
    by decide!⟩

end qcamera

namespace qcamera

/-! ## Translated focus regions stay inside the frame -/

/-- The bounds corrections in closed form: the start is raised to 0, the size is cut when
the (wrapped) sum of start and size reaches the frame edge. -/
theorem clampFocusRect_eq (w h : Int) (a0 : cam_rect_t) :
    clampFocusRect w h a0 =
      { left := max a0.left 0,
        top := max a0.top 0,
        width := if wrapInt32 (max a0.left 0 + a0.width) ≥ w then
          wrapInt32 (w - max a0.left 0) else a0.width,
        height := if wrapInt32 (max a0.top 0 + a0.height) ≥ h then
          wrapInt32 (h - max a0.top 0) else a0.height } := by
  unfold clampFocusRect
  simp only []
  by_cases hl : a0.left < 0 <;> by_cases ht : a0.top < 0
  · rw [if_pos hl, if_pos ht, max_eq_right (le_of_lt hl), max_eq_right (le_of_lt ht)]
    split_ifs <;> rfl
  · rw [if_pos hl, if_neg ht, max_eq_right (le_of_lt hl), max_eq_left (not_lt.mp ht)]
    split_ifs <;> rfl
  · rw [if_neg hl, if_pos ht, max_eq_left (not_lt.mp hl), max_eq_right (le_of_lt ht)]
    split_ifs <;> rfl
  · rw [if_neg hl, if_neg ht, max_eq_left (not_lt.mp hl), max_eq_left (not_lt.mp ht)]
    split_ifs <;> rfl

/-- One coordinate of the bounds corrections: with the start `x` inside the frame and no
overflow of the sum, the corrected start and size stay inside the frame. -/
theorem clampFocus_axis (w x z : Int) (hw0 : INT32_MIN ≤ w) (hw : w ≤ INT32_MAX)
    (hx : x < w) (hz : INT32_MIN < z) (hs : max x 0 + z ≤ INT32_MAX) :
    0 ≤ max x 0 ∧
    max x 0 + (if wrapInt32 (max x 0 + z) ≥ w then wrapInt32 (w - max x 0) else z) ≤ w := by
  have h0 : 0 ≤ max x 0 := le_max_right x 0
  have h1 : wrapInt32 (max x 0 + z) = max x 0 + z :=
    wrapInt32_eq _ (by unfold INT32_MIN at hz ⊢; omega) hs
  have h2 : wrapInt32 (w - max x 0) = w - max x 0 := by
    apply wrapInt32_eq
    · rcases max_cases x 0 with ⟨hm, _⟩ | ⟨hm, _⟩
      · rw [hm]; unfold INT32_MIN; omega
      · rw [hm]; unfold INT32_MIN at hw0 ⊢; omega
    · unfold INT32_MAX at hw ⊢; omega
  rw [h1, h2]
  refine ⟨h0, ?_⟩
  split_ifs with hc
  · omega
  · omega

/-- The bounds corrections put a translated rectangle inside the frame when its start is
not at or beyond the frame and no sum overflows. -/
theorem clampFocusRect_in_frame (w h : Int) (a0 : cam_rect_t)
    (hw0 : INT32_MIN ≤ w) (hw : w ≤ INT32_MAX) (hh0 : INT32_MIN ≤ h) (hh : h ≤ INT32_MAX)
    (hl : a0.left < w) (ht : a0.top < h)
    (hwd : INT32_MIN < a0.width) (hht : INT32_MIN < a0.height)
    (hsw : max a0.left 0 + a0.width ≤ INT32_MAX)
    (hsh : max a0.top 0 + a0.height ≤ INT32_MAX) :
    rectInFrame (clampFocusRect w h a0) w h := by
  rw [clampFocusRect_eq]
  obtain ⟨h1, h2⟩ := clampFocus_axis w a0.left a0.width hw0 hw hl hwd hsw
  obtain ⟨h3, h4⟩ := clampFocus_axis h a0.top a0.height hh0 hh ht hht hsh
  exact ⟨h1, h3, h2, h4⟩

/-- When the translated start of its region lies inside the frame and the translation is
free of overflow, the body of the loop of `translateFocusAreas` writes a region that lies
inside the frame. -/
theorem translateFocusAreasBody_in_frame (s : QCameraFOVControl) (roiAfMain acc : cam_roi_info_t)
    (i : Nat) (hdef : focusTranslationDefined s = true)
    (h : ¬ ((translatedFocusStart s roiAfMain i).1 ≥ s.mFovControlData.previewSize.width ∨
      (translatedFocusStart s roiAfMain i).2 ≥ s.mFovControlData.previewSize.height))
    (hr : focusRectInRange s (roiAfMain.roi.getD i {}) = true) :
    ∃ a : cam_rect_t,
      rectInFrame a s.mFovControlData.previewSize.width s.mFovControlData.previewSize.height ∧
      translateFocusAreasBody s (roiFovRatio s) roiAfMain i acc =
        { acc with roi := acc.roi.set i a } := by
  unfold translatedFocusStart at h
  unfold translateFocusAreasBody
  simp only [] at h ⊢
  rw [if_neg h]
  refine ⟨_, ?_, rfl⟩
  push_neg at h
  obtain ⟨h1, h2⟩ := h
  unfold focusTranslationDefined at hdef
  unfold focusRectInRange at hr
  simp only [Bool.and_eq_true, decide_eq_true_eq] at hdef hr
  obtain ⟨⟨⟨⟨⟨⟨_, _⟩, _⟩, _⟩, _⟩, hw0, hw⟩, hh0, hh⟩ := hdef
  obtain ⟨⟨⟨⟨⟨⟨⟨_, _⟩, _⟩, _⟩, hwd, _⟩, hht, _⟩, hsw⟩, hsh⟩ := hr
  exact clampFocusRect_in_frame _ _ _ hw0 hw hh0 hh h1 h2 hwd hht hsw hsh

/-- The loop of `translateFocusAreas` over the first `n` regions, none of which reverts or
overflows: the table keeps its length and each of the first `n` regions lies inside the
frame. -/
theorem translateFocusAreasLoop_in_frame (s : QCameraFOVControl) (roiAfMain : cam_roi_info_t)
    (hdef : focusTranslationDefined s = true)
    (hno : ∀ i, i < roiAfMain.num_roi →
      ¬ ((translatedFocusStart s roiAfMain i).1 ≥ s.mFovControlData.previewSize.width ∨
        (translatedFocusStart s roiAfMain i).2 ≥ s.mFovControlData.previewSize.height))
    (hr : ∀ i, i < roiAfMain.num_roi →
      focusRectInRange s (roiAfMain.roi.getD i {}) = true) :
    ∀ n, n ≤ roiAfMain.num_roi →
      (translateFocusAreasLoop s (roiFovRatio s) roiAfMain n 0 roiAfMain).roi.length =
        roiAfMain.roi.length ∧
      ∀ j, j < n → j < roiAfMain.roi.length →
        rectInFrame
          ((translateFocusAreasLoop s (roiFovRatio s) roiAfMain n 0 roiAfMain).roi.getD j {})
          s.mFovControlData.previewSize.width s.mFovControlData.previewSize.height := by
  intro n
  induction n with
  | zero =>
    intro _
    refine ⟨rfl, ?_⟩
    intro j hj
    exact absurd hj (Nat.not_lt_zero j)
  | succ n ih =>
    intro hn
    obtain ⟨hlen, hin⟩ := ih (Nat.le_of_succ_le hn)
    obtain ⟨a, ha, hbody⟩ := translateFocusAreasBody_in_frame s roiAfMain
      (translateFocusAreasLoop s (roiFovRatio s) roiAfMain n 0 roiAfMain) n hdef
      (hno n (Nat.lt_of_succ_le hn)) (hr n (Nat.lt_of_succ_le hn))
    rw [translateFocusAreasLoop_last, Nat.zero_add, hbody]
    refine ⟨by simp [hlen], ?_⟩
    intro j hj hjl
    by_cases hjn : j = n
    · subst hjn
      have hl : j < (translateFocusAreasLoop s (roiFovRatio s) roiAfMain j 0
          roiAfMain).roi.length := by
        rw [hlen]
        exact hjl
      simp [List.getD_eq_getElem?_getD, List.getElem?_set, hl]
      exact ha
    · have hlt : j < n := lt_of_le_of_ne (Nat.lt_succ_iff.mp hj) hjn
      have hne : n ≠ j := fun h => hjn h.symm
      have := hin j hlt hjl
      simp only [List.getD_eq_getElem?_getD] at this ⊢
      rw [List.getElem?_set_ne hne]
      exact this

/-- C35 (counterexample): one focus region of width `2^30 - 64` at the centre of a
1920x1080 preview, FOV ratio 2, no shift.  The translated start (960, 540) is inside the
frame, so nothing is reverted; the translated width is `2^31 - 128`, the `int32_t` sum
left + width overflows to a negative value, the width is not cut, and the region of the
result reaches beyond the frame. -/
theorem translated_focus_region_overflows :
    stateZoomOne.mFovControlData.previewSize = { width := 1920, height := 1080 } ∧
    roiFovRatio stateZoomOne = 2 ∧
    (∀ m ∈ roiHugeWidth.roi, 0 ≤ m.width ∧ 0 ≤ m.height) ∧
    translatedFocusStart stateZoomOne roiHugeWidth 0 = (960, 540) ∧
    wrapInt32 (960 + 2147483520) = -2147482816 ∧
    translateFocusAreas stateZoomOne roiHugeWidth =
      { num_roi := 1,
        roi := [{ left := 960, top := 540, width := 2147483520, height := 20 }] } ∧
    ¬ (((translateFocusAreas stateZoomOne roiHugeWidth).roi.getD 0 {}).left +
        ((translateFocusAreas stateZoomOne roiHugeWidth).roi.getD 0 {}).width ≤
      stateZoomOne.mFovControlData.previewSize.width) := by
  refine ⟨by decide!, by decide!, by decide, by decide!, by decide, by decide!, by decide!⟩

/-- C35 (amended): when the quotients of the FOV ratio are defined, no translated start of
a focus region lies at or beyond the frame of the preview (no revert happens) and no
`int32_t` overflow occurs in the translation of a region, every region of the result of
`translateFocusAreas` lies inside the frame: left and top are not negative, left + width
is at most the preview width and top + height at most the preview height. -/
theorem translated_focus_regions_in_frame (s : QCameraFOVControl) (roiAfMain : cam_roi_info_t)
    (hlen : roiAfMain.num_roi ≤ roiAfMain.roi.length)
    (hdef : focusTranslationDefined s = true)
    (hno : ∀ i, i < roiAfMain.num_roi →
      ¬ ((translatedFocusStart s roiAfMain i).1 ≥ s.mFovControlData.previewSize.width ∨
        (translatedFocusStart s roiAfMain i).2 ≥ s.mFovControlData.previewSize.height))
    (hrange : ∀ i, i < roiAfMain.num_roi →
      focusRectInRange s (roiAfMain.roi.getD i {}) = true) :
    ∀ j, j < roiAfMain.num_roi →
      0 ≤ ((translateFocusAreas s roiAfMain).roi.getD j {}).left ∧
      0 ≤ ((translateFocusAreas s roiAfMain).roi.getD j {}).top ∧
      ((translateFocusAreas s roiAfMain).roi.getD j {}).left +
          ((translateFocusAreas s roiAfMain).roi.getD j {}).width ≤
        s.mFovControlData.previewSize.width ∧
      ((translateFocusAreas s roiAfMain).roi.getD j {}).top +
          ((translateFocusAreas s roiAfMain).roi.getD j {}).height ≤
        s.mFovControlData.previewSize.height := by
  intro j hj
  have h := (translateFocusAreasLoop_in_frame s roiAfMain hdef hno hrange roiAfMain.num_roi
    (le_refl _)).2 j hj (lt_of_lt_of_le hj hlen)
  exact h

/-- C35 (witness): three focus regions on a 1920x1080 preview at FOV ratio 2, none of
which reverts or overflows: the first is clamped at the left and top edges, the second is
shrunk at the right and bottom edges, the third needs no correction; all lie inside the
frame. -/
theorem translated_focus_regions_in_frame_witness :
    roiThreeRegions.num_roi ≤ roiThreeRegions.roi.length ∧
    focusTranslationDefined stateZoomOne = true ∧
    stateZoomOne.mFovControlData.previewSize = { width := 1920, height := 1080 } ∧
    translateFocusAreas stateZoomOne roiThreeRegions =
      { num_roi := 3,
        roi := [{ left := 0, top := 0, width := 600, height := 600 },
                { left := 1640, top := 860, width := 280, height := 220 },
                { left := 1040, top := 660, width := 200, height := 200 }] } ∧
    ((translateFocusAreas stateZoomOne roiThreeRegions).roi.getD 1 {}).left +
        ((translateFocusAreas stateZoomOne roiThreeRegions).roi.getD 1 {}).width ≤
      stateZoomOne.mFovControlData.previewSize.width :=
  ⟨by decide, by decide!, by decide!, by decide!,
    (translated_focus_regions_in_frame stateZoomOne roiThreeRegions (by decide)
      (by decide!) (by decide!) (by decide!) 1 (by decide)).2.2.1⟩

/-! ## The master and the active cameras -/

/-- C36 (code at the failing input): the run `opsMasterLags`.  After the zoom out the
state is TRANSITION with both cameras active and the aux camera (tele) as master.  In the
next frame the metadata of the main camera is missing, so the wide camera counts as not
streaming and the master stays on the aux camera; the same update, the zoom 1.0 being below
`transitionLow` 1.7, exits to WIDE and leaves only the main camera active: the preview
master is not among the active cameras. -/
theorem master_left_inactive_after_exit :
    (run settingsNoPP createdMainWide (opsMasterLags.take 5)).mFovControlData.configCompleted =
      true ∧
    (run settingsNoPP createdMainWide (opsMasterLags.take 5)).mFovControlData.camState =
      dual_cam_state.STATE_TRANSITION ∧
    (run settingsNoPP createdMainWide (opsMasterLags.take 5)).mFovControlResult.camMasterPreview =
      CAM_TYPE_AUX ∧
    (run settingsNoPP createdMainWide (opsMasterLags.take 5)).mFovControlResult.activeCameras =
      (CAM_TYPE_MAIN ||| CAM_TYPE_AUX) ∧
    masterIsActive
      (run settingsNoPP createdMainWide (opsMasterLags.take 5)).mFovControlResult = true ∧
    effectiveZoom (run settingsNoPP createdMainWide opsMasterLags).mFovControlData = 1 ∧
    (run settingsNoPP createdMainWide opsMasterLags).mFovControlData.wideCamStreaming = false ∧
    (run settingsNoPP createdMainWide opsMasterLags).mFovControlData.camState =
      dual_cam_state.STATE_WIDE ∧
    (run settingsNoPP createdMainWide opsMasterLags).mFovControlResult.camMasterPreview =
      CAM_TYPE_AUX ∧
    (run settingsNoPP createdMainWide opsMasterLags).mFovControlResult.activeCameras =
      CAM_TYPE_MAIN ∧
    (run settingsNoPP createdMainWide opsMasterLags).mFovControlResult.isValid = true ∧
    masterIsActive (run settingsNoPP createdMainWide opsMasterLags).mFovControlResult = false := by
  decide!

end qcamera

namespace qcamera

/-! ## The master stays active outside the exit of TRANSITION -/

/-- From a consistent object whose preview master is an active camera, a state-machine
update leaves the master among the active cameras unless it leaves TRANSITION: the entries
to TRANSITION activate both cameras and the updates that stay in WIDE or in TELE change
neither the master nor the active cameras. -/
theorem master_active_unless_exit (s : QCameraFOVControl) (hinv : masterInvariant s)
    (hact : stateActiveConsistent s) (hma : masterIsActive s.mFovControlResult = true) :
    masterIsActive (generateFovControlResult s).mFovControlResult = true ∨
    (s.mFovControlData.camState = dual_cam_state.STATE_TRANSITION ∧
      (generateFovControlResult s).mFovControlData.camState ≠
        dual_cam_state.STATE_TRANSITION) := by
  have hinv2 := generateFovControlResult_masterInvariant s hinv
  have hact2 := generateFovControlResult_consistent s hact
  have hk := generateFovControlResult_rolesKept s
  have hnd := generateFovControlResult_no_direct s
  obtain ⟨hr, hm, _, _⟩ := hinv2
  rw [hk.1, hk.2.1] at hr
  unfold stateActiveConsistent at hact hact2
  rw [hk.1, hk.2.1] at hact2
  unfold masterIsActive at hma ⊢
  by_cases hT : s.mFovControlData.camState = dual_cam_state.STATE_TRANSITION
  · by_cases hT2 : (generateFovControlResult s).mFovControlData.camState =
        dual_cam_state.STATE_TRANSITION
    · left
      rw [hT2] at hact2
      simp only [] at hact2
      rw [hact2]
      rcases hr with ⟨h1, h2⟩ | ⟨h1, h2⟩ <;> rw [h1, h2] <;>
        rcases hm with h | h <;> rw [h] <;> decide
    · exact Or.inr ⟨hT, hT2⟩
  · left
    have hout : s.mFovControlData.camState = dual_cam_state.STATE_WIDE ∨
        s.mFovControlData.camState = dual_cam_state.STATE_TELE := by
      cases hc : s.mFovControlData.camState with
      | STATE_WIDE => exact Or.inl rfl
      | STATE_TRANSITION => exact absurd hc hT
      | STATE_TELE => exact Or.inr rfl
    have hmk := (generateFovControlResult_masters_outside s (Or.inr hout)).1
    cases hc2 : (generateFovControlResult s).mFovControlData.camState with
    | STATE_TRANSITION =>
      rw [hc2] at hact2
      simp only [] at hact2
      rw [hact2]
      rcases hr with ⟨h1, h2⟩ | ⟨h1, h2⟩ <;> rw [h1, h2] <;>
        rcases hm with h | h <;> rw [h] <;> decide
    | STATE_WIDE =>
      rcases hout with ho | ho
      · rw [hc2] at hact2
        rw [ho] at hact
        simp only [] at hact hact2
        rw [hact2, hmk, ← hact]
        exact hma
      · exact absurd hc2 (hnd.2 ho)
    | STATE_TELE =>
      rcases hout with ho | ho
      · exact absurd hc2 (hnd.1 ho)
      · rw [hc2] at hact2
        rw [ho] at hact
        simp only [] at hact hact2
        rw [hact2, hmk, ← hact]
        exact hma

end qcamera
